import Mathlib

/-!
# Voice-bot browser client: capture encoder and playback queue

A shallow embedding of the streaming audio code of `day 19`, `day 21`, `day 22` and
`day 27` (`static/index.js`): the capture encoder inside `processor.onaudioprocess`
(down-sampling to 16 kHz and conversion of float samples to signed 16-bit PCM) and the
playback queue driven by `socket.onmessage`, `playNextChunk` and `stopCurrentPlayback`.

Numbers.  A sample read from a `Float32Array` is a JavaScript number: `NaN`, an infinity
or a finite value.  Finite values are kept as exact rationals.  The only arithmetic the
encoder performs on a sample is a multiplication by `0x8000` or `0x7FFF`; a float32 has a
24-bit significand and the constants have at most 16 bits, so the double-precision product
is exact and the rational product is the value the browser computes.  The down-sampler
divides and multiplies in double precision: each of its operations is the exact rational
operation followed by rounding to the nearest double (`roundDouble`).

Further parts: the capture encoder of `day 17`; the chat log and status line written by the
message handlers of days 22 and 27; the session life cycle of day 27 (`startRecording`,
`socket.onopen`, `stopRecording` and the handlers that call them) over the whole page state;
the texts shown on the REST failure paths of days 07, 10 and 11; and `initSession` of days
10 and 11 with the parsing of the page URL's query string.

Session handling of the earlier days: the page state of days 19 and 21 (`Recorder`) with
`startRecording`, `stopRecording`, the socket handlers and the frames asked of the socket;
the forgiving base64 decoding of `atob` and the chunk buffer of day 21; and the page state
of day 22 (`Page22`) with `stopRecording`, `socket.onclose` and `socket.onerror`.
-/

namespace VoiceBot

/-! ## JavaScript numbers -/

/-- A JavaScript number: `NaN`, `-Infinity`, `+Infinity` or a finite value. -/
inductive JSNumber where
  | nan
  | negInf
  | posInf
  | fin (q : ℚ)
deriving DecidableEq

/-- `Math.min(a, b)`: `NaN` if either argument is `NaN`, else the smaller one. -/
def Math.min : JSNumber → JSNumber → JSNumber
  | .nan, _ => .nan
  | _, .nan => .nan
  | .negInf, _ => .negInf
  | _, .negInf => .negInf
  | .posInf, b => b
  | a, .posInf => a
  | .fin p, .fin q => .fin (Min.min p q)

/-- `Math.max(a, b)`: `NaN` if either argument is `NaN`, else the larger one. -/
def Math.max : JSNumber → JSNumber → JSNumber
  | .nan, _ => .nan
  | _, .nan => .nan
  | .posInf, _ => .posInf
  | _, .posInf => .posInf
  | .negInf, b => b
  | a, .negInf => a
  | .fin p, .fin q => .fin (Max.max p q)

/-- The JavaScript comparison `a < b` (false as soon as an operand is `NaN`). -/
def JSNumber.lt : JSNumber → JSNumber → Bool
  | .nan, _ => false
  | _, .nan => false
  | .negInf, .negInf => false
  | .negInf, _ => true
  | _, .negInf => false
  | .posInf, _ => false
  | .fin _, .posInf => true
  | .fin p, .fin q => decide (p < q)

/-- The JavaScript product `x * k` for a finite constant `k`. -/
def JSNumber.mul (x : JSNumber) (k : ℚ) : JSNumber :=
  match x with
  | .nan => .nan
  | .fin q => .fin (q * k)
  | .posInf => if 0 < k then .posInf else if k < 0 then .negInf else .nan
  | .negInf => if 0 < k then .negInf else if k < 0 then .posInf else .nan

/-- Truncation toward zero of a finite value (the integer part used by `ToInt16`). -/
def truncate (q : ℚ) : Int :=
  if 0 ≤ q then ⌊q⌋ else ⌈q⌉

/-- Reduction of an integer modulo `2^16` into the signed 16-bit range. -/
def wrapInt16 (z : Int) : Int :=
  let m := z % 65536
  if 32768 ≤ m then m - 65536 else m

/-- The conversion `ToInt16` applied when a number is stored into an `Int16Array`:
`NaN` and the infinities become `0`; a finite value is truncated and wrapped. -/
def toInt16 : JSNumber → Int
  | .fin q => wrapInt16 (truncate q)
  | _ => 0

/-- The value stored when `v` is written into a `Float32Array` whose element type already
holds it; `undefined` (a read outside the source array) is stored as `NaN`. -/
def readSample (a : List JSNumber) (k : Int) : JSNumber :=
  if 0 ≤ k then a.getD k.toNat .nan else .nan

/-- The loop `for (let i = 0; i < n; i++) body(i)` as a state transformer. -/
def forLoop {σ : Type} (body : Nat → σ → σ) : Nat → σ → σ
  | 0, s => s
  | n + 1, s => body n (forLoop body n s)

/-! ## Capture encoder (`processor.onaudioprocess`) -/

/-- The capture encoder's `Math.max(-1, Math.min(1, x))`. -/
def clampSample (x : JSNumber) : JSNumber :=
  Math.max (.fin (-1)) (Math.min (.fin 1) x)

/-- The capture encoder's `sample < 0 ? sample * 0x8000 : sample * 0x7FFF`. -/
def scaleSample (sample : JSNumber) : JSNumber :=
  if sample.lt (.fin 0) then sample.mul 0x8000 else sample.mul 0x7FFF

/-- One iteration of the conversion loop: the value that ends up in `pcmData[i]`. -/
def encodeSample (x : JSNumber) : Int :=
  toInt16 (scaleSample (clampSample x))

/-- The conversion loop: `pcmData = new Int16Array(data.length)` filled index by index. -/
def encodePCM (data : List JSNumber) : List Int :=
  forLoop (fun i pcmData => pcmData.set i (encodeSample (readSample data i)))
    data.length (List.replicate data.length 0)

/-! ## Double-precision arithmetic

The down-sampler divides and multiplies JavaScript numbers, that is, IEEE 754 doubles
with round-to-nearest, ties-to-even.  A double is kept as the rational it denotes, and an
operation is the exact rational operation followed by `roundDouble`.  The exponent range
is not modelled: `audioContext.sampleRate` is a positive single-precision float and the
lengths are array lengths, so none of the operations of the down-sampler leaves the range
of normal doubles. -/

/-- Rounding of a rational to the nearest integer, ties to the even one. -/
def roundHalfEven (z : ℚ) : Int :=
  let f := ⌊z⌋
  if z - f < 1 / 2 then f
  else if 1 / 2 < z - f then f + 1
  else if f % 2 = 0 then f else f + 1

/-- The exponent `e` for which `|x| / 2 ^ e` lies in `[2 ^ 52, 2 ^ 53)`: the doubles around
`x` are the integer multiples of `2 ^ e` (53-bit significands). -/
def ulpExponent (x : ℚ) : Int :=
  Int.log 2 |x| - 52

/-- The double nearest to `x`, ties to the even significand. -/
def roundDouble (x : ℚ) : ℚ :=
  if x = 0 then 0 else (roundHalfEven (x / 2 ^ ulpExponent x) : ℚ) * 2 ^ ulpExponent x

/-- The `newLength` of the down-sampler of days 22 and 27:
`ratio = sourceSampleRate / targetSampleRate`, then `Math.floor(inputData.length / ratio)`,
both divisions in double precision. -/
def newLength (sampleRate : ℚ) (inputLength : Nat) : Nat :=
  let ratio := roundDouble (sampleRate / 16000)
  (⌊roundDouble ((inputLength : ℚ) / ratio)⌋).toNat

/-- The down-sampling loop of days 22 and 27:
`downsampledData[i] = inputData[Math.floor(i * ratio)]` for `i < newLength`, the product in
double precision. -/
def downsample (sampleRate : ℚ) (inputData : List JSNumber) : List JSNumber :=
  let ratio := roundDouble (sampleRate / 16000)
  let n := newLength sampleRate inputData.length
  forLoop
    (fun i downsampledData =>
      downsampledData.set i (readSample inputData ⌊roundDouble ((i : ℚ) * ratio)⌋))
    n (List.replicate n (.fin 0))

/-- The capture callback of days 19 and 21 (the context already runs at 16 kHz): the frame
handed to `socket.send`, if the socket is open. -/
def onaudioprocess19 (socketOpen : Bool) (inputData : List JSNumber) : Option (List Int) :=
  if socketOpen then some (encodePCM inputData) else none

/-- The capture callback of day 22: down-sample, encode, send if the socket is open. -/
def onaudioprocess22 (socketOpen : Bool) (sampleRate : ℚ) (inputData : List JSNumber) :
    Option (List Int) :=
  if socketOpen then some (encodePCM (downsample sampleRate inputData)) else none

/-- The capture callback of day 27: as day 22, after the guard `if (!isRecording) return`. -/
def onaudioprocess27 (isRecording socketOpen : Bool) (sampleRate : ℚ)
    (inputData : List JSNumber) : Option (List Int) :=
  if !isRecording then none
  else if socketOpen then some (encodePCM (downsample sampleRate inputData)) else none


/-! ## Playback queue: data model

The playback handlers read and write the module-level variables `audioContext`,
`audioQueue`, `isPlaying`, `currentAudioSource` (day 27), `audioChunkIndex` (day 22),
`isRecording` and `socket`.  The state below holds these variables together with the part
of the browser that the handlers talk to: the `decodeAudioData` calls whose callback has not
run yet, the buffer sources that were started and whose `ended` event has not been
dispatched yet, and a trace of the calls made.  Statements of the handlers that only write
page content (status text, chat log, notifications) or capture-side variables (`processor`,
`source`, `heartbeatInterval`, `recordBtn.mediaStream`) do not touch this state. -/

/-- The bytes of one audio chunk (the `ArrayBuffer` pushed onto `audioQueue`). -/
abbrev Chunk := List Nat

/-- The `data` field of an `audio` message. -/
inductive AudioData where
  /-- missing or empty: the test `if (data.data)` fails -/
  | absent
  /-- non-empty but not valid base64: `atob` throws -/
  | malformed
  /-- non-empty valid base64 text that `atob` decodes to `bytes` -/
  | base64 (bytes : Chunk)
deriving DecidableEq

/-- A parsed socket message, by its `type`. -/
inductive Message where
  | status (message : String)
  | transcription (endOfTurn : Bool) (text : String)
  | llmChunk (data : String)
  | audioStart
  | audioInterrupt
  | startTimer (durationSeconds : Nat)
  | audio (data : AudioData)
  | audioEnd
  | error (message : String)
  | pong
  | unknown
deriving DecidableEq

/-- `WebSocket.readyState`. -/
inductive ReadyState where
  | CONNECTING
  | OPEN
  | CLOSING
  | CLOSED
deriving DecidableEq

/-- `AudioContext.state`. -/
inductive ContextState where
  | suspended
  | running
  | closed
deriving DecidableEq

/-- An `AudioBufferSourceNode` created by a decode callback, with the chunk it plays. -/
structure BufferSource where
  id : Nat
  buffer : Chunk
deriving DecidableEq

/-- Calls and callbacks recorded in the trace. -/
inductive Effect where
  /-- `audioContext.decodeAudioData(chunk, ...)` was called -/
  | decodeAudioData (chunk : Chunk)
  /-- the error callback of the decode of `chunk` ran -/
  | decodeError (chunk : Chunk)
  /-- `sourceNode.start()` on the source playing `chunk` -/
  | start (chunk : Chunk)
  /-- `currentAudioSource.stop()` on the source playing `chunk` -/
  | stop (chunk : Chunk)
  /-- the `onended` handler of the source playing `chunk` ran -/
  | ended (chunk : Chunk)
  /-- `audioContext.close()` -/
  | closeContext
  /-- `socket.close()` -/
  | closeSocket
deriving DecidableEq

/-- Events delivered to the page by the browser's event loop. -/
inductive Event where
  /-- `socket.onmessage` with the parsed message -/
  | message (m : Message)
  /-- success callback of the `k`-th pending `decodeAudioData` call -/
  | decodeSuccess (k : Nat)
  /-- error callback of the `k`-th pending `decodeAudioData` call -/
  | decodeError (k : Nat)
  /-- `onended` of the started source with the given id -/
  | ended (id : Nat)
  /-- `stopRecording()` from the record button, `socket.onclose`, `socket.onerror`
  or `beforeunload` -/
  | stopRecording
deriving DecidableEq

/-- The test `audioContext && audioContext.state !== "closed"`. -/
def contextUsable : Option ContextState → Bool
  | none => false
  | some .closed => false
  | some _ => true

/-- The chunks carried by the valid `audio` messages of an event list, in arrival order. -/
def arrivals (es : List Event) : List Chunk :=
  es.filterMap fun e =>
    match e with
    | .message (.audio (.base64 bytes)) => some bytes
    | _ => none

/-- The chunks whose decoding is started in a trace, in order. -/
def decodeStarts (t : List Effect) : List Chunk :=
  t.filterMap fun a =>
    match a with
    | .decodeAudioData c => some c
    | _ => none

/-- One complete decode-and-play cycle of a chunk. -/
def cycle (c : Chunk) : List Effect :=
  [.decodeAudioData c, .start c, .ended c]

/-- Events of undisturbed playback: everything except `audio_start`, `audio_interrupt`,
`error`, a decode failure and a stop of the session. -/
def quiet : Event → Bool
  | .message .audioStart => false
  | .message .audioInterrupt => false
  | .message (.error _) => false
  | .decodeError _ => false
  | .stopRecording => false
  | _ => true

/-- An `audio` message whose payload is not valid base64. -/
def isMalformedAudio : Event → Bool
  | .message (.audio .malformed) => true
  | _ => false

/-- An `audio` message with a non-empty valid payload. -/
def isValidAudio : Event → Bool
  | .message (.audio (.base64 _)) => true
  | _ => false

/-! ## Playback queue of day 27 -/

/-- The variables of day 27 used by playback, and the browser side of playback. -/
structure Client27 where
  audioContext : Option ContextState
  isRecording : Bool
  socket : Option ReadyState
  audioQueue : List Chunk
  isPlaying : Bool
  currentAudioSource : Option BufferSource
  /-- `decodeAudioData` calls whose callback has not run yet -/
  decoding : List Chunk
  /-- started sources whose `ended` event is still to come; the flag records `stop()` -/
  sources : List (BufferSource × Bool)
  /-- identity of the next source node to be created -/
  nextId : Nat
  trace : List Effect
deriving DecidableEq

/-- `stopCurrentPlayback` of day 27. -/
def stopCurrentPlayback27 (s : Client27) : Client27 :=
  let s1 : Client27 :=
    match s.currentAudioSource with
    | some node =>
      { s with
        sources := s.sources.map fun p => if p.1.id = node.id then (p.1, true) else p
        trace := s.trace ++ [.stop node.buffer]
        currentAudioSource := none }
    | none => s
  { s1 with audioQueue := [], isPlaying := false }

/-- `playNextChunk` of day 27, up to the call of `decodeAudioData`. -/
def playNextChunk27 (s : Client27) : Client27 :=
  if s.audioQueue.length = 0 ∨ !contextUsable s.audioContext then
    { s with isPlaying := false }
  else
    match s.audioQueue with
    | [] => { s with isPlaying := false }
    | chunk :: rest =>
      { s with
        isPlaying := true
        audioQueue := rest
        decoding := s.decoding ++ [chunk]
        trace := s.trace ++ [.decodeAudioData chunk] }

/-- The success callback passed to `decodeAudioData` in day 27, for the decoded `chunk`.
With `audioContext` null the first statement throws and nothing else happens. -/
def decodeSuccess27 (s : Client27) (chunk : Chunk) : Client27 :=
  match s.audioContext with
  | none => s
  | some _ =>
    let sourceNode : BufferSource := { id := s.nextId, buffer := chunk }
    { s with
      nextId := s.nextId + 1
      sources := s.sources ++ [(sourceNode, false)]
      trace := s.trace ++ [.start chunk]
      currentAudioSource := some sourceNode }

/-- The error callback passed to `decodeAudioData` in day 27. -/
def decodeFailure27 (s : Client27) : Client27 :=
  playNextChunk27 s

/-- The `onended` handler of a source node in day 27. -/
def onended27 (s : Client27) : Client27 :=
  playNextChunk27 { s with currentAudioSource := none }

/-- `stopRecording` of day 27, on the variables of this state. -/
def stopRecording27 (s : Client27) : Client27 :=
  if !s.isRecording then s
  else
    let s1 := stopCurrentPlayback27 { s with isRecording := false }
    let s2 : Client27 :=
      if s1.socket = some .OPEN then { s1 with trace := s1.trace ++ [.closeSocket] } else s1
    { s2 with socket := none }

/-- `socket.onmessage` of day 27, on the variables of this state.  The cases `status`,
`transcription`, `llm_chunk`, `start_timer`, `audio_end` and `pong` write page content only;
`audio_interrupt` and unknown types match no case. -/
def onmessage27 (s : Client27) (m : Message) : Client27 :=
  match m with
  | .audioStart => stopCurrentPlayback27 s
  | .audio data =>
    match data with
    | .absent => s
    | .malformed => s
    | .base64 bytes =>
      let s1 : Client27 := { s with audioQueue := s.audioQueue ++ [bytes] }
      if !s1.isPlaying then playNextChunk27 s1 else s1
  | .error _ => stopRecording27 s
  | _ => s

/-- One event of day 27; `none` when the event cannot occur in this state (no such pending
decode, no such started source). -/
def step27 (s : Client27) : Event → Option Client27
  | .message m => some (onmessage27 s m)
  | .decodeSuccess k =>
    match s.decoding[k]? with
    | none => none
    | some chunk => some (decodeSuccess27 { s with decoding := s.decoding.eraseIdx k } chunk)
  | .decodeError k =>
    match s.decoding[k]? with
    | none => none
    | some chunk =>
      some (decodeFailure27
        { s with decoding := s.decoding.eraseIdx k, trace := s.trace ++ [.decodeError chunk] })
  | .ended id =>
    match s.sources.find? (fun p => p.1.id = id) with
    | none => none
    | some p =>
      some (onended27
        { s with
          sources := s.sources.filter (fun q => q.1.id ≠ id)
          trace := s.trace ++ [.ended p.1.buffer] })
  | .stopRecording => some (stopRecording27 s)

/-- A sequence of events of day 27. -/
def run27 (s : Client27) : List Event → Option Client27
  | [] => some s
  | e :: es => (step27 s e).bind fun s1 => run27 s1 es

/-- What the callbacks still owed by the browser will add to the trace when every pending
decode succeeds. -/
def inFlight27 (s : Client27) : List Effect :=
  s.decoding.flatMap (fun c => [Effect.start c, Effect.ended c])
    ++ s.sources.map (fun p => Effect.ended p.1.buffer)

/-- The actions still to come: the callbacks in flight, then one cycle per queued chunk. -/
def future27 (s : Client27) : List Effect :=
  inFlight27 s ++ s.audioQueue.flatMap cycle

/-- Idle: nothing playing, nothing queued, nothing in flight, and a usable audio context. -/
def Idle27 (s : Client27) : Prop :=
  s.isPlaying = false ∧ s.audioQueue = [] ∧ contextUsable s.audioContext = true ∧
    s.decoding = [] ∧ s.sources = [] ∧ s.currentAudioSource = none

/-- The states of undisturbed playback: idle, decoding one chunk, or playing one chunk. -/
def Sequential27 (s : Client27) : Prop :=
  contextUsable s.audioContext = true ∧
    ((s.isPlaying = false ∧ s.audioQueue = [] ∧ s.decoding = [] ∧ s.sources = [] ∧
        s.currentAudioSource = none) ∨
     (s.isPlaying = true ∧ ∃ c, s.decoding = [c] ∧ s.sources = [] ∧
        s.currentAudioSource = none) ∨
     (s.isPlaying = true ∧ ∃ node, s.decoding = [] ∧ s.sources = [(node, false)] ∧
        s.currentAudioSource = some node))

/-- The callback the browser delivers next when every decode succeeds, if one is owed. -/
def nextCallback27 (s : Client27) : Option Event :=
  match s.decoding with
  | _ :: _ => some (.decodeSuccess 0)
  | [] =>
    match s.sources with
    | p :: _ => some (.ended p.1.id)
    | [] => none

/-- Let the browser deliver up to `fuel` owed callbacks. -/
def drain27 : Nat → Client27 → Client27
  | 0, s => s
  | fuel + 1, s =>
    match nextCallback27 s with
    | none => s
    | some e =>
      match step27 s e with
      | none => s
      | some s1 => drain27 fuel s1

/-- The number of chunks being decoded or played (started, not stopped, not ended). -/
def activeCount27 (s : Client27) : Nat :=
  s.decoding.length + (s.sources.filter fun p => !p.2).length

/-- The state at the start of a session of day 27: `startRecording` has created (or
resumed) the audio context; the queue is empty and nothing is playing or in flight. -/
def sessionStart27 : Client27 :=
  { audioContext := some .running
    isRecording := true
    socket := some .OPEN
    audioQueue := []
    isPlaying := false
    currentAudioSource := none
    decoding := []
    sources := []
    nextId := 0
    trace := [] }

/-! ## Playback queue of day 22 -/

/-- The variables of day 22 used by playback, and the browser side of playback. -/
structure Client22 where
  audioContext : Option ContextState
  isRecording : Bool
  socket : Option ReadyState
  audioQueue : List Chunk
  isPlaying : Bool
  audioChunkIndex : Nat
  /-- `decodeAudioData` calls whose callback has not run yet -/
  decoding : List Chunk
  /-- started sources whose `ended` event is still to come; the flag records that the
  context they play in was closed -/
  sources : List (BufferSource × Bool)
  /-- identity of the next source node to be created -/
  nextId : Nat
  trace : List Effect
deriving DecidableEq

/-- `stopCurrentPlayback` of day 22: it empties the queue and closes the audio context. -/
def stopCurrentPlayback22 (s : Client22) : Client22 :=
  let s1 : Client22 := { s with audioQueue := [], isPlaying := false }
  if contextUsable s1.audioContext then
    { s1 with
      audioContext := none
      sources := s1.sources.map fun p => (p.1, true)
      trace := s1.trace ++ [.closeContext] }
  else s1

/-- `playNextChunk` of day 22, up to the call of `decodeAudioData`. -/
def playNextChunk22 (s : Client22) : Client22 :=
  if s.audioQueue.length = 0 ∨ !contextUsable s.audioContext then
    { s with isPlaying := false }
  else
    match s.audioQueue with
    | [] => { s with isPlaying := false }
    | chunk :: rest =>
      { s with
        isPlaying := true
        audioQueue := rest
        decoding := s.decoding ++ [chunk]
        trace := s.trace ++ [.decodeAudioData chunk] }

/-- The success callback passed to `decodeAudioData` in day 22, for the decoded `chunk`.
With `audioContext` null the first statement throws and nothing else happens. -/
def decodeSuccess22 (s : Client22) (chunk : Chunk) : Client22 :=
  match s.audioContext with
  | none => s
  | some _ =>
    let sourceNode : BufferSource := { id := s.nextId, buffer := chunk }
    { s with
      nextId := s.nextId + 1
      sources := s.sources ++ [(sourceNode, false)]
      trace := s.trace ++ [.start chunk] }

/-- The error callback passed to `decodeAudioData` in day 22. -/
def decodeFailure22 (s : Client22) : Client22 :=
  playNextChunk22 s

/-- The `onended` handler of a source node in day 22. -/
def onended22 (s : Client22) : Client22 :=
  playNextChunk22 s

/-- `stopRecording` of day 22, on the variables of this state. -/
def stopRecording22 (s : Client22) : Client22 :=
  if !s.isRecording then s
  else
    let s1 : Client22 := { s with isRecording := false, audioQueue := [], isPlaying := false }
    let s2 : Client22 :=
      match s1.audioContext with
      | some _ =>
        { s1 with
          audioContext := none
          sources := s1.sources.map fun p => (p.1, true)
          trace := s1.trace ++ [.closeContext] }
      | none => s1
    let s3 : Client22 :=
      if s2.socket = some .OPEN then { s2 with trace := s2.trace ++ [.closeSocket] } else s2
    { s3 with socket := none }

/-- `socket.onmessage` of day 22, on the variables of this state; the body runs inside
`try`/`catch`, so a throwing `atob` ends the handler.  The cases `pong`, `status`,
`transcription`, `llm_chunk`, `audio_end` and `error` write page content only. -/
def onmessage22 (s : Client22) (m : Message) : Client22 :=
  match m with
  | .audioStart => { s with audioQueue := [], audioChunkIndex := 0 }
  | .audioInterrupt => stopCurrentPlayback22 s
  | .audio data =>
    match data with
    | .absent => s
    | .malformed => s
    | .base64 bytes =>
      let s1 : Client22 :=
        { s with audioChunkIndex := s.audioChunkIndex + 1, audioQueue := s.audioQueue ++ [bytes] }
      if !s1.isPlaying then playNextChunk22 s1 else s1
  | _ => s

/-- One event of day 22; `none` when the event cannot occur in this state. -/
def step22 (s : Client22) : Event → Option Client22
  | .message m => some (onmessage22 s m)
  | .decodeSuccess k =>
    match s.decoding[k]? with
    | none => none
    | some chunk => some (decodeSuccess22 { s with decoding := s.decoding.eraseIdx k } chunk)
  | .decodeError k =>
    match s.decoding[k]? with
    | none => none
    | some chunk =>
      some (decodeFailure22
        { s with decoding := s.decoding.eraseIdx k, trace := s.trace ++ [.decodeError chunk] })
  | .ended id =>
    match s.sources.find? (fun p => p.1.id = id) with
    | none => none
    | some p =>
      some (onended22
        { s with
          sources := s.sources.filter (fun q => q.1.id ≠ id)
          trace := s.trace ++ [.ended p.1.buffer] })
  | .stopRecording => some (stopRecording22 s)

/-- A sequence of events of day 22. -/
def run22 (s : Client22) : List Event → Option Client22
  | [] => some s
  | e :: es => (step22 s e).bind fun s1 => run22 s1 es

/-- What the callbacks still owed by the browser will add to the trace when every pending
decode succeeds (day 22). -/
def inFlight22 (s : Client22) : List Effect :=
  s.decoding.flatMap (fun c => [Effect.start c, Effect.ended c])
    ++ s.sources.map (fun p => Effect.ended p.1.buffer)

/-- The actions still to come in day 22. -/
def future22 (s : Client22) : List Effect :=
  inFlight22 s ++ s.audioQueue.flatMap cycle

/-- The states of undisturbed playback in day 22: idle, decoding one chunk, or playing one
chunk. -/
def Sequential22 (s : Client22) : Prop :=
  contextUsable s.audioContext = true ∧
    ((s.isPlaying = false ∧ s.audioQueue = [] ∧ s.decoding = [] ∧ s.sources = []) ∨
     (s.isPlaying = true ∧ ∃ c, s.decoding = [c] ∧ s.sources = []) ∨
     (s.isPlaying = true ∧ ∃ node, s.decoding = [] ∧ s.sources = [(node, false)]))

/-- The callback the browser delivers next in day 22 when every decode succeeds. -/
def nextCallback22 (s : Client22) : Option Event :=
  match s.decoding with
  | _ :: _ => some (.decodeSuccess 0)
  | [] =>
    match s.sources with
    | p :: _ => some (.ended p.1.id)
    | [] => none

/-- Let the browser deliver up to `fuel` owed callbacks (day 22). -/
def drain22 : Nat → Client22 → Client22
  | 0, s => s
  | fuel + 1, s =>
    match nextCallback22 s with
    | none => s
    | some e =>
      match step22 s e with
      | none => s
      | some s1 => drain22 fuel s1

/-- The state at the start of a session of day 22. -/
def sessionStart22 : Client22 :=
  { audioContext := some .running
    isRecording := true
    socket := some .OPEN
    audioQueue := []
    isPlaying := false
    audioChunkIndex := 0
    decoding := []
    sources := []
    nextId := 0
    trace := [] }

/-! ## Capture encoder of day 17 and capture callback inside the day-22 state -/

/-- One iteration of the conversion loop of day 17:
`pcmData[i] = Math.max(-1, Math.min(1, inputData[i])) * 0x7FFF`. -/
def encodeSample17 (x : JSNumber) : Int :=
  toInt16 ((clampSample x).mul 0x7FFF)

/-- The capture callback of day 17: nothing unless the socket is open, else the frame of
converted samples handed to `ws.send`. -/
def onaudioprocess17 (socketOpen : Bool) (inputData : List JSNumber) : Option (List Int) :=
  if !socketOpen then none
  else
    some (forLoop (fun i pcmData => pcmData.set i (encodeSample17 (readSample inputData i)))
      inputData.length (List.replicate inputData.length 0))

/-- The capture callback of day 22 run against the page variables: it reads
`audioContext.sampleRate`, which throws when `audioContext` is null, so no frame is built or
sent; otherwise it is `onaudioprocess22` with the context's sample rate and the state of the
socket the variable `socket` refers to. -/
def onaudioprocessIn22 (s : Client22) (sampleRate : ℚ) (inputData : List JSNumber) :
    Option (List Int) :=
  match s.audioContext with
  | none => none
  | some _ => onaudioprocess22 (decide (s.socket = some .OPEN)) sampleRate inputData

/-! ## Chat log and status line (days 22 and 27) -/

/-- The `sender` argument of `addToChatLog`. -/
inductive Sender where
  | user
  | ai
deriving DecidableEq

/-- One `chat-message` element of the chat container. -/
structure ChatEntry where
  /-- identity of the content span, as held by `currentAiMessageContentElement` -/
  id : Nat
  sender : Sender
  /-- text of the span in front of the content (`Explorer: `, `You: `, `Diva: `) -/
  label : String
  /-- `textContent` of the content span -/
  content : String
deriving DecidableEq

/-- The part of the page written by the message handlers of days 22 and 27. -/
structure ChatView where
  /-- children of `chatContainer`, oldest first -/
  chatContainer : List ChatEntry
  currentAiMessageContentElement : Option Nat
  /-- `statusDisplay.textContent` -/
  statusText : String
  /-- `statusDisplay` carries the class `text-red-400` -/
  statusRed : Bool
  /-- `clearBtnContainer` carries the class `hidden` -/
  clearBtnHidden : Bool
  /-- identity of the next element to be created -/
  nextElement : Nat
deriving DecidableEq

/-- `addToChatLog(text, sender)`: append one message element and return its content span;
`userLabel` is the day's text for the user (`Explorer: ` in day 27, `You: ` in day 22). -/
def addToChatLog (userLabel : String) (v : ChatView) (text : String) (sender : Sender) :
    ChatView × Nat :=
  let entry : ChatEntry :=
    { id := v.nextElement
      sender := sender
      label := if sender = .user then userLabel else "Diva: "
      content := text }
  ({ v with
      chatContainer := v.chatContainer ++ [entry]
      clearBtnHidden := false
      nextElement := v.nextElement + 1 },
    entry.id)

/-- `element.textContent += data` for the content span with the given identity; a span
that is no longer in the container is not part of the page any more. -/
def appendContent (log : List ChatEntry) (id : Nat) (data : String) : List ChatEntry :=
  log.map fun e => if e.id = id then { e with content := e.content ++ data } else e

/-- The cases `transcription` and `llm_chunk`, which days 22 and 27 share up to the texts. -/
def chatMessage (userLabel thinking : String) (v : ChatView) (m : Message) : ChatView :=
  match m with
  | .transcription endOfTurn text =>
    if endOfTurn && text != "" then
      let v1 := (addToChatLog userLabel v text .user).1
      { v1 with statusText := thinking, currentAiMessageContentElement := none }
    else v
  | .llmChunk data =>
    if data != "" then
      let (v1, el) : ChatView × Nat :=
        match v.currentAiMessageContentElement with
        | some el => (v, el)
        | none =>
          let r := addToChatLog userLabel v "" .ai
          ({ r.1 with currentAiMessageContentElement := some r.2 }, r.2)
      { v1 with chatContainer := appendContent v1.chatContainer el data }
    else v
  | _ => v

/-- The page writes of `socket.onmessage` in day 27, except for the case `error` (which also
stops the session) and the timer popup of `start_timer`. -/
def onmessageView27 (v : ChatView) (m : Message) : ChatView :=
  match m with
  | .status message => { v with statusText := message }
  | .transcription _ _ => chatMessage "Explorer: " "Diva is pondering the quest..." v m
  | .llmChunk _ => chatMessage "Explorer: " "Diva is pondering the quest..." v m
  | .audioStart => { v with statusText := "Receiving Diva's transmission..." }
  | .audioEnd => { v with statusText := "Diva's transmission is complete." }
  | _ => v

/-- The page writes of `socket.onmessage` in day 22. -/
def onmessageView22 (v : ChatView) (m : Message) : ChatView :=
  match m with
  | .status message => { v with statusText := message }
  | .transcription _ _ => chatMessage "You: " "Diva is thinking..." v m
  | .llmChunk _ => chatMessage "You: " "Diva is thinking..." v m
  | .audioStart => { v with statusText := "Receiving audio response..." }
  | .audioInterrupt => { v with statusText := "Interrupted. Listening..." }
  | .audioEnd => { v with statusText := "Audio playback finished." }
  | .error message => { v with statusText := "Error: " ++ message, statusRed := true }
  | _ => v

/-! ## Session life cycle of day 27

The whole page state of day 27: the playback variables of `Client27` (with `audioContext`,
`isRecording` and the socket that the variable `socket` refers to), the chat view, the
capture-side variables, and the browser objects the handlers create: sockets that the
variable `socket` no longer refers to (their handlers stay attached and read the variable,
not the socket they were attached to), pending `audioContext.resume()` and `getUserMedia`
promises, microphone streams, intervals and the nodes of the capture graph.  The periodic
heartbeat tick and the capture callback change none of these and are not events here. -/

/-- Which WebSocket a browser event concerns. -/
inductive SocketRef where
  /-- the socket the variable `socket` refers to -/
  | current
  /-- the `k`-th socket that the variable `socket` no longer refers to -/
  | orphan (k : Nat)
deriving DecidableEq

/-- The page state of day 27. -/
structure Page27 where
  client : Client27
  view : ChatView
  /-- `source`: the media stream source node, named by the stream it was made from -/
  source : Option Nat
  /-- `processor`: the script processor node -/
  processor : Option Nat
  heartbeatInterval : Option Nat
  /-- `recordBtn.mediaStream` -/
  mediaStream : Option Nat
  /-- the record button carries the class `recording` -/
  recordBtnRecording : Bool
  /-- `chatDisplay` carries the class `hidden` -/
  chatDisplayHidden : Bool
  /-- toasts created by `showNotification`: text and error flag -/
  notifications : List (String × Bool)
  /-- texts passed to `alert` -/
  alerts : List String
  /-- sockets created by `startRecording` that `socket` no longer refers to -/
  orphans : List ReadyState
  /-- calls of `startRecording` suspended at `await audioContext.resume()` -/
  pendingResume : Nat
  /-- `getUserMedia` requests that are not settled yet -/
  pendingMic : Nat
  /-- microphone streams acquired so far; the flag records `stop()` on every track -/
  streams : List (Nat × Bool)
  /-- intervals that have not been cleared -/
  timers : List Nat
  /-- source nodes (named by their stream) that are still connected -/
  connectedSources : List Nat
  /-- processor nodes that are still connected -/
  connectedProcessors : List Nat
  /-- types of the text frames passed to `socket.send` while the socket was open -/
  sent : List String
  nextStream : Nat
  nextTimer : Nat
  nextProcessor : Nat
deriving DecidableEq

/-- Events delivered to the page of day 27. -/
inductive PageEvent where
  /-- click on the record button; `fresh` is the state in which a newly constructed
  `AudioContext` starts (`none`: the constructor throws) -/
  | click (fresh : Option ContextState)
  /-- an awaited `audioContext.resume()` resolves -/
  | resumeDone
  /-- an awaited `audioContext.resume()` rejects -/
  | resumeFailed
  /-- a connecting socket opens: `onopen` -/
  | socketOpen (r : SocketRef)
  /-- a socket closes: `onclose` -/
  | socketClose (r : SocketRef)
  /-- a socket reports an error: `onerror` -/
  | socketError (r : SocketRef)
  /-- a pending `getUserMedia` resolves with a new stream -/
  | micGranted
  /-- a pending `getUserMedia` rejects -/
  | micDenied
  /-- `onmessage` with the parsed message -/
  | message (m : Message)
  /-- a decode callback or the `onended` of a source (`Event.decodeSuccess`,
  `Event.decodeError`, `Event.ended`) -/
  | callback (e : Event)
deriving DecidableEq

/-- `updateUIForRecording(isRec, shouldUpdateStatus)` of day 27. -/
def updateUIForRecording27 (isRec shouldUpdateStatus : Bool) (s : Page27) : Page27 :=
  if isRec then
    { s with
      recordBtnRecording := true
      view := { s.view with statusText := "Establishing connection..." }
      chatDisplayHidden := false }
  else
    { s with
      recordBtnRecording := false
      view :=
        { s.view with
          statusText := if shouldUpdateStatus then "Ready for a new quest!" else s.view.statusText
          statusRed := false } }

/-- The socket object that the variable `socket` lets go of when `stopRecording` sets it to
null: an open socket has been told to close, any other keeps its state. -/
def released (socket : Option ReadyState) : List ReadyState :=
  match socket with
  | some .OPEN => [.CLOSING]
  | some r => [r]
  | none => []

/-- `stopRecording(shouldUpdateStatus)` of day 27 on the whole page state; the playback
variables, `isRecording` and `socket` are written as in `stopRecording27`. -/
def stopRecordingPage27 (shouldUpdateStatus : Bool) (s : Page27) : Page27 :=
  if !s.client.isRecording then s
  else
    let s1 : Page27 :=
      { s with
        client := stopRecording27 s.client
        timers :=
          match s.heartbeatInterval with
          | some t => s.timers.filter fun x => x ≠ t
          | none => s.timers
        connectedProcessors :=
          match s.processor with
          | some p => s.connectedProcessors.filter fun x => x ≠ p
          | none => s.connectedProcessors
        processor := none
        connectedSources :=
          match s.source with
          | some x => s.connectedSources.filter fun y => y ≠ x
          | none => s.connectedSources
        source := none
        streams :=
          match s.mediaStream with
          | some id => s.streams.map fun p => if p.1 = id then (p.1, true) else p
          | none => s.streams
        orphans := s.orphans ++ released s.client.socket }
    updateUIForRecording27 false shouldUpdateStatus s1

/-- `startRecording` of day 27 from `isRecording = true` on: the session flag, the button,
and the new WebSocket, which replaces whatever `socket` referred to. -/
def openSession27 (s : Page27) : Page27 :=
  let s1 : Page27 :=
    { s with client := { s.client with isRecording := true } }
  let s2 := updateUIForRecording27 true true s1
  { s2 with
    client := { s2.client with socket := some .CONNECTING }
    orphans :=
      s2.orphans ++
        (match s2.client.socket with
          | some r => [r]
          | none => []) }

/-- `startRecording` of day 27 up to its first suspension point. -/
def startRecording27 (fresh : Option ContextState) (s : Page27) : Page27 :=
  if s.client.isRecording then s
  else
    match (match s.client.audioContext with
      | some c => some c
      | none => fresh) with
    | none => { s with alerts := s.alerts ++ ["Web Audio API is not supported in this browser."] }
    | some c =>
      let s1 : Page27 := { s with client := { s.client with audioContext := some c } }
      if c = .suspended then { s1 with pendingResume := s1.pendingResume + 1 }
      else openSession27 s1

/-- The click handler of the record button in day 27. -/
def onclick27 (fresh : Option ContextState) (s : Page27) : Page27 :=
  if s.client.isRecording then stopRecordingPage27 true s else startRecording27 fresh s

/-- `socket.onopen` of day 27 up to `await getUserMedia`.  `socket.send` throws when the
variable `socket` is null or refers to a socket that is still connecting, which ends the
handler. -/
def onopen27 (s : Page27) : Page27 :=
  match s.client.socket with
  | none => s
  | some .CONNECTING => s
  | some r =>
    { s with
      sent := if r = .OPEN then s.sent ++ ["config"] else s.sent
      heartbeatInterval := some s.nextTimer
      timers := s.timers ++ [s.nextTimer]
      nextTimer := s.nextTimer + 1
      pendingMic := s.pendingMic + 1 }

/-- `socket.onopen` of day 27 after `getUserMedia` has resolved with a new stream: the
capture graph is built and the stream is stored on the button; an unusable audio context
makes `createMediaStreamSource` throw into the `catch` block. -/
def onMicGranted27 (s : Page27) : Page27 :=
  let stream := s.nextStream
  let s1 : Page27 :=
    { s with streams := s.streams ++ [(stream, false)], nextStream := s.nextStream + 1 }
  if contextUsable s1.client.audioContext then
    { s1 with
      source := some stream
      processor := some s1.nextProcessor
      connectedSources := s1.connectedSources ++ [stream]
      connectedProcessors := s1.connectedProcessors ++ [s1.nextProcessor]
      nextProcessor := s1.nextProcessor + 1
      mediaStream := some stream }
  else
    stopRecordingPage27 true
      { s1 with
        alerts := s1.alerts ++
          ["Could not access microphone. Please grant permission and try again."] }

/-- The `catch` block of `socket.onopen` of day 27 when `getUserMedia` rejects. -/
def onMicDenied27 (s : Page27) : Page27 :=
  stopRecordingPage27 true
    { s with
      alerts := s.alerts ++
        ["Could not access microphone. Please grant permission and try again."] }

/-- `socket.onmessage` of day 27 on the whole page state. -/
def onmessagePage27 (s : Page27) (m : Message) : Page27 :=
  match m with
  | .error message =>
    stopRecordingPage27 true
      { s with
        notifications := s.notifications ++ [(message, true)]
        view :=
          { s.view with
            statusText := "An error occurred. Please check the notifications." } }
  | _ => { s with client := onmessage27 s.client m, view := onmessageView27 s.view m }

/-- The state of the socket an event refers to, if there is such a socket. -/
def socketState (s : Page27) : SocketRef → Option ReadyState
  | .current => s.client.socket
  | .orphan k => s.orphans[k]?

/-- The browser changes the state of a socket. -/
def setSocketState (s : Page27) (r : SocketRef) (st : ReadyState) : Page27 :=
  match r with
  | .current => { s with client := { s.client with socket := s.client.socket.map fun _ => st } }
  | .orphan k => { s with orphans := s.orphans.set k st }

/-- One event of the page of day 27; `none` when the event cannot occur in this state. -/
def stepPage27 (s : Page27) : PageEvent → Option Page27
  | .click fresh => some (onclick27 fresh s)
  | .resumeDone =>
    if s.pendingResume = 0 then none
    else
      some (openSession27
        { s with
          pendingResume := s.pendingResume - 1
          client :=
            { s.client with
              audioContext := s.client.audioContext.map fun c =>
                if c = .suspended then .running else c } })
  | .resumeFailed =>
    if s.pendingResume = 0 then none
    else
      some
        { s with
          pendingResume := s.pendingResume - 1
          alerts := s.alerts ++ ["Web Audio API is not supported in this browser."] }
  | .socketOpen r =>
    if socketState s r = some .CONNECTING then some (onopen27 (setSocketState s r .OPEN))
    else none
  | .socketClose r =>
    match socketState s r with
    | none => none
    | some .CLOSED => none
    | some _ => some (stopRecordingPage27 false (setSocketState s r .CLOSED))
  | .socketError r =>
    match socketState s r with
    | none => none
    | some .CLOSED => none
    | some _ => some (stopRecordingPage27 true s)
  | .micGranted => if s.pendingMic = 0 then none else some (onMicGranted27 { s with pendingMic := s.pendingMic - 1 })
  | .micDenied => if s.pendingMic = 0 then none else some (onMicDenied27 { s with pendingMic := s.pendingMic - 1 })
  | .message m => some (onmessagePage27 s m)
  | .callback e =>
    match e with
    | .message _ => none
    | .stopRecording => none
    | _ => (step27 s.client e).map fun c => { s with client := c }

/-- A sequence of events of the page of day 27. -/
def runPage27 (s : Page27) : List PageEvent → Option Page27
  | [] => some s
  | e :: es => (stepPage27 s e).bind fun s1 => runPage27 s1 es

/-- The page of day 27 when the script has loaded. -/
def pageLoad27 : Page27 :=
  { client :=
      { audioContext := none, isRecording := false, socket := none, audioQueue := [],
        isPlaying := false, currentAudioSource := none, decoding := [], sources := [],
        nextId := 0, trace := [] }
    view :=
      { chatContainer := [], currentAiMessageContentElement := none, statusText := "",
        statusRed := false, clearBtnHidden := true, nextElement := 0 }
    source := none
    processor := none
    heartbeatInterval := none
    mediaStream := none
    recordBtnRecording := false
    chatDisplayHidden := true
    notifications := []
    alerts := []
    orphans := []
    pendingResume := 0
    pendingMic := 0
    streams := []
    timers := []
    connectedSources := []
    connectedProcessors := []
    sent := []
    nextStream := 0
    nextTimer := 0
    nextProcessor := 0 }

/-- A socket on which `close()` has not been called and which has not closed. -/
def ReadyState.unclosed : ReadyState → Bool
  | .CONNECTING => true
  | .OPEN => true
  | _ => false

/-- All sockets created by `startRecording` so far. -/
def allSockets (s : Page27) : List ReadyState :=
  (match s.client.socket with
    | some r => [r]
    | none => []) ++ s.orphans

/-- The number of sockets created by `startRecording` that have not been closed. -/
def unclosedSockets (s : Page27) : Nat :=
  ((allSockets s).filter ReadyState.unclosed).length

/-- Nothing is owed by the browser any more: no suspended `startRecording`, no pending
microphone request, and no socket that can still open or close. -/
def settled27 (s : Page27) : Bool :=
  s.pendingResume = 0 && s.pendingMic = 0 &&
    (allSockets s).all fun r => r = .CLOSED

/-! ## REST failure paths (days 07, 10, 11)

What the page shows when a request comes back with a non-2xx status and a JSON body. -/

/-- A field of a parsed JSON body, as far as the failure paths look at it. -/
inductive JSField where
  /-- the body has no such field: reading it gives `undefined` -/
  | absent
  | null
  | text (s : String)
deriving DecidableEq

/-- `field || fallback` for a string `fallback`, as the text it ends up as. -/
def JSField.orElse (field : JSField) (fallback : String) : String :=
  match field with
  | .text s => if s != "" then s else fallback
  | _ => fallback

/-- The `message` of `new Error(field)`. -/
def JSField.errorMessage : JSField → String
  | .absent => ""
  | .null => "null"
  | .text s => s

/-- The JSON body of a failed response. -/
structure ErrorBody where
  error : JSField
  details : JSField
  /-- length of the `history` array; `none` when the body has no `history` -/
  history : Option Nat
deriving DecidableEq

/-- Day 07, `/tts`: message of the error thrown for a non-2xx response. -/
def ttsError07 (b : ErrorBody) : String :=
  b.error.orElse "Something went wrong on the server."

/-- Day 07, `/tts`: text passed to `showMessage`. -/
def ttsShown07 (b : ErrorBody) : String :=
  "Error: " ++ ttsError07 b

/-- Day 10, `/tts`, `/llm/query` and `/agent/chat`: message of
`new Error((await response.json()).error)`. -/
def restError10 (b : ErrorBody) : String :=
  b.error.errorMessage

/-- Day 10, `/tts`: text passed to `showMessage`. -/
def ttsShown10 (b : ErrorBody) : String :=
  "Error: " ++ restError10 b

/-- Day 10, `/llm/query`: text passed to `showMessage`. -/
def llmShown10 (b : ErrorBody) : String :=
  "Echo Bot Error: " ++ restError10 b

/-- Day 10, `/agent/chat`: text written to `agentStatus`. -/
def agentShown10 (b : ErrorBody) : String :=
  "Error: " ++ restError10 b

/-- `data.details || data.error || fallback` of day 11. -/
def detailsOrError (b : ErrorBody) (fallback : String) : String :=
  b.details.orElse (b.error.orElse fallback)

/-- Day 11, `/tts`: message of the error thrown for a non-2xx response. -/
def ttsError11 (b : ErrorBody) : String :=
  detailsOrError b "TTS generation failed."

/-- Day 11, `/tts`: text passed to `showMessage`. -/
def ttsShown11 (b : ErrorBody) : String :=
  "Error: " ++ ttsError11 b

/-- Day 11, `/llm/query`: message of the error thrown for a non-2xx response. -/
def llmError11 (b : ErrorBody) : String :=
  detailsOrError b "Failed to get LLM response."

/-- Day 11, `/llm/query`: text passed to `showMessage`. -/
def llmShown11 (b : ErrorBody) : String :=
  "Echo Bot Error: " ++ llmError11 b

/-- Day 11, `/agent/chat`: text passed to `showAgentError`.  The handler first reads
`data.history.length`; without a `history` array that throws a `TypeError`, whose text
`typeError` is then shown by the `catch` block. -/
def agentShown11 (typeError : String) (b : ErrorBody) : String :=
  match b.history with
  | none => "Network error: " ++ typeError
  | some _ => b.error.orElse "An unknown error occurred."

/-! ## Session identifier in the page URL (days 10 and 11)

Text of the URL is a list of characters. -/

/-- The parameter name `session_id`. -/
def sessionKey : List Char :=
  ['s', 'e', 's', 's', 'i', 'o', 'n', '_', 'i', 'd']

/-- Split a text at every occurrence of `sep`. -/
def splitOn (sep : Char) : List Char → List (List Char)
  | [] => [[]]
  | c :: cs =>
    if c = sep then [] :: splitOn sep cs
    else
      match splitOn sep cs with
      | [] => [[c]]
      | p :: ps => (c :: p) :: ps

/-- Split a text at the first occurrence of `sep`: what stands before it and what stands
after it (nothing, when there is no `sep`). -/
def splitFirst (sep : Char) : List Char → List Char × List Char
  | [] => ([], [])
  | c :: cs =>
    if c = sep then ([], cs)
    else ((c :: (splitFirst sep cs).1), (splitFirst sep cs).2)

/-- Value of a hexadecimal digit. -/
def hexValue (c : Char) : Option Nat :=
  if '0' ≤ c ∧ c ≤ '9' then some (c.toNat - '0'.toNat)
  else if 'a' ≤ c ∧ c ≤ 'f' then some (c.toNat - 'a'.toNat + 10)
  else if 'A' ≤ c ∧ c ≤ 'F' then some (c.toNat - 'A'.toNat + 10)
  else none

/-- The byte written as two hexadecimal digits at the head of a text, if any. -/
def peekHex (cs : List Char) : Option Nat :=
  match cs with
  | a :: b :: _ =>
    match hexValue a, hexValue b with
    | some x, some y => some (16 * x + y)
    | _, _ => none
  | _ => none

/-- Decoding of a query-string text after dropping its first `skip` characters. -/
def percentDecodeFrom : Nat → List Char → List Char
  | _, [] => []
  | skip + 1, _ :: cs => percentDecodeFrom skip cs
  | 0, c :: cs =>
    if c = '+' then ' ' :: percentDecodeFrom 0 cs
    else if c = '%' then
      match peekHex cs with
      | some byte => Char.ofNat byte :: percentDecodeFrom 2 cs
      | none => '%' :: percentDecodeFrom 0 cs
    else c :: percentDecodeFrom 0 cs

/-- Decoding of a name or value of a query string: `+` is a space and `%XY` is the byte
`XY` (bytes are kept as single characters; multi-byte sequences are not reassembled). -/
def percentDecode (cs : List Char) : List Char :=
  percentDecodeFrom 0 cs

/-- `new URLSearchParams(search)`: the list of decoded name and value pairs. -/
def parseSearch (search : List Char) : List (List Char × List Char) :=
  let body :=
    match search with
    | '?' :: rest => rest
    | s => s
  ((splitOn '&' body).filter fun piece => piece ≠ []).map fun piece =>
    (percentDecode (splitFirst '=' piece).1, percentDecode (splitFirst '=' piece).2)

/-- `urlParams.get(name)`: the value of the first pair with that name. -/
def searchGet (search name : List Char) : Option (List Char) :=
  ((parseSearch search).find? fun p => p.1 = name).map fun p => p.2

/-- `window.location` as far as `initSession` is concerned. -/
structure Location where
  pathname : List Char
  search : List Char
deriving DecidableEq

/-- Result of `initSession`: the variable `sessionId`, the page URL afterwards, and
whether the stored history is fetched (otherwise an empty history is rendered). -/
structure SessionInit where
  sessionId : List Char
  location : Location
  fetchesHistory : Bool
deriving DecidableEq

/-- `initSession` of days 10 and 11; `uuid` is the value of `crypto.randomUUID()`. -/
def initSession (loc : Location) (uuid : List Char) : SessionInit :=
  match searchGet loc.search sessionKey with
  | some (c :: cs) => { sessionId := c :: cs, location := loc, fetchesHistory := true }
  | _ =>
    { sessionId := uuid
      location := { pathname := ['/'], search := '?' :: (sessionKey ++ '=' :: uuid) }
      fetchesHistory := false }

/-- A character of the text of a UUID: a digit, a lower-case hexadecimal letter or `-`. -/
def uuidChar (c : Char) : Bool :=
  ('0' ≤ c && c ≤ '9') || ('a' ≤ c && c ≤ 'f') || c = '-'

/-! ## `atob`

The forgiving base64 decoding behind `atob`, on text as a list of characters; the result
is the list of the byte values (the `charCodeAt` values of the binary string). -/

/-- ASCII whitespace, which `atob` removes first: tab, line feed, form feed, carriage
return and space. -/
def isAsciiWhitespace (c : Char) : Bool :=
  c = Char.ofNat 9 || c = Char.ofNat 10 || c = Char.ofNat 12 || c = Char.ofNat 13 ||
    c = Char.ofNat 32

/-- Value of a character of the base64 alphabet. -/
def sextet (c : Char) : Option Nat :=
  if 'A' ≤ c ∧ c ≤ 'Z' then some (c.toNat - 'A'.toNat)
  else if 'a' ≤ c ∧ c ≤ 'z' then some (c.toNat - 'a'.toNat + 26)
  else if '0' ≤ c ∧ c ≤ '9' then some (c.toNat - '0'.toNat + 52)
  else if c = '+' then some 62
  else if c = '/' then some 63
  else none

/-- The values of a text made of alphabet characters only; `none` as soon as one character
is outside the alphabet. -/
def sextets : List Char → Option (List Nat)
  | [] => some []
  | c :: cs =>
    match sextet c, sextets cs with
    | some v, some vs => some (v :: vs)
    | _, _ => none

/-- When the length is a multiple of four, one or two `=` at the end are removed. -/
def dropPadding (cs : List Char) : List Char :=
  if cs.length % 4 = 0 then
    if cs.getLast? = some '=' then
      if cs.dropLast.getLast? = some '=' then cs.dropLast.dropLast else cs.dropLast
    else cs
  else cs

/-- Four values give three bytes; three left-over values give two bytes and two give one. -/
def decodeSextets : List Nat → List Nat
  | a :: b :: c :: d :: rest =>
    (a * 4 + b / 16) :: (b % 16 * 16 + c / 4) :: (c % 4 * 64 + d) :: decodeSextets rest
  | [a, b, c] => [a * 4 + b / 16, b % 16 * 16 + c / 4]
  | [a, b] => [a * 4 + b / 16]
  | _ => []

/-- `atob(data)`: the decoded bytes, or `none` when `atob` throws. -/
def atob (data : List Char) : Option (List Nat) :=
  let cs := dropPadding (data.filter fun c => !isAsciiWhitespace c)
  if cs.length % 4 = 1 then none
  else (sextets cs).map decodeSextets

/-! ## Recording session of days 19 and 21

The page state of days 19 and 21, which share their variables and handlers; the chunk
buffer `audioChunks` and the response player exist from day 21 on. -/

/-- A parsed socket message of days 19 and 21, by its `type`. -/
inductive Message19 where
  | transcription (endOfTurn : Bool) (text : String)
  /-- `data` is the base64 text of the chunk; the empty text stands for a missing field -/
  | audio (data : List Char)
  | audioEnd
  | error (message : String)
  | status (message : String)
  | unknown
deriving DecidableEq

/-- What the page asks of a socket; `session` numbers the sockets in creation order. -/
inductive Wire where
  /-- `socket.send(frame)` with a text frame, on an open socket -/
  | text (session : Nat) (frame : String)
  /-- `socket.close()` -/
  | close (session : Nat)
deriving DecidableEq

/-- The page state of days 19 and 21. -/
structure Recorder where
  audioContext : Option ContextState
  source : Option Nat
  processor : Option Nat
  isRecording : Bool
  socket : Option ReadyState
  /-- base64 texts received since the last played response (day 21) -/
  audioChunks : List (List Char)
  /-- `recordBtn.mediaStream` -/
  mediaStream : Option Nat
  /-- `statusDisplay.textContent` -/
  statusText : String
  /-- `statusDisplay` carries the class `text-red-400` -/
  statusRed : Bool
  /-- the record button carries the class `recording` -/
  recordBtnRecording : Bool
  transcriptionDisplayHidden : Bool
  /-- texts of the items of `transcriptionHistory`, oldest first -/
  transcriptionHistory : List String
  clearBtnHidden : Bool
  /-- texts passed to `alert` -/
  alerts : List String
  /-- byte contents of the blobs handed to `responseAudio` and played (day 21) -/
  played : List (List Nat)
  /-- sockets that `socket` no longer refers to -/
  orphans : List ReadyState
  /-- number of sockets created so far; the socket of the running session has this number -/
  created : Nat
  /-- `getUserMedia` requests that are not settled yet -/
  pendingMic : Nat
  /-- four-second status timers that have not fired yet (day 19) -/
  pendingTimeouts : Nat
  /-- microphone streams acquired so far; the flag records `stop()` on every track -/
  streams : List (Nat × Bool)
  connectedSources : List Nat
  connectedProcessors : List Nat
  wire : List Wire
  nextStream : Nat
  nextProcessor : Nat
deriving DecidableEq

/-- `updateUIForRecording(isRec)` of days 19 and 21. -/
def updateUIForRecording19 (isRec : Bool) (s : Recorder) : Recorder :=
  if isRec then
    { s with
      recordBtnRecording := true
      statusText := "Connecting..."
      transcriptionDisplayHidden := false
      transcriptionHistory := []
      clearBtnHidden := true }
  else
    { s with
      recordBtnRecording := false
      statusText := "Ready"
      statusRed := false }

/-- The body shared by `stopRecording` of days 19 and 21; `eof` tells whether the text frame
`EOF` is sent before an open socket is closed. -/
def teardown19 (eof : Bool) (s : Recorder) : Recorder :=
  if !s.isRecording then s
  else
    let s1 : Recorder := updateUIForRecording19 false { s with isRecording := false }
    { s1 with
      connectedProcessors :=
        match s1.processor with
        | some p => s1.connectedProcessors.filter fun x => x ≠ p
        | none => s1.connectedProcessors
      connectedSources :=
        match s1.source with
        | some x => s1.connectedSources.filter fun y => y ≠ x
        | none => s1.connectedSources
      audioContext := s1.audioContext.map fun _ => ContextState.closed
      streams :=
        match s1.mediaStream with
        | some id => s1.streams.map fun p => if p.1 = id then (p.1, true) else p
        | none => s1.streams
      mediaStream := none
      wire :=
        s1.wire ++
          (if s1.socket = some .OPEN then
            (if eof then [Wire.text s1.created "EOF"] else []) ++ [Wire.close s1.created]
          else [])
      orphans := s1.orphans ++ released s1.socket
      socket := none }

/-- `stopRecording(sendEOF)` of day 19. -/
def stopRecording19 (sendEOF : Bool) (s : Recorder) : Recorder :=
  teardown19 sendEOF s

/-- `stopRecording(sendEOF)` of day 21: the parameter is no longer used, no `EOF` is sent. -/
def stopRecording21 (_sendEOF : Bool) (s : Recorder) : Recorder :=
  teardown19 false s

/-- `startRecording` of day 19; `supported` tells whether `getUserMedia` exists. -/
def startRecording19 (supported : Bool) (s : Recorder) : Recorder :=
  if !supported then
    { s with alerts := s.alerts ++ ["Audio recording is not supported in this browser."] }
  else
    let s1 : Recorder := updateUIForRecording19 true { s with isRecording := true }
    { s1 with
      socket := some .CONNECTING
      created := s1.created + 1
      orphans :=
        s1.orphans ++
          (match s1.socket with
            | some r => [r]
            | none => []) }

/-- `startRecording` of day 21: as day 19, and the chunk buffer is emptied. -/
def startRecording21 (supported : Bool) (s : Recorder) : Recorder :=
  if !supported then
    { s with alerts := s.alerts ++ ["Audio recording is not supported in this browser."] }
  else startRecording19 supported { s with audioChunks := [] }

/-- The click handler of the record button in day 19. -/
def onclick19 (supported : Bool) (s : Recorder) : Recorder :=
  if s.isRecording then stopRecording19 true s else startRecording19 supported s

/-- `socket.onopen` of days 19 and 21 up to `await getUserMedia`. -/
def onopen19 (s : Recorder) : Recorder :=
  { s with statusText := "Connected. Speak now...", pendingMic := s.pendingMic + 1 }

/-- `socket.onopen` of days 19 and 21 after `getUserMedia` has resolved: a new audio
context at 16 kHz, the capture graph, and the stream stored on the button. -/
def onMicGranted19 (s : Recorder) : Recorder :=
  { s with
    streams := s.streams ++ [(s.nextStream, false)]
    nextStream := s.nextStream + 1
    audioContext := some .running
    source := some s.nextStream
    processor := some s.nextProcessor
    connectedSources := s.connectedSources ++ [s.nextStream]
    connectedProcessors := s.connectedProcessors ++ [s.nextProcessor]
    nextProcessor := s.nextProcessor + 1
    mediaStream := some s.nextStream }

/-- The `catch` block of `socket.onopen` of day 19 when `getUserMedia` rejects. -/
def onMicDenied19 (s : Recorder) : Recorder :=
  stopRecording19 true
    { s with
      alerts := s.alerts ++
        ["Could not access the microphone. Please check your browser permissions."] }

/-- `addToTranscriptionHistory(text)`. -/
def addToTranscriptionHistory (s : Recorder) (text : String) : Recorder :=
  { s with transcriptionHistory := s.transcriptionHistory ++ [text], clearBtnHidden := false }

/-- `socket.onmessage` of day 19. -/
def onmessage19 (s : Recorder) (m : Message19) : Recorder :=
  match m with
  | .transcription endOfTurn text =>
    if endOfTurn && text != "" then
      { addToTranscriptionHistory s text with
        statusText := "Turn detected. Pausing..."
        pendingTimeouts := s.pendingTimeouts + 1 }
    else s
  | .error message => { s with statusText := "Error: " ++ message, statusRed := true }
  | .status message => { s with statusText := message }
  | _ => s

/-- `socket.onmessage` of day 21.  On `audio_end` the buffered texts are joined and handed
to `atob`; when `atob` throws, the `catch` of the handler ends it there, before the buffer
is emptied. -/
def onmessage21 (s : Recorder) (m : Message19) : Recorder :=
  match m with
  | .transcription endOfTurn text =>
    if endOfTurn && text != "" then
      { addToTranscriptionHistory s text with
        statusText := "Turn detected. Generating response..." }
    else s
  | .audio data => if data ≠ [] then { s with audioChunks := s.audioChunks ++ [data] } else s
  | .audioEnd =>
    if s.audioChunks.length > 0 then
      match atob s.audioChunks.flatten with
      | none => s
      | some bytes => { s with played := s.played ++ [bytes], audioChunks := [] }
    else s
  | .error message => { s with statusText := "Error: " ++ message, statusRed := true }
  | .status message => { s with statusText := message }
  | .unknown => s

/-- `socket.onclose` of day 19. -/
def onclose19 (s : Recorder) : Recorder :=
  stopRecording19 false { s with statusText := "Connection closed." }

/-- `socket.onclose` of day 21. -/
def onclose21 (s : Recorder) : Recorder :=
  stopRecording21 false { s with statusText := "Connection closed." }

/-- `socket.onerror` of day 19. -/
def onerror19 (s : Recorder) : Recorder :=
  stopRecording19 true
    { s with statusText := "A connection error occurred.", statusRed := true }

/-- The four-second timer set by the `transcription` case of day 19. -/
def onStatusTimeout19 (s : Recorder) : Recorder :=
  if s.isRecording then { s with statusText := "Listening for the next turn..." } else s

/-- Events delivered to the page of day 19. -/
inductive Event19 where
  /-- click on the record button; `supported` tells whether `getUserMedia` exists -/
  | click (supported : Bool)
  | socketOpen (r : SocketRef)
  | socketClose (r : SocketRef)
  | socketError (r : SocketRef)
  | micGranted
  | micDenied
  | message (m : Message19)
  | statusTimeout
deriving DecidableEq

/-- The state of the socket an event of day 19 refers to. -/
def socketState19 (s : Recorder) : SocketRef → Option ReadyState
  | .current => s.socket
  | .orphan k => s.orphans[k]?

/-- The browser changes the state of a socket (day 19). -/
def setSocketState19 (s : Recorder) (r : SocketRef) (st : ReadyState) : Recorder :=
  match r with
  | .current => { s with socket := s.socket.map fun _ => st }
  | .orphan k => { s with orphans := s.orphans.set k st }

/-- One event of the page of day 19; `none` when the event cannot occur in this state. -/
def step19 (s : Recorder) : Event19 → Option Recorder
  | .click supported => some (onclick19 supported s)
  | .socketOpen r =>
    if socketState19 s r = some .CONNECTING then some (onopen19 (setSocketState19 s r .OPEN))
    else none
  | .socketClose r =>
    match socketState19 s r with
    | none => none
    | some .CLOSED => none
    | some _ => some (onclose19 (setSocketState19 s r .CLOSED))
  | .socketError r =>
    match socketState19 s r with
    | none => none
    | some .CLOSED => none
    | some _ => some (onerror19 s)
  | .micGranted =>
    if s.pendingMic = 0 then none
    else some (onMicGranted19 { s with pendingMic := s.pendingMic - 1 })
  | .micDenied =>
    if s.pendingMic = 0 then none
    else some (onMicDenied19 { s with pendingMic := s.pendingMic - 1 })
  | .message m => some (onmessage19 s m)
  | .statusTimeout =>
    if s.pendingTimeouts = 0 then none
    else some (onStatusTimeout19 { s with pendingTimeouts := s.pendingTimeouts - 1 })

/-- A sequence of events of the page of day 19. -/
def run19 (s : Recorder) : List Event19 → Option Recorder
  | [] => some s
  | e :: es => (step19 s e).bind fun s1 => run19 s1 es

/-- A sequence of socket messages handled by day 21. -/
def receive21 (s : Recorder) (ms : List Message19) : Recorder :=
  ms.foldl onmessage21 s

/-- The page of days 19 and 21 when the script has loaded. -/
def pageLoad19 : Recorder :=
  { audioContext := none, source := none, processor := none, isRecording := false,
    socket := none, audioChunks := [], mediaStream := none, statusText := "",
    statusRed := false, recordBtnRecording := false, transcriptionDisplayHidden := true,
    transcriptionHistory := [], clearBtnHidden := true, alerts := [], played := [],
    orphans := [], created := 0, pendingMic := 0, pendingTimeouts := 0, streams := [],
    connectedSources := [], connectedProcessors := [], wire := [], nextStream := 0,
    nextProcessor := 0 }

/-- A running session of days 19 and 21: after the click on the record button the socket
has opened and the microphone has been granted. -/
def session19 : Recorder :=
  onMicGranted19
    { onopen19 (setSocketState19 (startRecording19 true pageLoad19) .current .OPEN) with
      pendingMic := 0 }

/-- A running session of day 21, reached in the same way with `startRecording` of day 21. -/
def session21 : Recorder :=
  onMicGranted19
    { onopen19 (setSocketState19 (startRecording21 true pageLoad19) .current .OPEN) with
      pendingMic := 0 }

/-- The number of `EOF` frames sent on the socket of the given session. -/
def eofCount (s : Recorder) (session : Nat) : Nat :=
  s.wire.count (Wire.text session "EOF")

/-- At most one `EOF` frame per session: no session has more than one, sessions that do
not exist yet have none, and the session that is still recording has none. -/
def OneEofPerSession (s : Recorder) : Prop :=
  (∀ k, eofCount s k ≤ 1) ∧ (∀ k, s.created < k → eofCount s k = 0) ∧
    (s.isRecording = true → eofCount s s.created = 0)

/-! ## Session life cycle of day 22 -/

/-- The page state of day 22: the playback variables of `Client22` (with `audioContext`,
`isRecording` and the socket that the variable `socket` refers to), the chat view, the
capture-side variables and the browser objects the handlers create. -/
structure Page22 where
  client : Client22
  view : ChatView
  /-- `source`: the media stream source node, named by the stream it was made from -/
  source : Option Nat
  /-- `processor`: the script processor node -/
  processor : Option Nat
  heartbeatInterval : Option Nat
  /-- `recordBtn.mediaStream` -/
  mediaStream : Option Nat
  /-- the record button carries the class `recording` -/
  recordBtnRecording : Bool
  /-- `chatDisplay` carries the class `hidden` -/
  chatDisplayHidden : Bool
  /-- texts passed to `alert` -/
  alerts : List String
  /-- sockets created by `startRecording` that `socket` no longer refers to -/
  orphans : List ReadyState
  /-- `getUserMedia` requests that are not settled yet -/
  pendingMic : Nat
  /-- microphone streams acquired so far; the flag records `stop()` on every track -/
  streams : List (Nat × Bool)
  /-- intervals that have not been cleared -/
  timers : List Nat
  connectedSources : List Nat
  connectedProcessors : List Nat
  nextStream : Nat
  nextTimer : Nat
  nextProcessor : Nat
deriving DecidableEq

/-- `updateUIForRecording(isRec)` of day 22. -/
def updateUIForRecording22 (isRec : Bool) (s : Page22) : Page22 :=
  if isRec then
    { s with
      recordBtnRecording := true
      view := { s.view with statusText := "Connecting...", chatContainer := [], clearBtnHidden := true }
      chatDisplayHidden := false }
  else
    { s with
      recordBtnRecording := false
      view := { s.view with statusText := "Ready", statusRed := false } }

/-- `stopRecording(sendEOF)` of day 22 on the whole page state; the parameter is not used.
The playback variables, `isRecording`, `audioContext` and `socket` are written as in
`stopRecording22`. -/
def stopRecordingPage22 (_sendEOF : Bool) (s : Page22) : Page22 :=
  if !s.client.isRecording then s
  else
    let s1 : Page22 :=
      { s with
        client := stopRecording22 s.client
        timers :=
          match s.heartbeatInterval with
          | some t => s.timers.filter fun x => x ≠ t
          | none => s.timers
        heartbeatInterval := none
        connectedProcessors :=
          match s.processor with
          | some p => s.connectedProcessors.filter fun x => x ≠ p
          | none => s.connectedProcessors
        connectedSources :=
          match s.source with
          | some x => s.connectedSources.filter fun y => y ≠ x
          | none => s.connectedSources
        streams :=
          match s.mediaStream with
          | some id => s.streams.map fun p => if p.1 = id then (p.1, true) else p
          | none => s.streams
        mediaStream := none
        orphans := s.orphans ++ released s.client.socket }
    updateUIForRecording22 false s1

/-- `startRecording` of day 22 from `isRecording = true` on: the session flag, the button
and chat log, and the new WebSocket. -/
def openSession22 (s : Page22) : Page22 :=
  let s1 : Page22 := { s with client := { s.client with isRecording := true } }
  let s2 := updateUIForRecording22 true s1
  { s2 with
    client := { s2.client with socket := some .CONNECTING }
    orphans :=
      s2.orphans ++
        (match s2.client.socket with
          | some r => [r]
          | none => []) }

/-- `socket.onopen` of day 22 up to `await getUserMedia`: the heartbeat interval is set. -/
def onopen22 (s : Page22) : Page22 :=
  { s with
    heartbeatInterval := some s.nextTimer
    timers := s.timers ++ [s.nextTimer]
    nextTimer := s.nextTimer + 1
    pendingMic := s.pendingMic + 1 }

/-- `socket.onopen` of day 22 after `getUserMedia` has resolved with a new stream; without a
usable audio context `createMediaStreamSource` throws into the `catch` block. -/
def onMicGranted22 (s : Page22) : Page22 :=
  let stream := s.nextStream
  let s1 : Page22 :=
    { s with streams := s.streams ++ [(stream, false)], nextStream := s.nextStream + 1 }
  if contextUsable s1.client.audioContext then
    { s1 with
      source := some stream
      processor := some s1.nextProcessor
      connectedSources := s1.connectedSources ++ [stream]
      connectedProcessors := s1.connectedProcessors ++ [s1.nextProcessor]
      nextProcessor := s1.nextProcessor + 1
      mediaStream := some stream }
  else
    stopRecordingPage22 true
      { s1 with
        alerts := s1.alerts ++
          ["Could not access the microphone. Please check your browser permissions."] }

/-- `socket.onmessage` of day 22 on the whole page state. -/
def onmessagePage22 (s : Page22) (m : Message) : Page22 :=
  { s with client := onmessage22 s.client m, view := onmessageView22 s.view m }

/-- `socket.onclose` of day 22. -/
def onclosePage22 (s : Page22) : Page22 :=
  stopRecordingPage22 false
    { s with view := { s.view with statusText := "Connection closed." } }

/-- `socket.onerror` of day 22. -/
def onerrorPage22 (s : Page22) : Page22 :=
  stopRecordingPage22 true
    { s with
      view := { s.view with statusText := "A connection error occurred.", statusRed := true } }

/-- The page of day 22 when the script has loaded. -/
def pageLoad22 : Page22 :=
  { client :=
      { audioContext := none, isRecording := false, socket := none, audioQueue := [],
        isPlaying := false, audioChunkIndex := 0, decoding := [], sources := [], nextId := 0,
        trace := [] }
    view :=
      { chatContainer := [], currentAiMessageContentElement := none, statusText := "",
        statusRed := false, clearBtnHidden := true, nextElement := 0 }
    source := none
    processor := none
    heartbeatInterval := none
    mediaStream := none
    recordBtnRecording := false
    chatDisplayHidden := true
    alerts := []
    orphans := []
    pendingMic := 0
    streams := []
    timers := []
    connectedSources := []
    connectedProcessors := []
    nextStream := 0
    nextTimer := 0
    nextProcessor := 0 }

/-- A running session of day 22: `startRecording` has created a running audio context, the
socket has opened and the microphone has been granted. -/
def session22 : Page22 :=
  let s0 : Page22 :=
    openSession22 { pageLoad22 with client := { pageLoad22.client with audioContext := some .running } }
  let s1 : Page22 := { s0 with client := { s0.client with socket := some .OPEN } }
  onMicGranted22 { onopen22 s1 with pendingMic := 0 }

/-! ## Socket handlers of day 27 -/

/-- `socket.onclose` of day 27: a console line, then `stopRecording(false)`. -/
def onclosePage27 (s : Page27) : Page27 :=
  stopRecordingPage27 false s

/-- `socket.onerror` of day 27: a console line, then `stopRecording()`. -/
def onerrorPage27 (s : Page27) : Page27 :=
  stopRecordingPage27 true s

/-- A running session of day 27: after the click on the record button, with a running
audio context, the socket has opened and the microphone has been granted. -/
def session27 : Page27 :=
  let s0 : Page27 := onclick27 (some .running) pageLoad27
  onMicGranted27 { onopen27 (setSocketState s0 .current .OPEN) with pendingMic := 0 }

/-! ## Capture encoder: lemmas -/

theorem wrapInt16_of_range (z : Int) (h1 : -32768 ≤ z) (h2 : z ≤ 32767) : wrapInt16 z = z := by
  unfold wrapInt16
  simp only
  split <;> omega

theorem clampSample_fin (q : ℚ) : clampSample (.fin q) = .fin (max (-1) (min 1 q)) := by
  simp [clampSample, Math.min, Math.max]

theorem scaleSample_fin (c : ℚ) :
    scaleSample (.fin c) = if c < 0 then .fin (c * 32768) else .fin (c * 32767) := by
  by_cases h : c < 0 <;> simp [scaleSample, JSNumber.lt, JSNumber.mul, h]

theorem truncate_neg_range (c : ℚ) (h1 : -1 ≤ c) (h2 : c < 0) :
    -32768 ≤ truncate (c * 32768) ∧ truncate (c * 32768) ≤ 0 := by
  have hneg : ¬ (0 : ℚ) ≤ c * 32768 := by linarith
  unfold truncate
  rw [if_neg hneg]
  constructor
  · have : ((-32768 : Int) : ℚ) ≤ c * 32768 := by push_cast; linarith
    exact Int.le_ceil_iff.mpr (by push_cast; linarith)
  · exact Int.ceil_le.mpr (by push_cast; linarith)

theorem truncate_nonneg_range (c : ℚ) (h1 : 0 ≤ c) (h2 : c ≤ 1) :
    0 ≤ truncate (c * 32767) ∧ truncate (c * 32767) ≤ 32767 := by
  have hpos : (0 : ℚ) ≤ c * 32767 := by linarith
  unfold truncate
  rw [if_pos hpos]
  constructor
  · exact Int.floor_nonneg.mpr hpos
  · have : ⌊c * 32767⌋ ≤ ⌊(32767 : ℚ)⌋ := Int.floor_le_floor (by linarith)
    simpa using this

theorem encodeSample_fin (q : ℚ) :
    encodeSample (.fin q) =
      if max (-1) (min 1 q) < 0 then truncate (max (-1) (min 1 q) * 32768)
      else truncate (max (-1) (min 1 q) * 32767) := by
  have hc1 : (-1 : ℚ) ≤ max (-1) (min 1 q) := le_max_left _ _
  have hc2 : max (-1) (min 1 q) ≤ (1 : ℚ) := max_le (by norm_num) (min_le_left _ _)
  unfold encodeSample
  rw [clampSample_fin, scaleSample_fin]
  by_cases h : max (-1) (min 1 q) < 0
  · rw [if_pos h, if_pos h]
    obtain ⟨a, b⟩ := truncate_neg_range _ hc1 h
    exact wrapInt16_of_range _ a (by omega)
  · rw [if_neg h, if_neg h]
    obtain ⟨a, b⟩ := truncate_nonneg_range _ (not_lt.mp h) hc2
    exact wrapInt16_of_range _ (by omega) b

theorem forLoop_set_length {α : Type} (f : Nat → α) (n : Nat) (a : List α) :
    (forLoop (fun i out => out.set i (f i)) n a).length = a.length := by
  induction n with
  | zero => rfl
  | succ n ih => simp [forLoop, ih]

theorem forLoop_set_getElem? {α : Type} (f : Nat → α) (n : Nat) (a : List α) (i : Nat)
    (hi : i < n) (hn : n ≤ a.length) :
    (forLoop (fun i out => out.set i (f i)) n a)[i]? = some (f i) := by
  induction n with
  | zero => omega
  | succ n ih =>
    simp only [forLoop]
    by_cases h : i = n
    · subst h
      rw [List.getElem?_set_self]
      rw [forLoop_set_length]
      omega
    · rw [List.getElem?_set_ne (Ne.symm h)]
      exact ih (by omega) (by omega)

theorem forLoop_set_eq_map {α : Type} (f : Nat → α) (n : Nat) (z : α) :
    forLoop (fun i out => out.set i (f i)) n (List.replicate n z) = (List.range n).map f := by
  apply List.ext_getElem?
  intro i
  by_cases hi : i < n
  · rw [forLoop_set_getElem? f n _ i hi (by simp)]
    simp [hi]
  · have h1 : (forLoop (fun i out => out.set i (f i)) n (List.replicate n z)).length ≤ i := by
      rw [forLoop_set_length]; simp; omega
    rw [List.getElem?_eq_none h1, List.getElem?_eq_none (by simp; omega)]

theorem readSample_natCast (a : List JSNumber) (i : Nat) (h : i < a.length) :
    readSample a (i : Int) = a[i] := by
  simp [readSample, List.getD, h]

theorem encodePCM_eq_map (data : List JSNumber) : encodePCM data = data.map encodeSample := by
  unfold encodePCM
  rw [forLoop_set_eq_map]
  apply List.ext_getElem?
  intro i
  by_cases hi : i < data.length
  · simp [hi, readSample_natCast]
  · have h1 : data.length ≤ i := by omega
    rw [List.getElem?_eq_none (by simpa using h1), List.getElem?_eq_none (by simpa using h1)]

/-! ## Double-precision arithmetic: lemmas -/

theorem roundHalfEven_floor_le (z : ℚ) : ⌊z⌋ ≤ roundHalfEven z := by
  unfold roundHalfEven
  simp only
  split_ifs <;> omega

theorem roundHalfEven_le_floor_succ (z : ℚ) : roundHalfEven z ≤ ⌊z⌋ + 1 := by
  unfold roundHalfEven
  simp only
  split_ifs <;> omega

theorem roundHalfEven_near (z : ℚ) :
    (roundHalfEven z : ℚ) - z ≤ 1 / 2 ∧ z - roundHalfEven z ≤ 1 / 2 := by
  have h1 := Int.floor_le z
  have h2 := Int.lt_floor_add_one z
  unfold roundHalfEven
  simp only
  split_ifs with a b c <;> push_cast <;> constructor <;> linarith

theorem roundHalfEven_intCast (k : Int) : roundHalfEven (k : ℚ) = k := by
  unfold roundHalfEven
  simp

theorem roundHalfEven_mono (z w : ℚ) (h : z ≤ w) : roundHalfEven z ≤ roundHalfEven w := by
  have hf : ⌊z⌋ ≤ ⌊w⌋ := Int.floor_le_floor h
  rcases lt_or_eq_of_le hf with hlt | heq
  · have h1 := roundHalfEven_le_floor_succ z
    have h2 := roundHalfEven_floor_le w
    omega
  · unfold roundHalfEven
    simp only
    rw [heq]
    split_ifs <;> first | omega | (exfalso; linarith)

theorem roundHalfEven_ge_even (B : Int) (hB : B % 2 = 0) (z : ℚ) (h : (B : ℚ) - 1 / 2 ≤ z) :
    B ≤ roundHalfEven z := by
  by_cases hz : (B : ℚ) ≤ z
  · have h1 : B ≤ ⌊z⌋ := Int.le_floor.mpr hz
    have h2 := roundHalfEven_floor_le z
    omega
  · push_neg at hz
    have hfl : ⌊z⌋ = B - 1 := by
      rw [Int.floor_eq_iff]
      push_cast
      constructor <;> linarith
    unfold roundHalfEven
    simp only
    rw [hfl]
    push_cast
    split_ifs with a b c
    · exfalso; linarith
    · omega
    · omega
    · omega

theorem roundHalfEven_eq_of_near (z : ℚ) (m : Int) (h1 : z - m < 1 / 2) (h2 : (m : ℚ) - z < 1 / 2) :
    roundHalfEven z = m := by
  obtain ⟨a, b⟩ := roundHalfEven_near z
  have h3 : ((roundHalfEven z : Int) : ℚ) < (m : ℚ) + 1 := by linarith
  have h4 : (m : ℚ) < (roundHalfEven z : ℚ) + 1 := by linarith
  have h5 : roundHalfEven z < m + 1 := by exact_mod_cast h3
  have h6 : m < roundHalfEven z + 1 := by exact_mod_cast h4
  omega

theorem two_zpow_split (L : Int) :
    (2 : ℚ) ^ 52 * 2 ^ (L - 52) = 2 ^ L ∧ (2 : ℚ) ^ 53 * 2 ^ (L - 52) = 2 ^ (L + 1) := by
  have h2 : (2 : ℚ) ≠ 0 := by norm_num
  constructor
  · rw [← zpow_natCast (2 : ℚ) 52, ← zpow_add₀ h2]
    congr 1
    push_cast
    ring
  · rw [← zpow_natCast (2 : ℚ) 53, ← zpow_add₀ h2]
    congr 1
    push_cast
    ring

theorem ulpExponent_bounds (x : ℚ) (hx : 0 < x) :
    (2 : ℚ) ^ 52 * 2 ^ ulpExponent x ≤ x ∧ x < 2 ^ 53 * 2 ^ ulpExponent x := by
  have h1 := Int.zpow_log_le_self (b := 2) (by norm_num) hx
  have h2 := Int.lt_zpow_succ_log_self (b := 2) (by norm_num) x
  simp only [Nat.cast_ofNat] at h1 h2
  unfold ulpExponent
  rw [abs_of_pos hx, (two_zpow_split _).1, (two_zpow_split _).2]
  exact ⟨h1, h2⟩

theorem ulpExponent_eq (x : ℚ) (e : Int) (hx : 0 < x) (hlo : (2 : ℚ) ^ 52 * 2 ^ e ≤ x)
    (hhi : x < 2 ^ 53 * 2 ^ e) : ulpExponent x = e := by
  have s := two_zpow_split (e + 52)
  have e1 : e + 52 - 52 = e := by ring
  rw [e1] at s
  rw [s.1] at hlo
  rw [s.2] at hhi
  have h1 : e + 52 ≤ Int.log 2 x := by
    rw [← Int.zpow_le_iff_le_log (by norm_num) hx]
    simpa using hlo
  have h2 : Int.log 2 x < e + 52 + 1 := by
    rw [← Int.lt_zpow_iff_log_lt (by norm_num) hx]
    simpa using hhi
  unfold ulpExponent
  rw [abs_of_pos hx]
  omega

theorem ulp_pos (e : Int) : (0 : ℚ) < 2 ^ e := by positivity

theorem roundDouble_of_pos (x : ℚ) (hx : 0 < x) :
    roundDouble x = (roundHalfEven (x / 2 ^ ulpExponent x) : ℚ) * 2 ^ ulpExponent x := by
  unfold roundDouble
  rw [if_neg (ne_of_gt hx)]

theorem roundDouble_zero : roundDouble 0 = 0 := by
  simp [roundDouble]

theorem significand_bounds (x : ℚ) (hx : 0 < x) :
    (2 : ℚ) ^ 52 ≤ x / 2 ^ ulpExponent x ∧ x / 2 ^ ulpExponent x < 2 ^ 53 := by
  obtain ⟨h1, h2⟩ := ulpExponent_bounds x hx
  have hq := ulp_pos (ulpExponent x)
  constructor
  · rw [le_div_iff₀ hq]; exact h1
  · rw [div_lt_iff₀ hq]; exact h2

theorem roundHalfEven_significand (x : ℚ) (hx : 0 < x) :
    (2 : Int) ^ 52 ≤ roundHalfEven (x / 2 ^ ulpExponent x) ∧
    roundHalfEven (x / 2 ^ ulpExponent x) ≤ (2 : Int) ^ 53 := by
  obtain ⟨h1, h2⟩ := significand_bounds x hx
  constructor
  · have := roundHalfEven_mono (((2 : Int) ^ 52 : Int) : ℚ) _ (by push_cast; exact h1)
    rwa [roundHalfEven_intCast] at this
  · have := roundHalfEven_mono _ (((2 : Int) ^ 53 : Int) : ℚ) (by push_cast; exact le_of_lt h2)
    rwa [roundHalfEven_intCast] at this

theorem roundDouble_pos (x : ℚ) (hx : 0 < x) : 0 < roundDouble x := by
  rw [roundDouble_of_pos x hx]
  have h := (roundHalfEven_significand x hx).1
  have h2 : (0 : ℚ) < (roundHalfEven (x / 2 ^ ulpExponent x) : ℚ) := by
    have : (0 : Int) < roundHalfEven (x / 2 ^ ulpExponent x) := by
      have : (0 : Int) < 2 ^ 52 := by norm_num
      omega
    exact_mod_cast this
  exact mul_pos h2 (ulp_pos _)

theorem roundDouble_nonneg (x : ℚ) (hx : 0 ≤ x) : 0 ≤ roundDouble x := by
  rcases eq_or_lt_of_le hx with h | h
  · rw [← h, roundDouble_zero]
  · exact le_of_lt (roundDouble_pos x h)

/-- The rounding error is at most half a unit in the last place. -/
theorem roundDouble_error (x : ℚ) (hx : 0 ≤ x) :
    roundDouble x ≤ x * (1 + 1 / 2 ^ 53) ∧ x * (1 - 1 / 2 ^ 53) ≤ roundDouble x := by
  rcases eq_or_lt_of_le hx with h | h
  · rw [← h, roundDouble_zero]; simp
  · rw [roundDouble_of_pos x h]
    obtain ⟨h1, _⟩ := ulpExponent_bounds x h
    have hq := ulp_pos (ulpExponent x)
    obtain ⟨a, b⟩ := roundHalfEven_near (x / 2 ^ ulpExponent x)
    have e : x / 2 ^ ulpExponent x * 2 ^ ulpExponent x = x := by
      field_simp
    have a2 : ((roundHalfEven (x / 2 ^ ulpExponent x) : ℚ) - x / 2 ^ ulpExponent x)
        * 2 ^ ulpExponent x ≤ 1 / 2 * 2 ^ ulpExponent x :=
      mul_le_mul_of_nonneg_right a (le_of_lt hq)
    have b2 : (x / 2 ^ ulpExponent x - (roundHalfEven (x / 2 ^ ulpExponent x) : ℚ))
        * 2 ^ ulpExponent x ≤ 1 / 2 * 2 ^ ulpExponent x :=
      mul_le_mul_of_nonneg_right b (le_of_lt hq)
    rw [sub_mul, e] at a2 b2
    have h3 : (2 : ℚ) ^ ulpExponent x ≤ x / 2 ^ 52 := by
      rw [le_div_iff₀ (by positivity)]
      linarith
    have h4 : x / 2 ^ 52 * (1 / 2) = x * (1 / 2 ^ 53) := by
      norm_num
      ring
    constructor <;> nlinarith

theorem roundDouble_intCast (k : Int) (h0 : 0 ≤ k) (h1 : k < 2 ^ 53) :
    roundDouble (k : ℚ) = k := by
  rcases eq_or_lt_of_le h0 with h | h
  · rw [← h]; simp [roundDouble_zero]
  · have hk : (0 : ℚ) < (k : ℚ) := by exact_mod_cast h
    rw [roundDouble_of_pos _ hk]
    obtain ⟨a, _⟩ := ulpExponent_bounds (k : ℚ) hk
    have hk2 : (k : ℚ) < 2 ^ 53 := by exact_mod_cast h1
    have he : ulpExponent (k : ℚ) ≤ 0 := by
      by_contra hc
      push_neg at hc
      have : (2 : ℚ) ^ (1 : Int) ≤ 2 ^ ulpExponent (k : ℚ) :=
        zpow_le_zpow_right₀ (by norm_num) (by omega)
      have h5 : (2 : ℚ) ^ (1 : Int) = 2 := by norm_num
      rw [h5] at this
      have h6 : (2 : ℚ) ^ 52 * 2 ≤ 2 ^ 52 * 2 ^ ulpExponent (k : ℚ) :=
        mul_le_mul_of_nonneg_left this (by positivity)
      have h7 : (2 : ℚ) ^ 52 * 2 = 2 ^ 53 := by norm_num
      linarith
    obtain ⟨t, ht⟩ := Int.exists_eq_neg_ofNat he
    rw [ht, zpow_neg, zpow_natCast]
    have e : (k : ℚ) / ((2 : ℚ) ^ t)⁻¹ = ((k * 2 ^ t : Int) : ℚ) := by
      push_cast
      field_simp
    rw [e, roundHalfEven_intCast]
    push_cast
    field_simp

theorem roundDouble_natCast (k : Nat) (h1 : k < 2 ^ 53) : roundDouble (k : ℚ) = k := by
  have := roundDouble_intCast (k : Int) (by positivity) (by exact_mod_cast h1)
  simpa using this

theorem roundDouble_mono (x y : ℚ) (hx : 0 ≤ x) (hxy : x ≤ y) :
    roundDouble x ≤ roundDouble y := by
  rcases eq_or_lt_of_le hx with h | h
  · rw [← h, roundDouble_zero]
    exact roundDouble_nonneg y (le_trans hx hxy)
  · have hy : 0 < y := lt_of_lt_of_le h hxy
    have hL : Int.log 2 x ≤ Int.log 2 y := Int.log_mono_right h hxy
    have hE : ulpExponent x ≤ ulpExponent y := by
      unfold ulpExponent
      rw [abs_of_pos h, abs_of_pos hy]
      omega
    rw [roundDouble_of_pos x h, roundDouble_of_pos y hy]
    rcases lt_or_eq_of_le hE with hlt | heq
    · have h1 := (roundHalfEven_significand x h).2
      have h2 := (roundHalfEven_significand y hy).1
      have h1q : (roundHalfEven (x / 2 ^ ulpExponent x) : ℚ) ≤ 2 ^ 53 := by exact_mod_cast h1
      have h2q : (2 : ℚ) ^ 52 ≤ (roundHalfEven (y / 2 ^ ulpExponent y) : ℚ) := by
        exact_mod_cast h2
      have h3 : (2 : ℚ) ^ (ulpExponent x + 1) ≤ 2 ^ ulpExponent y :=
        zpow_le_zpow_right₀ (by norm_num) (by omega)
      have h4 : (2 : ℚ) ^ (ulpExponent x + 1) = 2 ^ ulpExponent x * 2 := by
        rw [zpow_add₀ (by norm_num)]
        norm_num
      rw [h4] at h3
      have qx := ulp_pos (ulpExponent x)
      have qy := ulp_pos (ulpExponent y)
      calc (roundHalfEven (x / 2 ^ ulpExponent x) : ℚ) * 2 ^ ulpExponent x
          ≤ 2 ^ 53 * 2 ^ ulpExponent x := mul_le_mul_of_nonneg_right h1q (le_of_lt qx)
        _ = 2 ^ 52 * (2 ^ ulpExponent x * 2) := by ring
        _ ≤ 2 ^ 52 * 2 ^ ulpExponent y := mul_le_mul_of_nonneg_left h3 (by positivity)
        _ ≤ (roundHalfEven (y / 2 ^ ulpExponent y) : ℚ) * 2 ^ ulpExponent y :=
            mul_le_mul_of_nonneg_right h2q (le_of_lt qy)
    · rw [heq]
      have qy := ulp_pos (ulpExponent y)
      apply mul_le_mul_of_nonneg_right _ (le_of_lt qy)
      have : roundHalfEven (x / 2 ^ ulpExponent y) ≤ roundHalfEven (y / 2 ^ ulpExponent y) :=
        roundHalfEven_mono _ _ (div_le_div_of_nonneg_right hxy (le_of_lt qy))
      exact_mod_cast this

theorem roundDouble_ulp_error (x : ℚ) (hx : 0 < x) :
    roundDouble x - x ≤ 2 ^ ulpExponent x / 2 := by
  rw [roundDouble_of_pos x hx]
  have hq := ulp_pos (ulpExponent x)
  obtain ⟨a, _⟩ := roundHalfEven_near (x / 2 ^ ulpExponent x)
  have e : x / 2 ^ ulpExponent x * 2 ^ ulpExponent x = x := by
    field_simp
  have a2 : ((roundHalfEven (x / 2 ^ ulpExponent x) : ℚ) - x / 2 ^ ulpExponent x)
      * 2 ^ ulpExponent x ≤ 1 / 2 * 2 ^ ulpExponent x :=
    mul_le_mul_of_nonneg_right a (le_of_lt hq)
  rw [sub_mul, e] at a2
  linarith

theorem ulpExponent_mono (x y : ℚ) (hx : 0 < x) (hxy : x ≤ y) :
    ulpExponent x ≤ ulpExponent y := by
  have hy : 0 < y := lt_of_lt_of_le hx hxy
  have hL : Int.log 2 x ≤ Int.log 2 y := Int.log_mono_right hx hxy
  unfold ulpExponent
  rw [abs_of_pos hx, abs_of_pos hy]
  omega

/-- Below `2 ^ 52`, a value that rounds to at least the integer `a` rounds to at least
`a + 1` after `1` is added. -/
theorem roundDouble_add_one (a : Int) (x : ℚ) (ha : 0 ≤ a) (ha2 : a + 1 ≤ 2 ^ 52)
    (hx : 0 ≤ x) (h : (a : ℚ) ≤ roundDouble x) : (a : ℚ) + 1 ≤ roundDouble (x + 1) := by
  by_cases hxa : (a : ℚ) ≤ x
  · have h1 := roundDouble_mono (((a + 1 : Int) : ℚ)) (x + 1)
      (by have : (0 : Int) ≤ a + 1 := by omega
          exact_mod_cast this)
      (by push_cast; linarith)
    rw [roundDouble_intCast (a + 1) (by omega)
      (by have : (2 : Int) ^ 52 < 2 ^ 53 := by norm_num
          omega)] at h1
    push_cast at h1
    exact h1
  · push_neg at hxa
    have hx0 : 0 < x := by
      rcases eq_or_lt_of_le hx with h0 | h0
      · exfalso
        rw [← h0, roundDouble_zero] at h
        rw [← h0] at hxa
        linarith
      · exact h0
    have hy0 : 0 < x + 1 := by linarith
    have herr := roundDouble_ulp_error x hx0
    have hmono := ulpExponent_mono x (x + 1) hx0 (by linarith)
    have hqq : (2 : ℚ) ^ ulpExponent x ≤ 2 ^ ulpExponent (x + 1) :=
      zpow_le_zpow_right₀ (by norm_num) hmono
    have hd : (a : ℚ) - x ≤ 2 ^ ulpExponent (x + 1) / 2 := by linarith
    obtain ⟨b1, _⟩ := ulpExponent_bounds (x + 1) hy0
    have ha2q : (a : ℚ) + 1 ≤ 2 ^ 52 := by exact_mod_cast ha2
    have he : ulpExponent (x + 1) ≤ -1 := by
      by_contra hc
      push_neg at hc
      have : (2 : ℚ) ^ (0 : Int) ≤ 2 ^ ulpExponent (x + 1) :=
        zpow_le_zpow_right₀ (by norm_num) (by omega)
      rw [zpow_zero] at this
      have h6 : (2 : ℚ) ^ 52 * 1 ≤ 2 ^ 52 * 2 ^ ulpExponent (x + 1) :=
        mul_le_mul_of_nonneg_left this (by positivity)
      linarith
    obtain ⟨t, ht⟩ : ∃ t : Nat, ulpExponent (x + 1) = -((t : Int) + 1) :=
      ⟨(-(ulpExponent (x + 1)) - 1).toNat, by omega⟩
    rw [roundDouble_of_pos _ hy0]
    rw [ht] at hd ⊢
    have hq : (2 : ℚ) ^ (-((t : Int) + 1)) = ((2 : ℚ) ^ (t + 1))⁻¹ := by
      rw [zpow_neg]
      congr 1
      exact_mod_cast zpow_natCast (2 : ℚ) (t + 1)
    rw [hq] at hd ⊢
    have hp : (0 : ℚ) < 2 ^ (t + 1) := by positivity
    have hB : ((a + 1) * 2 ^ (t + 1) : Int) % 2 = 0 := by
      rw [pow_succ, ← mul_assoc]
      exact Int.mul_emod_left _ 2
    have hz : (((a + 1) * 2 ^ (t + 1) : Int) : ℚ) - 1 / 2 ≤ (x + 1) / ((2 : ℚ) ^ (t + 1))⁻¹ := by
      rw [div_inv_eq_mul]
      push_cast
      have hd2 : ((a : ℚ) - x) * 2 ^ (t + 1) ≤ ((2 : ℚ) ^ (t + 1))⁻¹ / 2 * 2 ^ (t + 1) :=
        mul_le_mul_of_nonneg_right hd (le_of_lt hp)
      have e2 : ((2 : ℚ) ^ (t + 1))⁻¹ / 2 * 2 ^ (t + 1) = 1 / 2 := by
        field_simp
      rw [e2] at hd2
      linarith
    have hH := roundHalfEven_ge_even _ hB _ hz
    have hHq : (((a + 1) * 2 ^ (t + 1) : Int) : ℚ)
        ≤ (roundHalfEven ((x + 1) / ((2 : ℚ) ^ (t + 1))⁻¹) : ℚ) := by exact_mod_cast hH
    have hfin := mul_le_mul_of_nonneg_right hHq (le_of_lt (inv_pos.mpr hp))
    have e3 : (((a + 1) * 2 ^ (t + 1) : Int) : ℚ) * ((2 : ℚ) ^ (t + 1))⁻¹ = (a : ℚ) + 1 := by
      push_cast
      field_simp
    rw [e3] at hfin
    exact hfin

/-- A rounding that is known from its significand: `x * 2 ^ t` lies in the range of
53-bit significands and is closer to `m` than to any other integer. -/
theorem roundDouble_eq (x : ℚ) (t : Nat) (m : Int) (hlo : (2 : ℚ) ^ 52 ≤ x * 2 ^ t)
    (hhi : x * 2 ^ t < 2 ^ 53) (h1 : x * 2 ^ t - m < 1 / 2) (h2 : (m : ℚ) - x * 2 ^ t < 1 / 2) :
    roundDouble x = (m : ℚ) / 2 ^ t := by
  have hp : (0 : ℚ) < 2 ^ t := by positivity
  have hx : 0 < x := by
    by_contra hc
    push_neg at hc
    have : x * 2 ^ t ≤ 0 := mul_nonpos_of_nonpos_of_nonneg hc (le_of_lt hp)
    have : (0 : ℚ) < 2 ^ 52 := by positivity
    linarith
  have hq : (2 : ℚ) ^ (-(t : Int)) = ((2 : ℚ) ^ t)⁻¹ := by
    rw [zpow_neg, zpow_natCast]
  have he : ulpExponent x = -(t : Int) := by
    apply ulpExponent_eq x _ hx
    · rw [hq, ← div_eq_mul_inv, div_le_iff₀ hp]; exact hlo
    · rw [hq, ← div_eq_mul_inv, lt_div_iff₀ hp]; exact hhi
  rw [roundDouble_of_pos x hx, he, hq, div_inv_eq_mul,
    roundHalfEven_eq_of_near _ m h1 h2, div_eq_mul_inv]

/-! ## Down-sampler: lemmas -/

theorem downsample_eq_map (sampleRate : ℚ) (inputData : List JSNumber) :
    downsample sampleRate inputData =
      (List.range (newLength sampleRate inputData.length)).map
        (fun i : Nat =>
          readSample inputData ⌊roundDouble ((i : ℚ) * roundDouble (sampleRate / 16000))⌋) := by
  unfold downsample
  simp only
  rw [forLoop_set_eq_map]

theorem ratio_pos (R : ℚ) (hR : 0 < R) : 0 < roundDouble (R / 16000) :=
  roundDouble_pos _ (by positivity)

theorem newLength_cast (R : ℚ) (hR : 0 < R) (n : Nat) :
    (newLength R n : Int) = ⌊roundDouble ((n : ℚ) / roundDouble (R / 16000))⌋ := by
  unfold newLength
  simp only
  apply Int.toNat_of_nonneg
  apply Int.floor_nonneg.mpr
  apply roundDouble_nonneg
  exact div_nonneg (Nat.cast_nonneg n) (le_of_lt (ratio_pos R hR))

/-- Every read index of the down-sampling loop lies inside the input buffer. -/
theorem readIndex_lt (R : ℚ) (hR : 0 < R) (n i : Nat) (hi : i < newLength R n)
    (hN : newLength R n < 2 ^ 50) :
    0 ≤ ⌊roundDouble ((i : ℚ) * roundDouble (R / 16000))⌋ ∧
    ⌊roundDouble ((i : ℚ) * roundDouble (R / 16000))⌋ < (n : Int) := by
  have hrp := ratio_pos R hR
  have hc := newLength_cast R hR n
  have hx0 : 0 ≤ (n : ℚ) / roundDouble (R / 16000) :=
    div_nonneg (Nat.cast_nonneg n) (le_of_lt hrp)
  obtain ⟨e1, e2⟩ := roundDouble_error _ hx0
  have h1 : ((i : Int) + 1) ≤ ⌊roundDouble ((n : ℚ) / roundDouble (R / 16000))⌋ := by
    rw [← hc]; exact_mod_cast hi
  have h2 : ((i : ℚ) + 1) ≤ roundDouble ((n : ℚ) / roundDouble (R / 16000)) := by
    have := Int.le_floor.mp h1
    push_cast at this
    exact this
  have h3 : roundDouble ((n : ℚ) / roundDouble (R / 16000)) < 2 ^ 50 := by
    have h : ⌊roundDouble ((n : ℚ) / roundDouble (R / 16000))⌋ < ((2 ^ 50 : Nat) : Int) := by
      rw [← hc]; exact_mod_cast hN
    have := Int.floor_lt.mp h
    push_cast at this
    exact this
  have h4 : (n : ℚ) / roundDouble (R / 16000) < 2 ^ 51 := by
    have : (n : ℚ) / roundDouble (R / 16000) * (1 / 2)
        ≤ (n : ℚ) / roundDouble (R / 16000) * (1 - 1 / 2 ^ 53) :=
      mul_le_mul_of_nonneg_left (by norm_num) hx0
    linarith
  have hxr : (n : ℚ) / roundDouble (R / 16000) * roundDouble (R / 16000) = n :=
    div_mul_cancel₀ _ (ne_of_gt hrp)
  have h5 : (n : ℚ) < 2 ^ 51 * roundDouble (R / 16000) := by
    have := mul_lt_mul_of_pos_right h4 hrp
    rw [hxr] at this
    exact this
  have h6 : (i : ℚ) * roundDouble (R / 16000)
      ≤ (n : ℚ) * (1 + 1 / 2 ^ 53) - roundDouble (R / 16000) := by
    have h := mul_le_mul_of_nonneg_right (le_trans h2 e1) (le_of_lt hrp)
    have e : (n : ℚ) / roundDouble (R / 16000) * (1 + 1 / 2 ^ 53) * roundDouble (R / 16000)
        = (n : ℚ) * (1 + 1 / 2 ^ 53) := by
      rw [mul_right_comm, hxr]
    rw [e] at h
    linarith
  have hir0 : (0 : ℚ) ≤ (i : ℚ) * roundDouble (R / 16000) :=
    mul_nonneg (Nat.cast_nonneg i) (le_of_lt hrp)
  obtain ⟨f1, _⟩ := roundDouble_error _ hir0
  have h7 : roundDouble ((i : ℚ) * roundDouble (R / 16000)) < (n : ℚ) := by
    have g1 := mul_le_mul_of_nonneg_right h6 (by norm_num : (0 : ℚ) ≤ 1 + 1 / 2 ^ 53)
    have g2 : (n : ℚ) * ((1 + 1 / 2 ^ 53) ^ 2 - 1)
        ≤ 2 ^ 51 * roundDouble (R / 16000) * ((1 + 1 / 2 ^ 53) ^ 2 - 1) :=
      mul_le_mul_of_nonneg_right (le_of_lt h5) (by norm_num)
    have g3 : roundDouble (R / 16000) * ((2 : ℚ) ^ 51 * ((1 + 1 / 2 ^ 53) ^ 2 - 1))
        < roundDouble (R / 16000) * (1 + 1 / 2 ^ 53) :=
      mul_lt_mul_of_pos_left (by norm_num) hrp
    nlinarith
  constructor
  · exact Int.floor_nonneg.mpr (roundDouble_nonneg _ hir0)
  · exact Int.floor_lt.mpr (by exact_mod_cast h7)

/-- The two roundings move `newLength` away from `n * 16000 / R` by a relative error of at
most `2 ^ -51`. -/
theorem newLength_bounds (R : ℚ) (hR : 0 < R) (n : Nat) :
    (newLength R n : ℚ) ≤ (n : ℚ) * 16000 / R * (1 + 1 / 2 ^ 51) ∧
    (n : ℚ) * 16000 / R * (1 - 1 / 2 ^ 51) - 1 < (newLength R n : ℚ) := by
  have hrp := ratio_pos R hR
  have hρ : (0 : ℚ) < R / 16000 := by positivity
  obtain ⟨r1, r2⟩ := roundDouble_error (R / 16000) (le_of_lt hρ)
  have hx0 : 0 ≤ (n : ℚ) / roundDouble (R / 16000) :=
    div_nonneg (Nat.cast_nonneg n) (le_of_lt hrp)
  obtain ⟨e1, e2⟩ := roundDouble_error _ hx0
  have hxr : (n : ℚ) / roundDouble (R / 16000) * roundDouble (R / 16000) = n :=
    div_mul_cancel₀ _ (ne_of_gt hrp)
  have hq : (n : ℚ) * 16000 / R * (R / 16000) = n := by
    field_simp
  have hq0 : 0 ≤ (n : ℚ) * 16000 / R := by positivity
  have hc := newLength_cast R hR n
  have hN1 : (newLength R n : ℚ) ≤ roundDouble ((n : ℚ) / roundDouble (R / 16000)) := by
    have := Int.floor_le (roundDouble ((n : ℚ) / roundDouble (R / 16000)))
    rw [← hc] at this
    exact_mod_cast this
  have hN2 : roundDouble ((n : ℚ) / roundDouble (R / 16000)) < (newLength R n : ℚ) + 1 := by
    have := Int.lt_floor_add_one (roundDouble ((n : ℚ) / roundDouble (R / 16000)))
    rw [← hc] at this
    exact_mod_cast this
  -- x * (1 - u) ≤ q and q ≤ x * (1 + u)
  have a1 : (n : ℚ) / roundDouble (R / 16000) * (1 - 1 / 2 ^ 53) ≤ (n : ℚ) * 16000 / R := by
    have h := mul_le_mul_of_nonneg_left r2 hx0
    rw [hxr] at h
    have h' : (n : ℚ) / roundDouble (R / 16000) * (1 - 1 / 2 ^ 53) * (R / 16000)
        ≤ (n : ℚ) * 16000 / R * (R / 16000) := by
      have e : (n : ℚ) / roundDouble (R / 16000) * (1 - 1 / 2 ^ 53) * (R / 16000)
          = (n : ℚ) / roundDouble (R / 16000) * (R / 16000 * (1 - 1 / 2 ^ 53)) := by ring
      rw [hq, e]
      exact h
    exact le_of_mul_le_mul_right h' hρ
  have a2 : (n : ℚ) * 16000 / R ≤ (n : ℚ) / roundDouble (R / 16000) * (1 + 1 / 2 ^ 53) := by
    have h := mul_le_mul_of_nonneg_left r1 hx0
    rw [hxr] at h
    have h' : (n : ℚ) * 16000 / R * (R / 16000)
        ≤ (n : ℚ) / roundDouble (R / 16000) * (1 + 1 / 2 ^ 53) * (R / 16000) := by
      have e : (n : ℚ) / roundDouble (R / 16000) * (1 + 1 / 2 ^ 53) * (R / 16000)
          = (n : ℚ) / roundDouble (R / 16000) * (R / 16000 * (1 + 1 / 2 ^ 53)) := by ring
      rw [hq, e]
      exact h
    exact le_of_mul_le_mul_right h' hρ
  constructor
  · have b1 := mul_le_mul_of_nonneg_right a1 (by norm_num : (0 : ℚ) ≤ 1 + 1 / 2 ^ 53)
    have b2 : (n : ℚ) * 16000 / R * (1 + 1 / 2 ^ 53)
        ≤ (n : ℚ) * 16000 / R * ((1 + 1 / 2 ^ 51) * (1 - 1 / 2 ^ 53)) :=
      mul_le_mul_of_nonneg_left (by norm_num) hq0
    have b3 : (newLength R n : ℚ) * (1 - 1 / 2 ^ 53)
        ≤ (n : ℚ) / roundDouble (R / 16000) * (1 + 1 / 2 ^ 53) * (1 - 1 / 2 ^ 53) :=
      mul_le_mul_of_nonneg_right (le_trans hN1 e1) (by norm_num)
    have b4 : (newLength R n : ℚ) * (1 - 1 / 2 ^ 53)
        ≤ (n : ℚ) * 16000 / R * (1 + 1 / 2 ^ 51) * (1 - 1 / 2 ^ 53) := by
      nlinarith
    exact le_of_mul_le_mul_right b4 (by norm_num)
  · have b1 := mul_le_mul_of_nonneg_right a2 (by norm_num : (0 : ℚ) ≤ 1 - 1 / 2 ^ 53)
    have b2 : (n : ℚ) * 16000 / R * ((1 - 1 / 2 ^ 51) * (1 + 1 / 2 ^ 53))
        ≤ (n : ℚ) * 16000 / R * (1 - 1 / 2 ^ 53) :=
      mul_le_mul_of_nonneg_left (by norm_num) hq0
    have b3 : (n : ℚ) * 16000 / R * (1 - 1 / 2 ^ 51) * (1 + 1 / 2 ^ 53)
        ≤ roundDouble ((n : ℚ) / roundDouble (R / 16000)) * (1 + 1 / 2 ^ 53) := by
      have := mul_le_mul_of_nonneg_right e2 (by norm_num : (0 : ℚ) ≤ 1 + 1 / 2 ^ 53)
      nlinarith
    have b4 := le_of_mul_le_mul_right b3 (by norm_num : (0 : ℚ) < 1 + 1 / 2 ^ 53)
    linarith

/-- At a source rate of `k` times 16000 Hz the ratio is the integer `k` and the rounded
quotient has the same integer part as the exact one. -/
theorem newLength_multiple (k n : Nat) (hk : 0 < k) (hk2 : k < 2 ^ 53) (hn : n < 2 ^ 53) :
    newLength (16000 * (k : ℚ)) n = n / k := by
  have hkq : (0 : ℚ) < (k : ℚ) := by exact_mod_cast hk
  have hratio : roundDouble (16000 * (k : ℚ) / 16000) = k := by
    rw [mul_div_cancel_left₀ _ (by norm_num : (16000 : ℚ) ≠ 0)]
    exact roundDouble_natCast k hk2
  unfold newLength
  simp only
  rw [hratio]
  have hfl : ⌊roundDouble ((n : ℚ) / k)⌋ = ((n / k : Nat) : Int) := by
    rw [Int.floor_eq_iff]
    have hx0 : 0 ≤ (n : ℚ) / k := by positivity
    constructor
    · have h1 : (((n / k : Nat) : Int) : ℚ) ≤ (n : ℚ) / k := by
        rw [Int.cast_natCast]
        exact Nat.cast_div_le
      have h2 := roundDouble_mono _ _ (by positivity) h1
      have h3 : n / k < 2 ^ 53 := lt_of_le_of_lt (Nat.div_le_self n k) hn
      rw [roundDouble_intCast _ (by positivity) (by exact_mod_cast h3)] at h2
      exact h2
    · obtain ⟨e1, _⟩ := roundDouble_error _ hx0
      have hdm := Nat.div_add_mod n k
      have hmod := Nat.mod_lt n hk
      have hn1 : (n : ℚ) = (k : ℚ) * ((n / k : Nat) : ℚ) + ((n % k : Nat) : ℚ) := by
        exact_mod_cast hdm.symm
      have hm1 : ((n % k : Nat) : ℚ) + 1 ≤ (k : ℚ) := by exact_mod_cast hmod
      have hnq : (n : ℚ) < 2 ^ 53 := by exact_mod_cast hn
      have hxk : (n : ℚ) / k * k = n := div_mul_cancel₀ _ (ne_of_gt hkq)
      have g : (n : ℚ) / k * (1 + 1 / 2 ^ 53) * k < (((n / k : Nat) : ℚ) + 1) * k := by
        have : (n : ℚ) / k * (1 + 1 / 2 ^ 53) * k = (n : ℚ) * (1 + 1 / 2 ^ 53) := by
          rw [mul_right_comm, hxk]
        rw [this]
        nlinarith
      have g2 := lt_of_mul_lt_mul_right g (le_of_lt hkq)
      rw [Int.cast_natCast]
      linarith
  rw [hfl]
  exact Int.toNat_natCast _

/-- With an integer ratio the product `i * ratio` is exact. -/
theorem readIndex_multiple (k i : Nat) (hk : k < 2 ^ 53) (hik : i * k < 2 ^ 53) :
    ⌊roundDouble ((i : ℚ) * roundDouble (16000 * (k : ℚ) / 16000))⌋ = ((i * k : Nat) : Int) := by
  rw [mul_div_cancel_left₀ _ (by norm_num : (16000 : ℚ) ≠ 0), roundDouble_natCast k hk]
  have e : (i : ℚ) * (k : ℚ) = ((i * k : Nat) : ℚ) := by push_cast; ring
  rw [e, roundDouble_natCast _ hik]
  exact Int.floor_natCast _

theorem ratio_ge_one (R : ℚ) (hR : 16000 ≤ R) : 1 ≤ roundDouble (R / 16000) := by
  have h1 : (1 : ℚ) ≤ R / 16000 := by
    rw [le_div_iff₀ (by norm_num)]
    linarith
  have h2 := roundDouble_mono 1 (R / 16000) (by norm_num) h1
  have h3 := roundDouble_natCast 1 (by norm_num)
  simp only [Nat.cast_one] at h3
  rw [h3] at h2
  exact h2

/-- The read indices do not decrease. -/
theorem readIndex_mono (R : ℚ) (hR : 0 < R) (i j : Nat) (hij : i ≤ j) :
    ⌊roundDouble ((i : ℚ) * roundDouble (R / 16000))⌋
      ≤ ⌊roundDouble ((j : ℚ) * roundDouble (R / 16000))⌋ := by
  have hrp := ratio_pos R hR
  apply Int.floor_le_floor
  apply roundDouble_mono
  · exact mul_nonneg (Nat.cast_nonneg i) (le_of_lt hrp)
  · exact mul_le_mul_of_nonneg_right (by exact_mod_cast hij) (le_of_lt hrp)

/-- From 16000 Hz on, the read indices below `2 ^ 52` increase strictly. -/
theorem readIndex_strict (R : ℚ) (hR : 16000 ≤ R) (i j : Nat) (hij : i < j)
    (hb : ⌊roundDouble ((i : ℚ) * roundDouble (R / 16000))⌋ + 1 ≤ 2 ^ 52) :
    ⌊roundDouble ((i : ℚ) * roundDouble (R / 16000))⌋
      < ⌊roundDouble ((j : ℚ) * roundDouble (R / 16000))⌋ := by
  have hr1 := ratio_ge_one R hR
  have hir0 : (0 : ℚ) ≤ (i : ℚ) * roundDouble (R / 16000) :=
    mul_nonneg (Nat.cast_nonneg i) (by linarith)
  have ha0 : 0 ≤ ⌊roundDouble ((i : ℚ) * roundDouble (R / 16000))⌋ :=
    Int.floor_nonneg.mpr (roundDouble_nonneg _ hir0)
  have h1 := roundDouble_add_one _ _ ha0 hb hir0 (Int.floor_le _)
  have h2 : (i : ℚ) * roundDouble (R / 16000) + 1 ≤ (j : ℚ) * roundDouble (R / 16000) := by
    have : (i : ℚ) + 1 ≤ (j : ℚ) := by exact_mod_cast hij
    nlinarith
  have h3 := roundDouble_mono _ _ (by linarith) h2
  have h4 : ((⌊roundDouble ((i : ℚ) * roundDouble (R / 16000))⌋ + 1 : Int) : ℚ)
      ≤ roundDouble ((j : ℚ) * roundDouble (R / 16000)) := by
    push_cast
    linarith
  have := Int.le_floor.mpr h4
  omega

/-- A read index below `2 ^ 50` is within one of the exact product `i * R / 16000`. -/
theorem readIndex_near (R : ℚ) (hR : 0 < R) (i : Nat)
    (hy : roundDouble ((i : ℚ) * roundDouble (R / 16000)) < 2 ^ 50) :
    (i : ℚ) * R / 16000 - 1 < roundDouble ((i : ℚ) * roundDouble (R / 16000)) ∧
    roundDouble ((i : ℚ) * roundDouble (R / 16000)) < (i : ℚ) * R / 16000 + 1 := by
  have hrp := ratio_pos R hR
  have hρ : (0 : ℚ) < R / 16000 := by positivity
  obtain ⟨r1, r2⟩ := roundDouble_error (R / 16000) (le_of_lt hρ)
  have hi0 : (0 : ℚ) ≤ (i : ℚ) := Nat.cast_nonneg i
  have hir0 : (0 : ℚ) ≤ (i : ℚ) * roundDouble (R / 16000) := mul_nonneg hi0 (le_of_lt hrp)
  obtain ⟨e1, e2⟩ := roundDouble_error _ hir0
  have hp : (i : ℚ) * R / 16000 = (i : ℚ) * (R / 16000) := by ring
  rw [hp]
  have hp0 : (0 : ℚ) ≤ (i : ℚ) * (R / 16000) := mul_nonneg hi0 (le_of_lt hρ)
  have a1 : (i : ℚ) * (R / 16000) * (1 - 1 / 2 ^ 53) ≤ (i : ℚ) * roundDouble (R / 16000) := by
    have := mul_le_mul_of_nonneg_left r2 hi0
    linarith
  have a2 : (i : ℚ) * roundDouble (R / 16000) ≤ (i : ℚ) * (R / 16000) * (1 + 1 / 2 ^ 53) := by
    have := mul_le_mul_of_nonneg_left r1 hi0
    linarith
  have b1 : (i : ℚ) * (R / 16000) * (1 - 1 / 2 ^ 53) * (1 - 1 / 2 ^ 53)
      ≤ roundDouble ((i : ℚ) * roundDouble (R / 16000)) := by
    have := mul_le_mul_of_nonneg_right a1 (by norm_num : (0 : ℚ) ≤ 1 - 1 / 2 ^ 53)
    linarith
  have b2 : roundDouble ((i : ℚ) * roundDouble (R / 16000))
      ≤ (i : ℚ) * (R / 16000) * (1 + 1 / 2 ^ 53) * (1 + 1 / 2 ^ 53) := by
    have := mul_le_mul_of_nonneg_right a2 (by norm_num : (0 : ℚ) ≤ 1 + 1 / 2 ^ 53)
    linarith
  have c1 : (i : ℚ) * (R / 16000) * (1 / 2)
      ≤ (i : ℚ) * (R / 16000) * ((1 - 1 / 2 ^ 53) * (1 - 1 / 2 ^ 53)) :=
    mul_le_mul_of_nonneg_left (by norm_num) hp0
  have hp51 : (i : ℚ) * (R / 16000) < 2 ^ 51 := by
    have : (i : ℚ) * (R / 16000) * ((1 - 1 / 2 ^ 53) * (1 - 1 / 2 ^ 53))
        = (i : ℚ) * (R / 16000) * (1 - 1 / 2 ^ 53) * (1 - 1 / 2 ^ 53) := by ring
    linarith
  have d1 : (i : ℚ) * (R / 16000) * (1 - (1 - 1 / 2 ^ 53) * (1 - 1 / 2 ^ 53))
      ≤ 2 ^ 51 * (1 - (1 - 1 / 2 ^ 53) * (1 - 1 / 2 ^ 53)) :=
    mul_le_mul_of_nonneg_right (le_of_lt hp51) (by norm_num)
  have d2 : (i : ℚ) * (R / 16000) * ((1 + 1 / 2 ^ 53) * (1 + 1 / 2 ^ 53) - 1)
      ≤ 2 ^ 51 * ((1 + 1 / 2 ^ 53) * (1 + 1 / 2 ^ 53) - 1) :=
    mul_le_mul_of_nonneg_right (le_of_lt hp51) (by norm_num)
  have n1 : (2 : ℚ) ^ 51 * (1 - (1 - 1 / 2 ^ 53) * (1 - 1 / 2 ^ 53)) < 1 := by norm_num
  have n2 : (2 : ℚ) ^ 51 * ((1 + 1 / 2 ^ 53) * (1 + 1 / 2 ^ 53) - 1) < 1 := by norm_num
  constructor
  · nlinarith
  · nlinarith

/-- With a whole multiple of 16000 Hz a read index below `2 ^ 50` is the exact product. -/
theorem readIndex_whole (m i : Nat) (hm : 0 < m)
    (hy : roundDouble ((i : ℚ) * roundDouble (16000 * (m : ℚ) / 16000)) < 2 ^ 50) :
    ⌊roundDouble ((i : ℚ) * roundDouble (16000 * (m : ℚ) / 16000))⌋
      = ⌊(i : ℚ) * (16000 * (m : ℚ)) / 16000⌋ := by
  have e0 : (i : ℚ) * (16000 * (m : ℚ)) / 16000 = ((i * m : Nat) : ℚ) := by
    push_cast
    ring
  rw [e0, Int.floor_natCast]
  rcases Nat.eq_zero_or_pos i with hi | hi
  · subst hi
    simp [roundDouble_zero]
  · have h250 : roundDouble (((2 ^ 50 : Nat) : ℚ)) = ((2 ^ 50 : Nat) : ℚ) :=
      roundDouble_natCast _ (by norm_num)
    have hcancel : 16000 * (m : ℚ) / 16000 = (m : ℚ) :=
      mul_div_cancel_left₀ _ (by norm_num : (16000 : ℚ) ≠ 0)
    have hmq : (0 : ℚ) < (m : ℚ) := by exact_mod_cast hm
    have hiq : (1 : ℚ) ≤ (i : ℚ) := by exact_mod_cast hi
    have hrp : 0 < roundDouble (16000 * (m : ℚ) / 16000) :=
      roundDouble_pos _ (by rw [hcancel]; exact hmq)
    have hm50 : m < 2 ^ 50 := by
      by_contra hc
      push_neg at hc
      have h1 : ((2 ^ 50 : Nat) : ℚ) ≤ (m : ℚ) := by exact_mod_cast hc
      have h2 := roundDouble_mono _ _ (by positivity) h1
      rw [h250] at h2
      have h3 : ((2 ^ 50 : Nat) : ℚ) ≤ (i : ℚ) * roundDouble (16000 * (m : ℚ) / 16000) := by
        rw [hcancel]
        nlinarith
      have h4 := roundDouble_mono _ _ (by positivity) h3
      rw [h250] at h4
      push_cast at h4
      linarith
    have hik : i * m < 2 ^ 50 := by
      by_contra hc
      push_neg at hc
      have h1 : ((2 ^ 50 : Nat) : ℚ) ≤ ((i * m : Nat) : ℚ) := by exact_mod_cast hc
      have h3 : ((2 ^ 50 : Nat) : ℚ) ≤ (i : ℚ) * roundDouble (16000 * (m : ℚ) / 16000) := by
        rw [hcancel, roundDouble_natCast m (by omega)]
        push_cast at h1 ⊢
        exact h1
      have h4 := roundDouble_mono _ _ (by positivity) h3
      rw [h250] at h4
      push_cast at h4
      linarith
    exact readIndex_multiple m i (by omega) (by omega)

/-! ## Down-sampler: particular rates -/

theorem ratio_17600 : roundDouble (17600 / 16000) = 4953959590107546 / 2 ^ 52 := by
  have h := roundDouble_eq (17600 / 16000) 52 4953959590107546
    (by norm_num) (by norm_num) (by norm_num) (by norm_num)
  rw [h]
  norm_num

theorem newLength_17600_33 : newLength 17600 33 = 29 := by
  unfold newLength
  simp only
  rw [ratio_17600]
  have h := roundDouble_eq (((33 : Nat) : ℚ) / (4953959590107546 / 2 ^ 52)) 48 8444249301319679
    (by norm_num) (by norm_num) (by norm_num) (by norm_num)
  rw [h]
  have hf : ⌊((8444249301319679 : Int) : ℚ) / 2 ^ 48⌋ = 29 := by
    rw [Int.floor_eq_iff]
    norm_num
  rw [hf]
  rfl

theorem ratio_11200 : roundDouble (11200 / 16000) = 6305039478318694 / 2 ^ 53 := by
  have h := roundDouble_eq (11200 / 16000) 53 6305039478318694
    (by norm_num) (by norm_num) (by norm_num) (by norm_num)
  rw [h]
  norm_num

theorem newLength_11200_100 : newLength 11200 100 = 142 := by
  unfold newLength
  simp only
  rw [ratio_11200]
  have h := roundDouble_eq (((100 : Nat) : ℚ) / (6305039478318694 / 2 ^ 53)) 45 5026338869833143
    (by norm_num) (by norm_num) (by norm_num) (by norm_num)
  rw [h]
  have hf : ⌊((5026338869833143 : Int) : ℚ) / 2 ^ 45⌋ = 142 := by
    rw [Int.floor_eq_iff]
    norm_num
  rw [hf]
  rfl

theorem readIndex_11200_90 :
    ⌊roundDouble (((90 : Nat) : ℚ) * roundDouble (11200 / 16000))⌋ = 62 := by
  rw [ratio_11200]
  have h := roundDouble_eq (((90 : Nat) : ℚ) * (6305039478318694 / 2 ^ 53)) 47 8866461766385663
    (by norm_num) (by norm_num) (by norm_num) (by norm_num)
  rw [h, Int.floor_eq_iff]
  norm_num

theorem newLength_48000_10 : newLength 48000 10 = 3 := by
  have h := newLength_multiple 3 10 (by norm_num) (by norm_num) (by norm_num)
  norm_num at h
  exact h

theorem ratio_44100 : roundDouble (44100 / 16000) = 6206523236469965 / 2 ^ 51 := by
  have h := roundDouble_eq (44100 / 16000) 51 6206523236469965
    (by norm_num) (by norm_num) (by norm_num) (by norm_num)
  rw [h]
  norm_num

theorem newLength_44100_4096 : newLength 44100 4096 = 1486 := by
  unfold newLength
  simp only
  rw [ratio_44100]
  have h := roundDouble_eq (((4096 : Nat) : ℚ) / (6206523236469965 / 2 ^ 51)) 42 6535836193916366
    (by norm_num) (by norm_num) (by norm_num) (by norm_num)
  rw [h]
  have hf : ⌊((6535836193916366 : Int) : ℚ) / 2 ^ 42⌋ = 1486 := by
    rw [Int.floor_eq_iff]
    norm_num
  rw [hf]
  rfl

theorem readSample_of_range (a : List JSNumber) (z : Int) (h0 : 0 ≤ z)
    (h1 : z.toNat < a.length) : readSample a z = a[z.toNat] := by
  simp [readSample, List.getD, h0, h1]

theorem truncate_neg32768 : truncate (-32768) = -32768 := by
  have h : ¬ (0 : ℚ) ≤ -32768 := by norm_num
  have hc : (-32768 : ℚ) = ((-32768 : Int) : ℚ) := by norm_num
  unfold truncate
  rw [if_neg h, hc, Int.ceil_intCast]

theorem truncate_32767 : truncate 32767 = 32767 := by
  norm_num [truncate]

theorem scaleSample_clampSample_negInf :
    scaleSample (clampSample .negInf) = .fin (-32768) := by
  simp [clampSample, Math.min, Math.max, scaleSample, JSNumber.lt, JSNumber.mul]

theorem scaleSample_clampSample_posInf :
    scaleSample (clampSample .posInf) = .fin 32767 := by
  simp [clampSample, Math.min, Math.max, scaleSample, JSNumber.lt, JSNumber.mul]

theorem encodeSample_negInf : encodeSample .negInf = -32768 := by
  unfold encodeSample
  rw [scaleSample_clampSample_negInf]
  simp only [toInt16, truncate_neg32768]
  decide

theorem encodeSample_posInf : encodeSample .posInf = 32767 := by
  unfold encodeSample
  rw [scaleSample_clampSample_posInf]
  simp only [toInt16, truncate_32767]
  decide

/-! ## Capture encoder: specification claims -/

/-- C1: for every sample value `x` (finite inside or outside `[-1, 1]`, infinite or `NaN`)
the float-to-PCM conversion of days 19, 21, 22 and 27 stores a value between `-32768` and
`32767`, and the 16-bit store never wraps: the number handed to the `Int16Array` is either
`NaN` (stored as `0`) or a finite value whose integer part already lies in the signed 16-bit
range and is stored unchanged.  A whole frame is the element-wise conversion of its input
(days 19 and 21) or of the down-sampled input (days 22 and 27). -/
theorem encodeSample_in_int16_range (x : JSNumber) (data : List JSNumber) (R : ℚ) :
    (-32768 ≤ encodeSample x ∧ encodeSample x ≤ 32767) ∧
    ((scaleSample (clampSample x) = .nan ∧ encodeSample x = 0) ∨
      ∃ q : ℚ, scaleSample (clampSample x) = .fin q ∧
        -32768 ≤ truncate q ∧ truncate q ≤ 32767 ∧ encodeSample x = truncate q) ∧
    encodePCM data = data.map encodeSample ∧
    onaudioprocess19 true data = some (data.map encodeSample) ∧
    onaudioprocess22 true R data = some ((downsample R data).map encodeSample) ∧
    onaudioprocess27 true true R data = some ((downsample R data).map encodeSample) := by
  have key : (scaleSample (clampSample x) = .nan ∧ encodeSample x = 0) ∨
      ∃ q : ℚ, scaleSample (clampSample x) = .fin q ∧
        -32768 ≤ truncate q ∧ truncate q ≤ 32767 ∧ encodeSample x = truncate q := by
    cases x with
    | nan => left; simp [encodeSample, clampSample, Math.min, Math.max, scaleSample,
        JSNumber.lt, JSNumber.mul, toInt16]
    | negInf =>
      right
      exact ⟨-32768, scaleSample_clampSample_negInf, by rw [truncate_neg32768],
        by rw [truncate_neg32768]; omega, by rw [truncate_neg32768]; exact encodeSample_negInf⟩
    | posInf =>
      right
      exact ⟨32767, scaleSample_clampSample_posInf, by rw [truncate_32767]; omega,
        by rw [truncate_32767], by rw [truncate_32767]; exact encodeSample_posInf⟩
    | fin q =>
      right
      have hc1 : (-1 : ℚ) ≤ max (-1) (min 1 q) := le_max_left _ _
      have hc2 : max (-1) (min 1 q) ≤ (1 : ℚ) := max_le (by norm_num) (min_le_left _ _)
      have he := encodeSample_fin q
      rw [clampSample_fin, scaleSample_fin]
      by_cases h : max (-1) (min 1 q) < 0
      · rw [if_pos h] at he ⊢
        obtain ⟨a, b⟩ := truncate_neg_range _ hc1 h
        exact ⟨_, rfl, a, by omega, he⟩
      · rw [if_neg h] at he ⊢
        obtain ⟨a, b⟩ := truncate_nonneg_range _ (not_lt.mp h) hc2
        exact ⟨_, rfl, by omega, b, he⟩
  refine ⟨?_, key, encodePCM_eq_map data, ?_, ?_, ?_⟩
  · rcases key with ⟨_, h0⟩ | ⟨q, _, a, b, hq⟩
    · rw [h0]; omega
    · rw [hq]; exact ⟨a, b⟩
  · simp [onaudioprocess19, encodePCM_eq_map]
  · simp [onaudioprocess22, encodePCM_eq_map]
  · simp [onaudioprocess27, encodePCM_eq_map]

/-- C2: in the capture encoder of days 22 and 27, a finite sample `q` with clamped value
`c = max(-1, min(1, q))` is emitted as `trunc(c * 32768)` when `c < 0` and as
`trunc(c * 32767)` otherwise; samples at or below `-1` (and `-Infinity`) give `-32768`,
samples at or above `1` (and `+Infinity`) give `32767`, and `0` gives `0`. -/
theorem encodeSample_clamp_scale (q : ℚ) :
    (encodeSample (.fin q) =
      if max (-1) (min 1 q) < 0 then truncate (max (-1) (min 1 q) * 32768)
      else truncate (max (-1) (min 1 q) * 32767)) ∧
    (q ≤ -1 → encodeSample (.fin q) = -32768) ∧
    (1 ≤ q → encodeSample (.fin q) = 32767) ∧
    encodeSample (.fin 0) = 0 ∧
    encodeSample .negInf = -32768 ∧ encodeSample .posInf = 32767 := by
  have h0 : truncate 0 = 0 := by norm_num [truncate]
  refine ⟨encodeSample_fin q, ?_, ?_, ?_, encodeSample_negInf, encodeSample_posInf⟩
  · intro h
    have hc : max (-1) (min 1 q) = -1 := by
      rw [min_eq_right (by linarith), max_eq_left h]
    rw [encodeSample_fin, hc]
    norm_num [truncate_neg32768]
  · intro h
    have hc : max (-1) (min 1 q) = 1 := by
      rw [min_eq_left h, max_eq_right (by norm_num)]
    rw [encodeSample_fin, hc]
    norm_num [truncate_32767]
  · rw [encodeSample_fin]
    norm_num [h0]

/-- Witness for C2 at the out-of-range samples `-3/2` and `3/2`. -/
theorem encodeSample_clamp_scale_witness :
    encodeSample (.fin (-3 / 2)) = -32768 ∧ encodeSample (.fin (3 / 2)) = 32767 :=
  ⟨(encodeSample_clamp_scale (-3 / 2)).2.1 (by norm_num),
   (encodeSample_clamp_scale (3 / 2)).2.2.1 (by norm_num)⟩

/-- C3, as stated, fails: at a source rate of 17600 Hz a buffer of 33 samples gives 29
output samples, while `floor(33 * 16000 / 17600) = 30`.  In doubles `17600 / 16000` is
`1.1000000000000000888` and `33 / 1.1` rounds to `29.999999999999996`. -/
theorem newLength_rounds_down :
    roundDouble (17600 / 16000) = 4953959590107546 / 2 ^ 52 ∧
    roundDouble (33 / roundDouble (17600 / 16000)) = 8444249301319679 / 2 ^ 48 ∧
    newLength 17600 33 = 29 ∧
    (downsample 17600 (List.replicate 33 (.fin 0))).length = 29 ∧
    ⌊((33 : Nat) : ℚ) * 16000 / 17600⌋ = 30 := by
  refine ⟨ratio_17600, ?_, newLength_17600_33, ?_, ?_⟩
  · rw [ratio_17600]
    have h := roundDouble_eq ((33 : ℚ) / (4953959590107546 / 2 ^ 52)) 48 8444249301319679
      (by norm_num) (by norm_num) (by norm_num) (by norm_num)
    rw [h]
    norm_num
  · rw [downsample_eq_map, List.length_map, List.length_range, List.length_replicate]
    exact newLength_17600_33
  · rw [Int.floor_eq_iff]
    norm_num

/-- C3, amended: for every input buffer of length `n` and every source rate `R > 0` the
down-sampler of days 22 and 27 produces exactly `newLength = Math.floor(n / ratio)` samples,
with `ratio = R / 16000` and both divisions rounded to double precision, and the PCM frame
handed to the socket has the same number of samples.  This number lies between
`n * 16000 / R * (1 - 2 ^ -51) - 1` and `n * 16000 / R * (1 + 2 ^ -51)`, and it is
`floor(n * 16000 / R)` when `R` is a whole multiple of 16000 (lengths and multiples below
`2 ^ 53`). -/
theorem downsample_length (R : ℚ) (hR : 0 < R) (inputData : List JSNumber) :
    (downsample R inputData).length = newLength R inputData.length ∧
    (∃ frame, onaudioprocess27 true true R inputData = some frame ∧
      frame.length = newLength R inputData.length) ∧
    (∃ frame, onaudioprocess22 true R inputData = some frame ∧
      frame.length = newLength R inputData.length) ∧
    (newLength R inputData.length : ℚ)
      ≤ (inputData.length : ℚ) * 16000 / R * (1 + 1 / 2 ^ 51) ∧
    (inputData.length : ℚ) * 16000 / R * (1 - 1 / 2 ^ 51) - 1
      < (newLength R inputData.length : ℚ) ∧
    (∀ k : Nat, R = 16000 * (k : ℚ) → k < 2 ^ 53 → inputData.length < 2 ^ 53 →
      (newLength R inputData.length : Int) = ⌊(inputData.length : ℚ) * 16000 / R⌋) := by
  have h : (downsample R inputData).length = newLength R inputData.length := by
    rw [downsample_eq_map, List.length_map, List.length_range]
  obtain ⟨b1, b2⟩ := newLength_bounds R hR inputData.length
  refine ⟨h, ⟨encodePCM (downsample R inputData), by simp [onaudioprocess27], ?_⟩,
    ⟨encodePCM (downsample R inputData), by simp [onaudioprocess22], ?_⟩, b1, b2, ?_⟩
  · rw [encodePCM_eq_map, List.length_map]; exact h
  · rw [encodePCM_eq_map, List.length_map]; exact h
  · intro k hk hk2 hn
    have hk0 : 0 < k := by
      rcases Nat.eq_zero_or_pos k with h0 | h0
      · exfalso
        rw [hk, h0] at hR
        simp at hR
      · exact h0
    have hkq : (0 : ℚ) < (k : ℚ) := by exact_mod_cast hk0
    rw [hk, newLength_multiple k _ hk0 hk2 hn]
    have e : (inputData.length : ℚ) * 16000 / (16000 * (k : ℚ)) = (inputData.length : ℚ) / k := by
      field_simp
      ring
    rw [e]
    exact (Rat.floor_natCast_div_natCast _ _).symm

/-- Witness for C3: ten samples at 48 kHz give `floor(10 * 16000 / 48000) = 3` samples. -/
theorem downsample_length_witness :
    (downsample 48000 (List.replicate 10 (.fin 0))).length
      = newLength 48000 (List.replicate 10 (JSNumber.fin 0)).length ∧
    (newLength 48000 (List.replicate 10 (JSNumber.fin 0)).length : Int)
      = ⌊(((List.replicate 10 (JSNumber.fin 0)).length : Nat) : ℚ) * 16000 / 48000⌋ :=
  ⟨(downsample_length 48000 (by norm_num) (List.replicate 10 (.fin 0))).1,
    (downsample_length 48000 (by norm_num) (List.replicate 10 (.fin 0))).2.2.2.2.2 3
      (by norm_num) (by norm_num) (by simp)⟩

/-- C4, as stated, fails: at a source rate of 11200 Hz output index `90` reads input index
`62`, while `floor(90 * 11200 / 16000) = 63`.  In doubles `11200 / 16000` is
`0.69999999999999995559` and `90 * 0.7` rounds to `62.99999999999999`. -/
theorem readIndex_rounds_down :
    roundDouble (11200 / 16000) = 6305039478318694 / 2 ^ 53 ∧
    roundDouble (90 * roundDouble (11200 / 16000)) = 8866461766385663 / 2 ^ 47 ∧
    ⌊roundDouble (90 * roundDouble (11200 / 16000))⌋ = 62 ∧
    (downsample 11200 ((List.range 100).map (fun n : Nat => JSNumber.fin n)))[90]?
      = some (.fin 62) ∧
    ⌊(90 : ℚ) * 11200 / 16000⌋ = 63 := by
  have hidx := readIndex_11200_90
  refine ⟨ratio_11200, ?_, ?_, ?_, ?_⟩
  · rw [ratio_11200]
    have h := roundDouble_eq ((90 : ℚ) * (6305039478318694 / 2 ^ 53)) 47 8866461766385663
      (by norm_num) (by norm_num) (by norm_num) (by norm_num)
    rw [h]
    norm_num
  · simpa using hidx
  · have hlen : 90 < newLength 11200
        ((List.range 100).map (fun n : Nat => JSNumber.fin n)).length := by
      rw [List.length_map, List.length_range, newLength_11200_100]
      norm_num
    rw [downsample_eq_map, List.getElem?_map, List.getElem?_range hlen]
    simp only [Option.map_some']
    rw [hidx, readSample_of_range _ _ (by norm_num) (by simp)]
    simp
  · rw [Int.floor_eq_iff]
    norm_num

/-- C4, amended: for every input buffer, source rate `R > 0` and output index
`i < newLength` (array lengths below `2 ^ 50`), the down-sampler of days 22 and 27 copies
one input sample unchanged into `output[i]`, the one at index `Math.floor(i * ratio)` with
`ratio = R / 16000` and the product rounded to double precision; there is no interpolation
or averaging.  This index lies inside the input buffer and differs from
`floor(i * R / 16000)` by at most one; it equals `floor(i * R / 16000)` when `R` is a whole
multiple of 16000. -/
theorem downsample_getElem (R : ℚ) (hR : 0 < R) (inputData : List JSNumber) (i : Nat)
    (hi : i < newLength R inputData.length) (hn : inputData.length < 2 ^ 50)
    (hN : newLength R inputData.length < 2 ^ 50) :
    ∃ k : Nat, (k : Int) = ⌊roundDouble ((i : ℚ) * roundDouble (R / 16000))⌋ ∧
      (∃ h : k < inputData.length, (downsample R inputData)[i]? = some inputData[k]) ∧
      ⌊(i : ℚ) * R / 16000⌋ - 1 ≤ (k : Int) ∧ (k : Int) ≤ ⌊(i : ℚ) * R / 16000⌋ + 1 ∧
      (∀ m : Nat, R = 16000 * (m : ℚ) → (k : Int) = ⌊(i : ℚ) * R / 16000⌋) := by
  obtain ⟨h0, h1⟩ := readIndex_lt R hR inputData.length i hi hN
  have hrp := ratio_pos R hR
  have hρ : (0 : ℚ) < R / 16000 := by positivity
  have hk : ((⌊roundDouble ((i : ℚ) * roundDouble (R / 16000))⌋.toNat : Nat) : Int)
      = ⌊roundDouble ((i : ℚ) * roundDouble (R / 16000))⌋ := Int.toNat_of_nonneg h0
  have hnq : (inputData.length : ℚ) < 2 ^ 50 := by exact_mod_cast hn
  have hy : roundDouble ((i : ℚ) * roundDouble (R / 16000)) < 2 ^ 50 := by
    have := Int.lt_floor_add_one (roundDouble ((i : ℚ) * roundDouble (R / 16000)))
    have h1q : ((⌊roundDouble ((i : ℚ) * roundDouble (R / 16000))⌋ : Int) : ℚ) + 1
        ≤ (inputData.length : ℚ) := by
      have : ⌊roundDouble ((i : ℚ) * roundDouble (R / 16000))⌋ + 1 ≤ (inputData.length : Int) := by
        omega
      exact_mod_cast this
    linarith
  refine ⟨(⌊roundDouble ((i : ℚ) * roundDouble (R / 16000))⌋).toNat, hk, ⟨by omega, ?_⟩,
    ?_, ?_, ?_⟩
  · rw [downsample_eq_map, List.getElem?_map, List.getElem?_range hi]
    simp only [Option.map_some']
    rw [readSample_of_range _ _ h0 (by omega)]
  · rw [hk]
    obtain ⟨a, _⟩ := readIndex_near R hR i hy
    have hfl := Int.floor_le ((i : ℚ) * R / 16000)
    have : ((⌊(i : ℚ) * R / 16000⌋ - 1 : Int) : ℚ)
        ≤ roundDouble ((i : ℚ) * roundDouble (R / 16000)) := by
      push_cast
      linarith
    exact Int.le_floor.mpr this
  · rw [hk]
    obtain ⟨_, b⟩ := readIndex_near R hR i hy
    have hfl := Int.lt_floor_add_one ((i : ℚ) * R / 16000)
    have hy2 := Int.floor_le (roundDouble ((i : ℚ) * roundDouble (R / 16000)))
    have : ((⌊roundDouble ((i : ℚ) * roundDouble (R / 16000))⌋ : Int) : ℚ)
        < ((⌊(i : ℚ) * R / 16000⌋ + 2 : Int) : ℚ) := by
      push_cast
      linarith
    have := Int.cast_lt.mp this
    omega
  · intro m hm
    rw [hk]
    have hm0 : 0 < m := by
      rcases Nat.eq_zero_or_pos m with h0 | h0
      · exfalso
        rw [hm, h0] at hR
        simp at hR
      · exact h0
    subst hm
    exact readIndex_whole m i hm0 hy

/-- Witness for C4: at 48 kHz output index `2` reads input index `6`. -/
theorem downsample_getElem_witness :
    ∃ k : Nat, (k : Int) = ⌊roundDouble (((2 : Nat) : ℚ) * roundDouble (48000 / 16000))⌋ ∧
      (∃ h : k < ((List.range 10).map (fun n : Nat => JSNumber.fin n)).length,
        (downsample 48000 ((List.range 10).map (fun n : Nat => JSNumber.fin n)))[2]?
          = some (((List.range 10).map (fun n : Nat => JSNumber.fin n))[k])) ∧
      ⌊((2 : Nat) : ℚ) * 48000 / 16000⌋ - 1 ≤ (k : Int) ∧
      (k : Int) ≤ ⌊((2 : Nat) : ℚ) * 48000 / 16000⌋ + 1 ∧
      (∀ m : Nat, (48000 : ℚ) = 16000 * (m : ℚ) →
        (k : Int) = ⌊((2 : Nat) : ℚ) * 48000 / 16000⌋) :=
  downsample_getElem 48000 (by norm_num) ((List.range 10).map (fun n : Nat => JSNumber.fin n)) 2
    (by
      rw [List.length_map, List.length_range, newLength_48000_10]
      norm_num)
    (by
      rw [List.length_map, List.length_range]
      norm_num)
    (by
      rw [List.length_map, List.length_range, newLength_48000_10]
      norm_num)

/-! ## Playback queue of day 27: lemmas -/

theorem playNextChunk27_nil (s : Client27) (h : s.audioQueue = []) :
    playNextChunk27 s = { s with isPlaying := false } := by
  simp [playNextChunk27, h]

theorem playNextChunk27_cons (s : Client27) (c : Chunk) (rest : List Chunk)
    (h : s.audioQueue = c :: rest) (hc : contextUsable s.audioContext = true) :
    playNextChunk27 s =
      { s with
        isPlaying := true
        audioQueue := rest
        decoding := s.decoding ++ [c]
        trace := s.trace ++ [.decodeAudioData c] } := by
  simp [playNextChunk27, h, hc]

theorem seq_step27 (s s1 : Client27) (e : Event) (hs : Sequential27 s) (hq : quiet e = true)
    (h : step27 s e = some s1) :
    Sequential27 s1 ∧
      s1.trace ++ future27 s1 = s.trace ++ future27 s ++ (arrivals [e]).flatMap cycle ∧
      s1.isRecording = s.isRecording ∧ s1.socket = s.socket := by
  obtain ⟨ctx, isRec, sock, queue, playing, cur, dec, srcs, nid, tr⟩ := s
  obtain ⟨hctx, ⟨h1, h2, h3, h4, h5⟩ | ⟨h1, c, h3, h4, h5⟩ | ⟨h1, node, h3, h4, h5⟩⟩ := hs
  all_goals simp only at hctx h1 h3 h4 h5
  all_goals subst_vars
  · cases e with
    | message m =>
      cases m with
      | audio d =>
        cases d <;> simp [step27, onmessage27, playNextChunk27, hctx] at h <;> subst h <;>
          simp [Sequential27, future27, inFlight27, arrivals, cycle, hctx]
      | _ =>
        first
          | (simp [quiet] at hq; done)
          | (simp [step27, onmessage27] at h; subst h
             simp [Sequential27, future27, inFlight27, arrivals, cycle, hctx])
    | decodeSuccess k => simp [step27] at h
    | decodeError k => simp [quiet] at hq
    | ended id => simp [step27] at h
    | stopRecording => simp [quiet] at hq
  · cases e with
    | message m =>
      cases m with
      | audio d =>
        cases d <;> simp [step27, onmessage27, playNextChunk27, hctx] at h <;> subst h <;>
          simp [Sequential27, future27, inFlight27, arrivals, cycle, hctx]
      | _ =>
        first
          | (simp [quiet] at hq; done)
          | (simp [step27, onmessage27] at h; subst h
             simp [Sequential27, future27, inFlight27, arrivals, cycle, hctx])
    | decodeSuccess k =>
      cases k with
      | zero =>
        cases ctx with
        | none => simp [contextUsable] at hctx
        | some st =>
          simp [step27, decodeSuccess27] at h
          subst h
          simp [Sequential27, future27, inFlight27, arrivals, cycle, hctx]
      | succ k => simp [step27] at h
    | decodeError k => simp [quiet] at hq
    | ended id => simp [step27] at h
    | stopRecording => simp [quiet] at hq
  · cases e with
    | message m =>
      cases m with
      | audio d =>
        cases d <;> simp [step27, onmessage27, playNextChunk27, hctx] at h <;> subst h <;>
          simp [Sequential27, future27, inFlight27, arrivals, cycle, hctx]
      | _ =>
        first
          | (simp [quiet] at hq; done)
          | (simp [step27, onmessage27] at h; subst h
             simp [Sequential27, future27, inFlight27, arrivals, cycle, hctx])
    | decodeSuccess k => simp [step27] at h
    | decodeError k => simp [quiet] at hq
    | ended id =>
      by_cases hid : node.id = id
      · cases queue with
        | nil =>
          simp [step27, hid, onended27, playNextChunk27] at h
          subst h
          simp [Sequential27, future27, inFlight27, arrivals, cycle, hctx]
        | cons c rest =>
          simp [step27, hid, onended27, playNextChunk27, hctx] at h
          subst h
          simp [Sequential27, future27, inFlight27, arrivals, cycle, hctx]
      · simp [step27, hid] at h
    | stopRecording => simp [quiet] at hq

theorem arrivals_cons (e : Event) (es : List Event) :
    arrivals (e :: es) = arrivals [e] ++ arrivals es := by
  simp only [arrivals, List.filterMap_cons, List.filterMap_nil]
  split <;> simp

theorem seq_run27 (es : List Event) :
    ∀ s s1 : Client27, Sequential27 s → (∀ e ∈ es, quiet e = true) → run27 s es = some s1 →
      Sequential27 s1 ∧
        s1.trace ++ future27 s1 = s.trace ++ future27 s ++ (arrivals es).flatMap cycle ∧
        s1.isRecording = s.isRecording ∧ s1.socket = s.socket := by
  induction es with
  | nil =>
    intro s s1 hs _ h
    simp only [run27, Option.some.injEq] at h
    subst h
    simp [arrivals, hs]
  | cons e es ih =>
    intro s s1 hs hq h
    simp only [run27] at h
    cases hstep : step27 s e with
    | none => simp [hstep] at h
    | some s2 =>
      rw [hstep] at h
      simp only [Option.some_bind] at h
      obtain ⟨a1, a2, a3, a4⟩ := seq_step27 s s2 e hs (hq e (List.mem_cons_self _ _)) hstep
      obtain ⟨b1, b2, b3, b4⟩ := ih s2 s1 a1 (fun x hx => hq x (List.mem_cons_of_mem _ hx)) h
      refine ⟨b1, ?_, b3.trans a3, b4.trans a4⟩
      rw [b2, a2, arrivals_cons e es, List.flatMap_append]
      simp only [List.append_assoc]

theorem idle_sequential27 (s : Client27) (h : Idle27 s) :
    Sequential27 s ∧ future27 s = [] := by
  obtain ⟨h1, h2, h3, h4, h5, h6⟩ := h
  exact ⟨⟨h3, Or.inl ⟨h1, h2, h4, h5, h6⟩⟩, by simp [future27, inFlight27, h2, h4, h5]⟩

theorem seq_callback27 (s : Client27) (hs : Sequential27 s) :
    (Idle27 s ∧ future27 s = [] ∧ nextCallback27 s = none) ∨
    ∃ e s1 a l, nextCallback27 s = some e ∧ step27 s e = some s1 ∧
      s1.trace = s.trace ++ a :: l ∧ future27 s = a :: l ++ future27 s1 ∧ Sequential27 s1 := by
  obtain ⟨ctx, isRec, sock, queue, playing, cur, dec, srcs, nid, tr⟩ := s
  obtain ⟨hctx, ⟨h1, h2, h3, h4, h5⟩ | ⟨h1, c, h3, h4, h5⟩ | ⟨h1, node, h3, h4, h5⟩⟩ := hs
  all_goals simp only at hctx h1 h3 h4 h5
  all_goals subst_vars
  · left
    simp [Idle27, future27, inFlight27, nextCallback27, hctx]
  · right
    cases ctx with
    | none => simp [contextUsable] at hctx
    | some st =>
      refine ⟨.decodeSuccess 0, _, .start c, [], rfl, rfl, ?_⟩
      simp [decodeSuccess27, Sequential27, future27, inFlight27, hctx]
  · right
    cases queue with
    | nil =>
      refine ⟨.ended node.id,
        ⟨ctx, isRec, sock, [], false, none, [], [], nid, tr ++ [.ended node.buffer]⟩,
        .ended node.buffer, [], rfl, ?_, ?_⟩
      · simp [step27, onended27, playNextChunk27]
      · simp [Sequential27, future27, inFlight27, hctx]
    | cons c rest =>
      refine ⟨.ended node.id,
        ⟨ctx, isRec, sock, rest, true, none, [c], [], nid,
          tr ++ [.ended node.buffer] ++ [.decodeAudioData c]⟩,
        .ended node.buffer, [.decodeAudioData c], rfl, ?_, ?_⟩
      · simp [step27, onended27, playNextChunk27, hctx]
      · simp [Sequential27, future27, inFlight27, hctx, cycle]

theorem seq_drain27 (n : Nat) :
    ∀ s : Client27, Sequential27 s → (future27 s).length ≤ n →
      Idle27 (drain27 n s) ∧ (drain27 n s).trace = s.trace ++ future27 s ∧
        (drain27 n s).isRecording = s.isRecording ∧ (drain27 n s).socket = s.socket := by
  induction n with
  | zero =>
    intro s hs hn
    rcases seq_callback27 s hs with ⟨h1, h2, _⟩ | ⟨e, s1, a, l, _, _, _, h4, _⟩
    · simp [drain27, h1, h2]
    · rw [h4] at hn; simp at hn
  | succ n ih =>
    intro s hs hn
    rcases seq_callback27 s hs with ⟨h1, h2, h3⟩ | ⟨e, s1, a, l, h1, h2, h3, h4, h5⟩
    · simp [drain27, h1, h2, h3]
    · have hlen : (future27 s1).length ≤ n := by
        rw [h4] at hn
        simp only [List.length_append, List.length_cons] at hn
        omega
      obtain ⟨b1, b2, b3, b4⟩ := ih s1 h5 hlen
      have hq : quiet e = true := by
        unfold nextCallback27 at h1
        split at h1
        · cases h1; rfl
        · split at h1
          · cases h1; rfl
          · cases h1
      obtain ⟨_, _, c3, c4⟩ := seq_step27 s s1 e hs hq h2
      simp only [drain27, h1, h2]
      refine ⟨b1, ?_, b3.trans c3, b4.trans c4⟩
      rw [b2, h3, h4]
      simp

/-- What `playNextChunk27` does: either nothing but clearing `isPlaying`, or the start of
the decode of the head of the queue. -/
theorem playNextChunk27_cases (s : Client27) :
    ((s.audioQueue = [] ∨ contextUsable s.audioContext = false) ∧
        playNextChunk27 s = { s with isPlaying := false }) ∨
    ∃ c rest, s.audioQueue = c :: rest ∧ contextUsable s.audioContext = true ∧
      playNextChunk27 s =
        { s with
          isPlaying := true
          audioQueue := rest
          decoding := s.decoding ++ [c]
          trace := s.trace ++ [.decodeAudioData c] } := by
  obtain hq | ⟨c, rest, hq⟩ : s.audioQueue = [] ∨ ∃ c rest, s.audioQueue = c :: rest := by
    cases s.audioQueue <;> simp
  · left; exact ⟨Or.inl hq, playNextChunk27_nil s hq⟩
  · by_cases hc : contextUsable s.audioContext = true
    · right; exact ⟨c, rest, hq, hc, playNextChunk27_cons s c rest hq hc⟩
    · left
      have hc2 : contextUsable s.audioContext = false := by simpa using hc
      exact ⟨Or.inr hc2, by simp [playNextChunk27, hc2]⟩

theorem stopCurrentPlayback27_fields (s : Client27) :
    (stopCurrentPlayback27 s).audioQueue = [] ∧
    (stopCurrentPlayback27 s).isPlaying = false ∧
    (stopCurrentPlayback27 s).currentAudioSource = none ∧
    (stopCurrentPlayback27 s).audioContext = s.audioContext ∧
    (stopCurrentPlayback27 s).isRecording = s.isRecording ∧
    (stopCurrentPlayback27 s).socket = s.socket ∧
    (stopCurrentPlayback27 s).decoding = s.decoding ∧
    (stopCurrentPlayback27 s).trace = s.trace ++
      (match s.currentAudioSource with
        | some node => [Effect.stop node.buffer]
        | none => []) := by
  unfold stopCurrentPlayback27
  cases h : s.currentAudioSource <;> simp [h]

theorem stopRecording27_fields (s : Client27) :
    (stopRecording27 s).audioContext = s.audioContext ∧
    (s.isRecording = false ∧ stopRecording27 s = s ∨
      (stopRecording27 s).audioQueue = [] ∧ (stopRecording27 s).isPlaying = false ∧
        ∃ t, (stopRecording27 s).trace = s.trace ++ t ∧ decodeStarts t = []) := by
  unfold stopRecording27
  cases hr : s.isRecording with
  | false => simp
  | true =>
    simp only [Bool.not_true, Bool.false_eq_true, if_false]
    obtain ⟨a1, a2, a3, a4, a5, a6, a7, a8⟩ := stopCurrentPlayback27_fields { s with isRecording := false }
    refine ⟨?_, Or.inr ?_⟩
    · split <;> simp [a4]
    · split
      · refine ⟨by simp [a1], by simp [a2], ?_⟩
        simp only [a8]
        cases hcur : s.currentAudioSource with
        | none => exact ⟨[.closeSocket], by simp, by simp [decodeStarts]⟩
        | some node => exact ⟨[.stop node.buffer, .closeSocket], by simp, by simp [decodeStarts]⟩
      · refine ⟨by simp [a1], by simp [a2], ?_⟩
        simp only [a8]
        cases hcur : s.currentAudioSource with
        | none => exact ⟨[], by simp, by simp [decodeStarts]⟩
        | some node => exact ⟨[.stop node.buffer], by simp, by simp [decodeStarts]⟩

theorem playNextChunk27_props (s : Client27) :
    (playNextChunk27 s).audioContext = s.audioContext ∧
    (∃ t, (playNextChunk27 s).trace = s.trace ++ t ∧
      decodeStarts t ++ (playNextChunk27 s).audioQueue = s.audioQueue) ∧
    (contextUsable s.audioContext = true →
      (playNextChunk27 s).isPlaying = false → (playNextChunk27 s).audioQueue = []) ∧
    (s.audioQueue = [] →
      (playNextChunk27 s).isPlaying = false ∧ (playNextChunk27 s).audioQueue = []) := by
  rcases playNextChunk27_cases s with ⟨h1, h2⟩ | ⟨c, rest, h1, h2, h3⟩
  · rw [h2]
    refine ⟨rfl, ⟨[], by simp, by simp [decodeStarts]⟩, ?_, fun h => ⟨rfl, h⟩⟩
    intro hc _
    rcases h1 with h1 | h1
    · exact h1
    · rw [hc] at h1; cases h1
  · rw [h3]
    refine ⟨rfl, ⟨[.decodeAudioData c], rfl, by simp [decodeStarts, h1]⟩, ?_, ?_⟩
    · intro _ h; cases h
    · intro h; rw [h] at h1; cases h1

/-- One event of day 27, in any state: the audio context is not written, decoding only
ever starts for chunks taken from the queue, and an idle queue is empty. -/
theorem step27_props (s s1 : Client27) (e : Event) (h : step27 s e = some s1) :
    s1.audioContext = s.audioContext ∧
    (∃ t, s1.trace = s.trace ++ t ∧
      (decodeStarts t ++ s1.audioQueue).Sublist (s.audioQueue ++ arrivals [e])) ∧
    (contextUsable s.audioContext = true → (s.isPlaying = false → s.audioQueue = []) →
      s1.isPlaying = false → s1.audioQueue = []) ∧
    (isValidAudio e = false → s.isPlaying = false → s.audioQueue = [] →
      s1.isPlaying = false ∧ s1.audioQueue = []) := by
  cases e with
  | message m =>
    simp only [step27, Option.some.injEq] at h
    subst h
    have hskip : ∀ m : Message, onmessage27 s m = s → arrivals [Event.message m] = [] →
        (onmessage27 s m).audioContext = s.audioContext ∧
        (∃ t, (onmessage27 s m).trace = s.trace ++ t ∧
          (decodeStarts t ++ (onmessage27 s m).audioQueue).Sublist
            (s.audioQueue ++ arrivals [Event.message m])) ∧
        (contextUsable s.audioContext = true → (s.isPlaying = false → s.audioQueue = []) →
          (onmessage27 s m).isPlaying = false → (onmessage27 s m).audioQueue = []) ∧
        (isValidAudio (Event.message m) = false → s.isPlaying = false → s.audioQueue = [] →
          (onmessage27 s m).isPlaying = false ∧ (onmessage27 s m).audioQueue = []) := by
      intro m hm ha
      rw [hm, ha]
      exact ⟨rfl, ⟨[], by simp, by simp [decodeStarts]⟩, fun _ hi => hi, fun _ a b => ⟨a, b⟩⟩
    cases m with
    | audio d =>
      cases d with
      | absent => exact hskip _ rfl rfl
      | malformed => exact hskip _ rfl rfl
      | base64 b =>
        have harr : arrivals [Event.message (.audio (.base64 b))] = [b] := rfl
        rw [harr]
        by_cases hp : s.isPlaying = true
        · have hm : onmessage27 s (.audio (.base64 b)) =
              { s with audioQueue := s.audioQueue ++ [b] } := by
            simp [onmessage27, hp]
          rw [hm]
          refine ⟨rfl, ⟨[], by simp, by simp [decodeStarts]⟩, ?_, ?_⟩
          · intro _ _ h
            have h2 : s.isPlaying = false := h
            rw [hp] at h2
            cases h2
          · intro h; simp [isValidAudio] at h
        · have hm : onmessage27 s (.audio (.base64 b)) =
              playNextChunk27 { s with audioQueue := s.audioQueue ++ [b] } := by
            simp [onmessage27, hp]
          rw [hm]
          obtain ⟨a1, ⟨t, a2, a3⟩, a4, _⟩ :=
            playNextChunk27_props { s with audioQueue := s.audioQueue ++ [b] }
          refine ⟨a1, ⟨t, a2, ?_⟩, fun hc _ => a4 hc, ?_⟩
          · rw [a3]
          · intro h; simp [isValidAudio] at h
    | audioStart =>
      obtain ⟨a1, a2, a3, a4, a5, a6, a7, a8⟩ := stopCurrentPlayback27_fields s
      simp only [onmessage27]
      refine ⟨a4, ⟨_, a8, ?_⟩, fun _ _ _ => a1, fun _ _ _ => ⟨a2, a1⟩⟩
      rw [a1]
      cases s.currentAudioSource <;> simp [decodeStarts]
    | error msg =>
      simp only [onmessage27]
      obtain ⟨b1, b2⟩ := stopRecording27_fields s
      refine ⟨b1, ?_, ?_, ?_⟩
      · rcases b2 with ⟨_, b2⟩ | ⟨c1, c2, t, c3, c4⟩
        · rw [b2]; exact ⟨[], by simp, by simp [decodeStarts]⟩
        · exact ⟨t, c3, by rw [c4, c1]; simp⟩
      · intro _ hi
        rcases b2 with ⟨_, b2⟩ | ⟨c1, c2, t, c3, c4⟩
        · rw [b2]; exact hi
        · intro _; exact c1
      · intro _ hp hq
        rcases b2 with ⟨_, b2⟩ | ⟨c1, c2, t, c3, c4⟩
        · rw [b2]; exact ⟨hp, hq⟩
        · exact ⟨c2, c1⟩
    | _ => exact hskip _ rfl rfl
  | decodeSuccess k =>
    simp only [step27] at h
    split at h
    · cases h
    · simp only [Option.some.injEq] at h
      subst h
      have harr : arrivals [Event.decodeSuccess k] = [] := rfl
      rw [harr]
      simp only [decodeSuccess27]
      split
      · exact ⟨rfl, ⟨[], by simp, by simp [decodeStarts]⟩, fun _ hi => hi, fun _ a b => ⟨a, b⟩⟩
      · exact ⟨rfl, ⟨[.start _], rfl, by simp [decodeStarts]⟩, fun _ hi => hi,
          fun _ a b => ⟨a, b⟩⟩
  | decodeError k =>
    simp only [step27] at h
    split at h
    · cases h
    · rename_i chunk _
      simp only [Option.some.injEq] at h
      subst h
      have harr : arrivals [Event.decodeError k] = [] := rfl
      rw [harr]
      simp only [decodeFailure27]
      obtain ⟨a1, ⟨t, a2, a3⟩, a4, a5⟩ :=
        playNextChunk27_props
          { s with decoding := s.decoding.eraseIdx k, trace := s.trace ++ [.decodeError chunk] }
      refine ⟨a1, ⟨Effect.decodeError chunk :: t, by rw [a2]; simp, ?_⟩, fun hc _ => a4 hc,
        fun _ _ hq => a5 hq⟩
      have : decodeStarts (Effect.decodeError chunk :: t) = decodeStarts t := by
        simp [decodeStarts]
      rw [this, a3]
      simp
  | ended id =>
    simp only [step27] at h
    split at h
    · cases h
    · rename_i p _
      simp only [Option.some.injEq] at h
      subst h
      have harr : arrivals [Event.ended id] = [] := rfl
      rw [harr]
      simp only [onended27]
      obtain ⟨a1, ⟨t, a2, a3⟩, a4, a5⟩ :=
        playNextChunk27_props
          { s with
            sources := s.sources.filter (fun q => q.1.id ≠ id)
            trace := s.trace ++ [.ended p.1.buffer]
            currentAudioSource := none }
      refine ⟨a1, ⟨Effect.ended p.1.buffer :: t, by rw [a2]; simp, ?_⟩, fun hc _ => a4 hc,
        fun _ _ hq => a5 hq⟩
      have : decodeStarts (Effect.ended p.1.buffer :: t) = decodeStarts t := by
        simp [decodeStarts]
      rw [this, a3]
      simp
  | stopRecording =>
    simp only [step27, Option.some.injEq] at h
    subst h
    obtain ⟨b1, b2⟩ := stopRecording27_fields s
    refine ⟨b1, ?_, ?_, ?_⟩
    · rcases b2 with ⟨_, b2⟩ | ⟨c1, c2, t, c3, c4⟩
      · rw [b2]; exact ⟨[], by simp, by simp [decodeStarts]⟩
      · exact ⟨t, c3, by rw [c4, c1]; simp⟩
    · intro _ hi
      rcases b2 with ⟨_, b2⟩ | ⟨c1, c2, t, c3, c4⟩
      · rw [b2]; exact hi
      · intro _; exact c1
    · intro _ hp hq
      rcases b2 with ⟨_, b2⟩ | ⟨c1, c2, t, c3, c4⟩
      · rw [b2]; exact ⟨hp, hq⟩
      · exact ⟨c2, c1⟩

theorem decodeStarts_append (t1 t2 : List Effect) :
    decodeStarts (t1 ++ t2) = decodeStarts t1 ++ decodeStarts t2 := by
  simp [decodeStarts]

theorem run27_props (es : List Event) :
    ∀ s s1 : Client27, run27 s es = some s1 →
      s1.audioContext = s.audioContext ∧
      (∃ t, s1.trace = s.trace ++ t ∧
        (decodeStarts t ++ s1.audioQueue).Sublist (s.audioQueue ++ arrivals es)) ∧
      (contextUsable s.audioContext = true → (s.isPlaying = false → s.audioQueue = []) →
        s1.isPlaying = false → s1.audioQueue = []) ∧
      ((∀ e ∈ es, isValidAudio e = false) → s.isPlaying = false → s.audioQueue = [] →
        s1.isPlaying = false ∧ s1.audioQueue = []) := by
  induction es with
  | nil =>
    intro s s1 h
    simp only [run27, Option.some.injEq] at h
    subst h
    exact ⟨rfl, ⟨[], by simp, by simp [decodeStarts, arrivals]⟩, fun _ hi => hi,
      fun _ a b => ⟨a, b⟩⟩
  | cons e es ih =>
    intro s s1 h
    simp only [run27] at h
    cases hstep : step27 s e with
    | none => simp [hstep] at h
    | some s2 =>
      rw [hstep] at h
      simp only [Option.some_bind] at h
      obtain ⟨a1, ⟨t1, a2, a3⟩, a4, a5⟩ := step27_props s s2 e hstep
      obtain ⟨b1, ⟨t2, b2, b3⟩, b4, b5⟩ := ih s2 s1 h
      refine ⟨b1.trans a1, ⟨t1 ++ t2, by rw [b2, a2, List.append_assoc], ?_⟩, ?_, ?_⟩
      · rw [decodeStarts_append, arrivals_cons e es, List.append_assoc, ← List.append_assoc _ _ (arrivals es)]
        have h1 : (decodeStarts t1 ++ (decodeStarts t2 ++ s1.audioQueue)).Sublist
            (decodeStarts t1 ++ (s2.audioQueue ++ arrivals es)) :=
          List.Sublist.append (List.Sublist.refl _) b3
        have h2 : (decodeStarts t1 ++ s2.audioQueue ++ arrivals es).Sublist
            (s.audioQueue ++ arrivals [e] ++ arrivals es) :=
          List.Sublist.append a3 (List.Sublist.refl _)
        rw [List.append_assoc] at h2
        exact h1.trans h2
      · intro hc hi
        exact b4 (by rw [a1]; exact hc) (a4 hc hi)
      · intro hv hp hq
        obtain ⟨c1, c2⟩ := a5 (hv e (List.mem_cons_self _ _)) hp hq
        exact b5 (fun x hx => hv x (List.mem_cons_of_mem _ hx)) c1 c2

theorem audio_when_idle27 (s : Client27) (c : Chunk) (hp : s.isPlaying = false)
    (hq : s.audioQueue = []) (hc : contextUsable s.audioContext = true) :
    step27 s (.message (.audio (.base64 c))) =
      some { s with
        isPlaying := true
        audioQueue := []
        decoding := s.decoding ++ [c]
        trace := s.trace ++ [.decodeAudioData c] } := by
  simp [step27, onmessage27, playNextChunk27, hp, hq, hc]

/-! ## Playback queue of day 27: specification claims -/

/-- C5: in day 27, starting from Idle (nothing playing, queued or in flight, audio context
usable), let audio messages with valid payloads arrive in any interleaving with
decode-success and source-ended callbacks, with no `audio_start`, stop or decode failure.
Then the calls made so far, followed by the calls still owed, are exactly one
decode, start, ended cycle per arrived chunk, in arrival order: the trace is a prefix of
that strictly sequential schedule, so a decode begins only after the previous source has
ended; at most one chunk is in flight; once nothing is in flight the trace is the complete
schedule of all `N` chunks and the state is Idle again; and delivering the owed callbacks
reaches that state. -/
theorem playback_sequential27 (s s1 : Client27) (es : List Event) (hidle : Idle27 s)
    (hq : ∀ e ∈ es, quiet e = true) (hrun : run27 s es = some s1) :
    s1.trace ++ future27 s1 = s.trace ++ (arrivals es).flatMap cycle ∧
    List.IsPrefix s1.trace (s.trace ++ (arrivals es).flatMap cycle) ∧
    s1.decoding.length + s1.sources.length ≤ 1 ∧
    (s1.decoding = [] ∧ s1.sources = [] →
      s1.trace = s.trace ++ (arrivals es).flatMap cycle ∧ Idle27 s1) ∧
    Idle27 (drain27 (future27 s1).length s1) ∧
    (drain27 (future27 s1).length s1).trace = s.trace ++ (arrivals es).flatMap cycle := by
  obtain ⟨hs, hf⟩ := idle_sequential27 s hidle
  obtain ⟨a1, a2, _, _⟩ := seq_run27 es s s1 hs hq hrun
  rw [hf, List.append_nil] at a2
  obtain ⟨d1, d2, _, _⟩ := seq_drain27 (future27 s1).length s1 a1 (le_refl _)
  refine ⟨a2, ⟨future27 s1, a2⟩, ?_, ?_, d1, by rw [d2, a2]⟩
  · obtain ⟨_, ⟨_, _, h3, h4, _⟩ | ⟨_, c, h3, h4, _⟩ | ⟨_, node, h3, h4, _⟩⟩ := a1 <;>
      simp [h3, h4]
  · rintro ⟨h3, h4⟩
    rcases seq_callback27 s1 a1 with ⟨b1, b2, _⟩ | ⟨e, s2, a, l, b1, _, _, _, _⟩
    · rw [b2, List.append_nil] at a2
      exact ⟨a2, b1⟩
    · simp [nextCallback27, h3, h4] at b1

/-- Witness for C5: the scenario `audio_start`, `audio`, `audio`, `audio_end` of a fresh
session, with the callbacks of both chunks: two decode-and-play cycles in order, then Idle. -/
theorem playback_sequential27_witness :
    ∃ s1 : Client27,
      run27 (onmessage27 sessionStart27 .audioStart)
        [.message (.audio (.base64 [1])), .decodeSuccess 0, .message (.audio (.base64 [2])),
          .message .audioEnd, .ended 0, .decodeSuccess 0, .ended 1] = some s1 ∧
      s1.trace = cycle [1] ++ cycle [2] ∧ Idle27 s1 :=
  ⟨_, rfl,
    (playback_sequential27 (onmessage27 sessionStart27 .audioStart) _
      [.message (.audio (.base64 [1])), .decodeSuccess 0, .message (.audio (.base64 [2])),
        .message .audioEnd, .ended 0, .decodeSuccess 0, .ended 1]
      ⟨rfl, rfl, rfl, rfl, rfl, rfl⟩ (by decide) rfl).2.2.2.1 ⟨rfl, rfl⟩⟩

/-- C6, where the code departs from the claim: in day 27 an `audio_start` that arrives
while the first chunk is still being decoded resets `isPlaying` but does not cancel the
decode, so the next `audio` message starts a second decode; two chunks are then decoded at
the same time and, once both decodes succeed, two sources play at the same time. -/
theorem interrupt_during_decode_overlaps27 :
    ∃ s1 s2 : Client27,
      run27 sessionStart27
        [.message (.audio (.base64 [1])), .message .audioStart,
          .message (.audio (.base64 [2]))] = some s1 ∧
      s1.decoding = [[1], [2]] ∧ activeCount27 s1 = 2 ∧
      run27 s1 [.decodeSuccess 0, .decodeSuccess 0] = some s2 ∧
      s2.trace = [.decodeAudioData [1], .decodeAudioData [2], .start [1], .start [2]] ∧
      activeCount27 s2 = 2 :=
  ⟨_, _, rfl, rfl, rfl, rfl, rfl, rfl⟩

/-- C7: in day 27, `stopCurrentPlayback` in any state `s` calls `stop()` on the source
held by `currentAudioSource` when there is one, and leaves `audioQueue` empty, `isPlaying`
false and `currentAudioSource` null, with the audio context untouched.  After it, whatever
events follow, every decode that is started is the decode of a chunk that arrived after the
interrupt (in arrival order), so no chunk that was in the queue at the interrupt is ever
decoded or played; and with a usable audio context the next `audio` message with a valid
payload starts the decode of exactly that chunk. -/
theorem stopCurrentPlayback27_interrupt (s s1 : Client27) (es : List Event) (c : Chunk)
    (hrun : run27 (stopCurrentPlayback27 s) es = some s1) :
    ((stopCurrentPlayback27 s).audioQueue = [] ∧
      (stopCurrentPlayback27 s).isPlaying = false ∧
      (stopCurrentPlayback27 s).currentAudioSource = none ∧
      (stopCurrentPlayback27 s).audioContext = s.audioContext ∧
      (stopCurrentPlayback27 s).trace = s.trace ++
        (match s.currentAudioSource with
          | some node => [Effect.stop node.buffer]
          | none => [])) ∧
    (∃ t, s1.trace = (stopCurrentPlayback27 s).trace ++ t ∧
      (decodeStarts t ++ s1.audioQueue).Sublist (arrivals es)) ∧
    (contextUsable s.audioContext = true → (∀ e ∈ es, isValidAudio e = false) →
      step27 s1 (.message (.audio (.base64 c))) =
        some { s1 with
          isPlaying := true
          audioQueue := []
          decoding := s1.decoding ++ [c]
          trace := s1.trace ++ [.decodeAudioData c] }) := by
  obtain ⟨a1, a2, a3, a4, _, _, _, a8⟩ := stopCurrentPlayback27_fields s
  obtain ⟨b1, ⟨t, b2, b3⟩, _, b5⟩ := run27_props es _ s1 hrun
  refine ⟨⟨a1, a2, a3, a4, a8⟩, ⟨t, b2, ?_⟩, ?_⟩
  · rw [a1, List.nil_append] at b3
    exact b3
  · intro hc hv
    obtain ⟨c1, c2⟩ := b5 hv a2 a1
    exact audio_when_idle27 s1 c c1 c2 (by rw [b1, a4]; exact hc)

/-- Witness for C7: chunk `[1]` is playing and `[2]`, `[3]` are queued when the interrupt
comes; the stopped source then reports `ended`, and the next chunk `[4]` is decoded. -/
theorem stopCurrentPlayback27_interrupt_witness :
    step27
        { audioContext := some .running, isRecording := true, socket := some .OPEN,
          audioQueue := [], isPlaying := false, currentAudioSource := none, decoding := [],
          sources := [], nextId := 1,
          trace := [.decodeAudioData [1], .start [1], .stop [1], .ended [1]] }
        (.message (.audio (.base64 [4]))) =
      some
        { audioContext := some .running, isRecording := true, socket := some .OPEN,
          audioQueue := [], isPlaying := true, currentAudioSource := none, decoding := [[4]],
          sources := [], nextId := 1,
          trace := [.decodeAudioData [1], .start [1], .stop [1], .ended [1],
            .decodeAudioData [4]] } :=
  (stopCurrentPlayback27_interrupt
    { audioContext := some .running, isRecording := true, socket := some .OPEN,
      audioQueue := [[2], [3]], isPlaying := true,
      currentAudioSource := some { id := 0, buffer := [1] }, decoding := [],
      sources := [({ id := 0, buffer := [1] }, false)], nextId := 1,
      trace := [.decodeAudioData [1], .start [1]] }
    { audioContext := some .running, isRecording := true, socket := some .OPEN,
      audioQueue := [], isPlaying := false, currentAudioSource := none, decoding := [],
      sources := [], nextId := 1,
      trace := [.decodeAudioData [1], .start [1], .stop [1], .ended [1]] }
    [.ended 0] [4] rfl).2.2 rfl (by decide)

/-- C8: in day 27, in every state reached during a session (from a state with a usable
audio context in which an idle queue is empty, by any events), `isPlaying` false implies
that `audioQueue` is empty; hence an `audio` message with a valid payload that arrives
while idle makes `playNextChunk` shift and decode that very chunk, leaving the queue empty. -/
theorem idle_queue_empty27 (s0 s : Client27) (es : List Event) (c : Chunk)
    (hctx : contextUsable s0.audioContext = true)
    (h0 : s0.isPlaying = false → s0.audioQueue = [])
    (hrun : run27 s0 es = some s) :
    (s.isPlaying = false → s.audioQueue = []) ∧
    (s.isPlaying = false →
      step27 s (.message (.audio (.base64 c))) =
        some { s with
          isPlaying := true
          audioQueue := []
          decoding := s.decoding ++ [c]
          trace := s.trace ++ [.decodeAudioData c] }) := by
  obtain ⟨b1, _, b4, _⟩ := run27_props es s0 s hrun
  refine ⟨b4 hctx h0, fun hp => ?_⟩
  exact audio_when_idle27 s c hp (b4 hctx h0 hp) (by rw [b1]; exact hctx)

/-- Witness for C8: after one chunk has been played to its end the queue is idle and
empty, and the next chunk `[2]` is the one decoded. -/
theorem idle_queue_empty27_witness :
    ∃ s : Client27,
      run27 sessionStart27 [.message (.audio (.base64 [1])), .decodeSuccess 0, .ended 0]
        = some s ∧
      s.isPlaying = false ∧ s.audioQueue = [] ∧
      step27 s (.message (.audio (.base64 [2]))) =
        some { s with
          isPlaying := true
          audioQueue := []
          decoding := s.decoding ++ [[2]]
          trace := s.trace ++ [.decodeAudioData [2]] } :=
  ⟨_, rfl, rfl, rfl,
    (idle_queue_empty27 sessionStart27 _
      [.message (.audio (.base64 [1])), .decodeSuccess 0, .ended 0] [2] rfl
      (fun _ => rfl) rfl).2 rfl⟩

/-! ## Playback queue of day 22: lemmas -/

theorem seq_step22 (s s1 : Client22) (e : Event) (hs : Sequential22 s) (hq : quiet e = true)
    (h : step22 s e = some s1) :
    Sequential22 s1 ∧
      s1.trace ++ future22 s1 = s.trace ++ future22 s ++ (arrivals [e]).flatMap cycle ∧
      s1.isRecording = s.isRecording ∧ s1.socket = s.socket := by
  obtain ⟨ctx, isRec, sock, queue, playing, idx, dec, srcs, nid, tr⟩ := s
  obtain ⟨hctx, ⟨h1, h2, h3, h4⟩ | ⟨h1, c, h3, h4⟩ | ⟨h1, node, h3, h4⟩⟩ := hs
  all_goals simp only at hctx h1 h3 h4
  all_goals subst_vars
  · cases e with
    | message m =>
      cases m with
      | audio d =>
        cases d <;> simp [step22, onmessage22, playNextChunk22, hctx] at h <;> subst h <;>
          simp [Sequential22, future22, inFlight22, arrivals, cycle, hctx]
      | _ =>
        first
          | (simp [quiet] at hq; done)
          | (simp [step22, onmessage22] at h; subst h
             simp [Sequential22, future22, inFlight22, arrivals, cycle, hctx])
    | decodeSuccess k => simp [step22] at h
    | decodeError k => simp [quiet] at hq
    | ended id => simp [step22] at h
    | stopRecording => simp [quiet] at hq
  · cases e with
    | message m =>
      cases m with
      | audio d =>
        cases d <;> simp [step22, onmessage22, playNextChunk22, hctx] at h <;> subst h <;>
          simp [Sequential22, future22, inFlight22, arrivals, cycle, hctx]
      | _ =>
        first
          | (simp [quiet] at hq; done)
          | (simp [step22, onmessage22] at h; subst h
             simp [Sequential22, future22, inFlight22, arrivals, cycle, hctx])
    | decodeSuccess k =>
      cases k with
      | zero =>
        cases ctx with
        | none => simp [contextUsable] at hctx
        | some st =>
          simp [step22, decodeSuccess22] at h
          subst h
          simp [Sequential22, future22, inFlight22, arrivals, cycle, hctx]
      | succ k => simp [step22] at h
    | decodeError k => simp [quiet] at hq
    | ended id => simp [step22] at h
    | stopRecording => simp [quiet] at hq
  · cases e with
    | message m =>
      cases m with
      | audio d =>
        cases d <;> simp [step22, onmessage22, playNextChunk22, hctx] at h <;> subst h <;>
          simp [Sequential22, future22, inFlight22, arrivals, cycle, hctx]
      | _ =>
        first
          | (simp [quiet] at hq; done)
          | (simp [step22, onmessage22] at h; subst h
             simp [Sequential22, future22, inFlight22, arrivals, cycle, hctx])
    | decodeSuccess k => simp [step22] at h
    | decodeError k => simp [quiet] at hq
    | ended id =>
      by_cases hid : node.id = id
      · cases queue with
        | nil =>
          simp [step22, hid, onended22, playNextChunk22] at h
          subst h
          simp [Sequential22, future22, inFlight22, arrivals, cycle, hctx]
        | cons c rest =>
          simp [step22, hid, onended22, playNextChunk22, hctx] at h
          subst h
          simp [Sequential22, future22, inFlight22, arrivals, cycle, hctx]
      · simp [step22, hid] at h
    | stopRecording => simp [quiet] at hq

theorem seq_run22 (es : List Event) :
    ∀ s s1 : Client22, Sequential22 s → (∀ e ∈ es, quiet e = true) → run22 s es = some s1 →
      Sequential22 s1 ∧
        s1.trace ++ future22 s1 = s.trace ++ future22 s ++ (arrivals es).flatMap cycle ∧
        s1.isRecording = s.isRecording ∧ s1.socket = s.socket := by
  induction es with
  | nil =>
    intro s s1 hs _ h
    simp only [run22, Option.some.injEq] at h
    subst h
    simp [arrivals, hs]
  | cons e es ih =>
    intro s s1 hs hq h
    simp only [run22] at h
    cases hstep : step22 s e with
    | none => simp [hstep] at h
    | some s2 =>
      rw [hstep] at h
      simp only [Option.some_bind] at h
      obtain ⟨a1, a2, a3, a4⟩ := seq_step22 s s2 e hs (hq e (List.mem_cons_self _ _)) hstep
      obtain ⟨b1, b2, b3, b4⟩ := ih s2 s1 a1 (fun x hx => hq x (List.mem_cons_of_mem _ hx)) h
      refine ⟨b1, ?_, b3.trans a3, b4.trans a4⟩
      rw [b2, a2, arrivals_cons e es, List.flatMap_append]
      simp only [List.append_assoc]

theorem seq_callback22 (s : Client22) (hs : Sequential22 s) :
    (s.isPlaying = false ∧ s.audioQueue = [] ∧ s.decoding = [] ∧ s.sources = [] ∧
      future22 s = [] ∧ nextCallback22 s = none) ∨
    ∃ e s1 a l, nextCallback22 s = some e ∧ quiet e = true ∧ step22 s e = some s1 ∧
      s1.trace = s.trace ++ a :: l ∧ future22 s = a :: l ++ future22 s1 ∧ Sequential22 s1 := by
  obtain ⟨ctx, isRec, sock, queue, playing, idx, dec, srcs, nid, tr⟩ := s
  obtain ⟨hctx, ⟨h1, h2, h3, h4⟩ | ⟨h1, c, h3, h4⟩ | ⟨h1, node, h3, h4⟩⟩ := hs
  all_goals simp only at hctx h1 h3 h4
  all_goals subst_vars
  · left
    simp [future22, inFlight22, nextCallback22]
  · right
    cases ctx with
    | none => simp [contextUsable] at hctx
    | some st =>
      refine ⟨.decodeSuccess 0, _, .start c, [], rfl, rfl, rfl, ?_⟩
      simp [decodeSuccess22, Sequential22, future22, inFlight22, hctx]
  · right
    cases queue with
    | nil =>
      refine ⟨.ended node.id,
        ⟨ctx, isRec, sock, [], false, idx, [], [], nid, tr ++ [.ended node.buffer]⟩,
        .ended node.buffer, [], rfl, rfl, ?_, ?_⟩
      · simp [step22, onended22, playNextChunk22]
      · simp [Sequential22, future22, inFlight22, hctx]
    | cons c rest =>
      refine ⟨.ended node.id,
        ⟨ctx, isRec, sock, rest, true, idx, [c], [], nid,
          tr ++ [.ended node.buffer] ++ [.decodeAudioData c]⟩,
        .ended node.buffer, [.decodeAudioData c], rfl, rfl, ?_, ?_⟩
      · simp [step22, onended22, playNextChunk22, hctx]
      · simp [Sequential22, future22, inFlight22, hctx, cycle]

theorem seq_drain22 (n : Nat) :
    ∀ s : Client22, Sequential22 s → (future22 s).length ≤ n →
      ((drain22 n s).isPlaying = false ∧ (drain22 n s).audioQueue = [] ∧
        (drain22 n s).decoding = [] ∧ (drain22 n s).sources = []) ∧
      (drain22 n s).trace = s.trace ++ future22 s ∧
        (drain22 n s).isRecording = s.isRecording ∧ (drain22 n s).socket = s.socket := by
  induction n with
  | zero =>
    intro s hs hn
    rcases seq_callback22 s hs with ⟨h1, h2, h3, h4, h5, _⟩ | ⟨e, s1, a, l, _, _, _, _, h4, _⟩
    · simp [drain22, h1, h2, h3, h4, h5]
    · rw [h4] at hn; simp at hn
  | succ n ih =>
    intro s hs hn
    rcases seq_callback22 s hs with ⟨h1, h2, h3, h4, h5, h6⟩ | ⟨e, s1, a, l, h1, hq, h2, h3, h4, h5⟩
    · simp [drain22, h1, h2, h3, h4, h5, h6]
    · have hlen : (future22 s1).length ≤ n := by
        rw [h4] at hn
        simp only [List.length_append, List.length_cons] at hn
        omega
      obtain ⟨b1, b2, b3, b4⟩ := ih s1 h5 hlen
      obtain ⟨_, _, c3, c4⟩ := seq_step22 s s1 e hs hq h2
      simp only [drain22, h1, h2]
      refine ⟨b1, ?_, b3.trans c3, b4.trans c4⟩
      rw [b2, h3, h4]
      simp

/-! ## Decode failures and malformed payloads (days 22 and 27) -/

theorem playNextChunk27_frame (s : Client27) :
    (playNextChunk27 s).sources = s.sources ∧
    (playNextChunk27 s).isRecording = s.isRecording ∧
    (playNextChunk27 s).socket = s.socket ∧
    (playNextChunk27 s).currentAudioSource = s.currentAudioSource := by
  rcases playNextChunk27_cases s with ⟨_, h2⟩ | ⟨c, rest, _, _, h3⟩
  · rw [h2]; exact ⟨rfl, rfl, rfl, rfl⟩
  · rw [h3]; exact ⟨rfl, rfl, rfl, rfl⟩

theorem playNextChunk22_frame (s : Client22) :
    (playNextChunk22 s).sources = s.sources ∧
    (playNextChunk22 s).isRecording = s.isRecording ∧
    (playNextChunk22 s).socket = s.socket := by
  unfold playNextChunk22
  split
  · exact ⟨rfl, rfl, rfl⟩
  · split <;> exact ⟨rfl, rfl, rfl⟩

theorem step27_decodeError (s : Client27) (k : Nat) (c : Chunk) (h : s.decoding[k]? = some c) :
    step27 s (.decodeError k) =
      some (playNextChunk27
        { s with decoding := s.decoding.eraseIdx k, trace := s.trace ++ [.decodeError c] }) := by
  simp [step27, h, decodeFailure27]

theorem step22_decodeError (s : Client22) (k : Nat) (c : Chunk) (h : s.decoding[k]? = some c) :
    step22 s (.decodeError k) =
      some (playNextChunk22
        { s with decoding := s.decoding.eraseIdx k, trace := s.trace ++ [.decodeError c] }) := by
  simp [step22, h, decodeFailure22]

theorem seq_decodeError27 (s : Client27) (k : Nat) (c : Chunk) (hs : Sequential27 s)
    (hd : s.decoding[k]? = some c) :
    ∃ s1, step27 s (.decodeError k) = some s1 ∧ Sequential27 s1 ∧
      s1.trace ++ future27 s1 = s.trace ++ [.decodeError c] ++ s.audioQueue.flatMap cycle ∧
      s1.isRecording = s.isRecording ∧ s1.socket = s.socket := by
  obtain ⟨ctx, isRec, sock, queue, playing, cur, dec, srcs, nid, tr⟩ := s
  obtain ⟨hctx, ⟨h1, h2, h3, h4, h5⟩ | ⟨h1, c1, h3, h4, h5⟩ | ⟨h1, node, h3, h4, h5⟩⟩ := hs
  all_goals simp only at hctx h1 h3 h4 h5 hd
  all_goals subst_vars
  · simp at hd
  · cases k with
    | zero =>
      simp only [List.getElem?_cons_zero, Option.some.injEq] at hd
      subst hd
      cases queue with
      | nil =>
        refine ⟨_, rfl, ?_⟩
        simp [decodeFailure27, playNextChunk27, Sequential27, future27, inFlight27, hctx]
      | cons c2 rest =>
        refine ⟨_, rfl, ?_⟩
        simp [decodeFailure27, playNextChunk27, Sequential27, future27, inFlight27, hctx, cycle]
    | succ k => simp at hd
  · simp at hd

theorem seq_decodeError22 (s : Client22) (k : Nat) (c : Chunk) (hs : Sequential22 s)
    (hd : s.decoding[k]? = some c) :
    ∃ s1, step22 s (.decodeError k) = some s1 ∧ Sequential22 s1 ∧
      s1.trace ++ future22 s1 = s.trace ++ [.decodeError c] ++ s.audioQueue.flatMap cycle ∧
      s1.isRecording = s.isRecording ∧ s1.socket = s.socket := by
  obtain ⟨ctx, isRec, sock, queue, playing, idx, dec, srcs, nid, tr⟩ := s
  obtain ⟨hctx, ⟨h1, h2, h3, h4⟩ | ⟨h1, c1, h3, h4⟩ | ⟨h1, node, h3, h4⟩⟩ := hs
  all_goals simp only at hctx h1 h3 h4 hd
  all_goals subst_vars
  · simp at hd
  · cases k with
    | zero =>
      simp only [List.getElem?_cons_zero, Option.some.injEq] at hd
      subst hd
      cases queue with
      | nil =>
        refine ⟨_, rfl, ?_⟩
        simp [decodeFailure22, playNextChunk22, Sequential22, future22, inFlight22, hctx]
      | cons c2 rest =>
        refine ⟨_, rfl, ?_⟩
        simp [decodeFailure22, playNextChunk22, Sequential22, future22, inFlight22, hctx, cycle]
    | succ k => simp at hd
  · simp at hd

theorem run27_filter_malformed (es : List Event) :
    ∀ s : Client27, run27 s (es.filter fun e => !isMalformedAudio e) = run27 s es := by
  induction es with
  | nil => intro s; rfl
  | cons e es ih =>
    intro s
    by_cases he : isMalformedAudio e = true
    · have hstep : step27 s e = some s := by
        cases e with
        | message m =>
          cases m with
          | audio d => cases d <;> first | rfl | simp [isMalformedAudio] at he
          | _ => simp [isMalformedAudio] at he
        | _ => simp [isMalformedAudio] at he
      simp [List.filter_cons, he, run27, hstep, ih]
    · have he2 : isMalformedAudio e = false := by simpa using he
      simp only [List.filter_cons, he2, Bool.not_false, if_true, run27]
      cases step27 s e with
      | none => rfl
      | some s1 => simp [ih]

theorem run22_filter_malformed (es : List Event) :
    ∀ s : Client22, run22 s (es.filter fun e => !isMalformedAudio e) = run22 s es := by
  induction es with
  | nil => intro s; rfl
  | cons e es ih =>
    intro s
    by_cases he : isMalformedAudio e = true
    · have hstep : step22 s e = some s := by
        cases e with
        | message m =>
          cases m with
          | audio d => cases d <;> first | rfl | simp [isMalformedAudio] at he
          | _ => simp [isMalformedAudio] at he
        | _ => simp [isMalformedAudio] at he
      simp [List.filter_cons, he, run22, hstep, ih]
    · have he2 : isMalformedAudio e = false := by simpa using he
      simp only [List.filter_cons, he2, Bool.not_false, if_true, run22]
      cases step22 s e with
      | none => rfl
      | some s1 => simp [ih]

/-- C9: in the playback queue of days 22 and 27, when the error callback of the decode of
chunk `c` runs, no source is started for `c`, `playNextChunk` is invoked again (the state
after the callback is `playNextChunk` applied to the state with the failure recorded), and
`isRecording` and `socket` keep their values.  In undisturbed playback (one chunk in
flight, usable audio context, no interrupt afterwards) the chunks still queued, and those
arriving later, are then decoded and played one after the other in their original order,
and letting the owed callbacks run brings the queue back to idle with the session still
alive. -/
theorem decode_failure_continues (s27 : Client27) (s22 : Client22) (k : Nat) (c : Chunk)
    (es : List Event) (hd27 : s27.decoding[k]? = some c) (hd22 : s22.decoding[k]? = some c)
    (hq : ∀ e ∈ es, quiet e = true) :
    (step27 s27 (.decodeError k) =
        some (playNextChunk27
          { s27 with
            decoding := s27.decoding.eraseIdx k
            trace := s27.trace ++ [.decodeError c] }) ∧
      (∀ s1, step27 s27 (.decodeError k) = some s1 →
        s1.sources = s27.sources ∧ s1.isRecording = s27.isRecording ∧
          s1.socket = s27.socket)) ∧
    (Sequential27 s27 → ∀ t27, run27 s27 (.decodeError k :: es) = some t27 →
      t27.trace ++ future27 t27 =
        s27.trace ++ [.decodeError c] ++ (s27.audioQueue ++ arrivals es).flatMap cycle ∧
      (drain27 (future27 t27).length t27).trace =
        s27.trace ++ [.decodeError c] ++ (s27.audioQueue ++ arrivals es).flatMap cycle ∧
      Idle27 (drain27 (future27 t27).length t27) ∧
      (drain27 (future27 t27).length t27).isRecording = s27.isRecording ∧
      (drain27 (future27 t27).length t27).socket = s27.socket) ∧
    (step22 s22 (.decodeError k) =
        some (playNextChunk22
          { s22 with
            decoding := s22.decoding.eraseIdx k
            trace := s22.trace ++ [.decodeError c] }) ∧
      (∀ s1, step22 s22 (.decodeError k) = some s1 →
        s1.sources = s22.sources ∧ s1.isRecording = s22.isRecording ∧
          s1.socket = s22.socket)) ∧
    (Sequential22 s22 → ∀ t22, run22 s22 (.decodeError k :: es) = some t22 →
      t22.trace ++ future22 t22 =
        s22.trace ++ [.decodeError c] ++ (s22.audioQueue ++ arrivals es).flatMap cycle ∧
      (drain22 (future22 t22).length t22).trace =
        s22.trace ++ [.decodeError c] ++ (s22.audioQueue ++ arrivals es).flatMap cycle ∧
      ((drain22 (future22 t22).length t22).isPlaying = false ∧
        (drain22 (future22 t22).length t22).audioQueue = [] ∧
        (drain22 (future22 t22).length t22).decoding = [] ∧
        (drain22 (future22 t22).length t22).sources = []) ∧
      (drain22 (future22 t22).length t22).isRecording = s22.isRecording ∧
      (drain22 (future22 t22).length t22).socket = s22.socket) := by
  refine ⟨⟨step27_decodeError s27 k c hd27, ?_⟩, ?_, ⟨step22_decodeError s22 k c hd22, ?_⟩, ?_⟩
  · intro s1 h
    rw [step27_decodeError s27 k c hd27] at h
    simp only [Option.some.injEq] at h
    subst h
    obtain ⟨a1, a2, a3, _⟩ := playNextChunk27_frame
      { s27 with decoding := s27.decoding.eraseIdx k, trace := s27.trace ++ [.decodeError c] }
    exact ⟨a1, a2, a3⟩
  · intro hs t27 hrun
    obtain ⟨s1, h1, h2, h3, h4, h5⟩ := seq_decodeError27 s27 k c hs hd27
    simp only [run27, h1, Option.some_bind] at hrun
    obtain ⟨b1, b2, b3, b4⟩ := seq_run27 es s1 t27 h2 hq hrun
    obtain ⟨d1, d2, d3, d4⟩ := seq_drain27 (future27 t27).length t27 b1 (le_refl _)
    have key : t27.trace ++ future27 t27 =
        s27.trace ++ [.decodeError c] ++ (s27.audioQueue ++ arrivals es).flatMap cycle := by
      rw [b2, h3, List.flatMap_append]
      simp only [List.append_assoc]
    exact ⟨key, by rw [d2, key], d1, d3.trans (b3.trans h4), d4.trans (b4.trans h5)⟩
  · intro s1 h
    rw [step22_decodeError s22 k c hd22] at h
    simp only [Option.some.injEq] at h
    subst h
    exact playNextChunk22_frame
      { s22 with decoding := s22.decoding.eraseIdx k, trace := s22.trace ++ [.decodeError c] }
  · intro hs t22 hrun
    obtain ⟨s1, h1, h2, h3, h4, h5⟩ := seq_decodeError22 s22 k c hs hd22
    simp only [run22, h1, Option.some_bind] at hrun
    obtain ⟨b1, b2, b3, b4⟩ := seq_run22 es s1 t22 h2 hq hrun
    obtain ⟨d1, d2, d3, d4⟩ := seq_drain22 (future22 t22).length t22 b1 (le_refl _)
    have key : t22.trace ++ future22 t22 =
        s22.trace ++ [.decodeError c] ++ (s22.audioQueue ++ arrivals es).flatMap cycle := by
      rw [b2, h3, List.flatMap_append]
      simp only [List.append_assoc]
    exact ⟨key, by rw [d2, key], d1, d3.trans (b3.trans h4), d4.trans (b4.trans h5)⟩

/-- Witness for C9: chunk `[1]` fails to decode while `[2]` and `[3]` are queued; in both
days the trace ends as the failure followed by the full cycles of `[2]` and `[3]`. -/
theorem decode_failure_continues_witness :
    (drain27 5
        { audioContext := some .running, isRecording := true, socket := some .OPEN,
          audioQueue := [[3]], isPlaying := true, currentAudioSource := none,
          decoding := [[2]], sources := [], nextId := 0,
          trace := [.decodeAudioData [1], .decodeError [1], .decodeAudioData [2]] }).trace
      = [.decodeAudioData [1], .decodeError [1], .decodeAudioData [2], .start [2],
          .ended [2], .decodeAudioData [3], .start [3], .ended [3]] ∧
    (drain22 5
        { audioContext := some .running, isRecording := true, socket := some .OPEN,
          audioQueue := [[3]], isPlaying := true, audioChunkIndex := 3,
          decoding := [[2]], sources := [], nextId := 0,
          trace := [.decodeAudioData [1], .decodeError [1], .decodeAudioData [2]] }).trace
      = [.decodeAudioData [1], .decodeError [1], .decodeAudioData [2], .start [2],
          .ended [2], .decodeAudioData [3], .start [3], .ended [3]] :=
  have h := decode_failure_continues
    { audioContext := some .running, isRecording := true, socket := some .OPEN,
      audioQueue := [[2], [3]], isPlaying := true, currentAudioSource := none,
      decoding := [[1]], sources := [], nextId := 0, trace := [.decodeAudioData [1]] }
    { audioContext := some .running, isRecording := true, socket := some .OPEN,
      audioQueue := [[2], [3]], isPlaying := true, audioChunkIndex := 3,
      decoding := [[1]], sources := [], nextId := 0, trace := [.decodeAudioData [1]] }
    0 [1] [] rfl rfl (by decide)
  ⟨(h.2.1 ⟨rfl, Or.inr (Or.inl ⟨rfl, [1], rfl, rfl, rfl⟩)⟩ _ rfl).2.1,
   (h.2.2.2 ⟨rfl, Or.inr (Or.inl ⟨rfl, [1], rfl, rfl⟩)⟩ _ rfl).2.1⟩

/-- C10: in days 22 and 27 an `audio` message whose payload is not valid base64 leaves the
whole modelled state (queue, `isPlaying`, session variables, pending callbacks, trace)
unchanged, and any sequence of events gives exactly the same result with the malformed
messages as with them removed, so later valid chunks are enqueued and played as if the
malformed message had never arrived. -/
theorem malformed_audio_ignored (s27 : Client27) (s22 : Client22) (es : List Event) :
    step27 s27 (.message (.audio .malformed)) = some s27 ∧
    step22 s22 (.message (.audio .malformed)) = some s22 ∧
    run27 s27 (es.filter fun e => !isMalformedAudio e) = run27 s27 es ∧
    run22 s22 (es.filter fun e => !isMalformedAudio e) = run22 s22 es :=
  ⟨rfl, rfl, run27_filter_malformed es s27, run22_filter_malformed es s22⟩

/-! ## Day 17 encoder, day 22 interrupt, chat log: lemmas and claims -/

theorem truncate_intCast (z : Int) : truncate (z : ℚ) = z := by
  unfold truncate
  split
  · exact Int.floor_intCast z
  · exact Int.ceil_intCast z

theorem truncate_range_32767 (x : ℚ) (h1 : -32767 ≤ x) (h2 : x ≤ 32767) :
    -32767 ≤ truncate x ∧ truncate x ≤ 32767 := by
  unfold truncate
  split
  · rename_i h
    constructor
    · have : (0 : Int) ≤ ⌊x⌋ := Int.floor_nonneg.mpr h
      omega
    · have : ⌊x⌋ ≤ ⌊(32767 : ℚ)⌋ := Int.floor_le_floor h2
      simpa using this
  · rename_i h
    constructor
    · exact Int.le_ceil_iff.mpr (by push_cast; linarith)
    · exact Int.ceil_le.mpr (by push_cast; linarith [not_le.mp h])

theorem encodeSample17_fin (q : ℚ) :
    encodeSample17 (.fin q) = truncate (max (-1) (min 1 q) * 32767) := by
  have hc1 : (-1 : ℚ) ≤ max (-1) (min 1 q) := le_max_left _ _
  have hc2 : max (-1) (min 1 q) ≤ (1 : ℚ) := max_le (by norm_num) (min_le_left _ _)
  unfold encodeSample17
  rw [clampSample_fin]
  simp only [JSNumber.mul, toInt16]
  obtain ⟨a, b⟩ := truncate_range_32767 (max (-1) (min 1 q) * 32767) (by linarith) (by linarith)
  have := wrapInt16_of_range _ (by omega : -32768 ≤ truncate (max (-1) (min 1 q) * 32767)) b
  simpa using this

theorem encodeSample17_neg_one : encodeSample17 (.fin (-1)) = -32767 := by
  rw [encodeSample17_fin]
  have h : max (-1) (min 1 (-1 : ℚ)) * 32767 = ((-32767 : Int) : ℚ) := by norm_num
  rw [h, truncate_intCast]

/-- C18, as stated, fails on the code: the day-17 encoder multiplies every clamped sample
by `0x7FFF`, whatever its sign, so the input `-1` is encoded as `-32767`, not as `-32768`,
and differs from what the sign-dependent encoder of the later days gives. -/
theorem encodeSample17_not_sign_dependent :
    encodeSample17 (.fin (-1)) = -32767 ∧
    encodeSample17 (.fin (-1)) ≠ -32768 ∧
    encodeSample17 (.fin (-1)) ≠ encodeSample (.fin (-1)) := by
  have h1 := encodeSample17_neg_one
  have h2 : encodeSample (.fin (-1)) = -32768 := by
    rw [encodeSample_fin]
    norm_num [truncate_neg32768]
  refine ⟨h1, ?_, ?_⟩
  · rw [h1]; decide
  · rw [h1, h2]; decide

/-- C18, amended: in the day-17 capture encoder every input sample is clamped to `[-1, 1]`
and then multiplied by `32767` whatever its sign (the product is truncated toward zero);
an input of `-1` or below is encoded as `-32767`, an input of `1` or above as `32767`, and
every encoded value lies between `-32767` and `32767`, so `-32768` is never produced. -/
theorem encodeSample17_single_scale (q : ℚ) :
    encodeSample17 (.fin q) = truncate (max (-1) (min 1 q) * 32767) ∧
    (q ≤ -1 → encodeSample17 (.fin q) = -32767) ∧
    (1 ≤ q → encodeSample17 (.fin q) = 32767) ∧
    (-32767 ≤ encodeSample17 (.fin q) ∧ encodeSample17 (.fin q) ≤ 32767) := by
  have hc1 : (-1 : ℚ) ≤ max (-1) (min 1 q) := le_max_left _ _
  have hc2 : max (-1) (min 1 q) ≤ (1 : ℚ) := max_le (by norm_num) (min_le_left _ _)
  refine ⟨encodeSample17_fin q, ?_, ?_, ?_⟩
  · intro h
    have hc : max (-1) (min 1 q) * 32767 = ((-32767 : Int) : ℚ) := by
      rw [min_eq_right (by linarith), max_eq_left h]; norm_num
    rw [encodeSample17_fin, hc, truncate_intCast]
  · intro h
    have hc : max (-1) (min 1 q) * 32767 = ((32767 : Int) : ℚ) := by
      rw [min_eq_left h, max_eq_right (by norm_num)]; norm_num
    rw [encodeSample17_fin, hc, truncate_intCast]
  · rw [encodeSample17_fin]
    exact truncate_range_32767 _ (by linarith) (by linarith)

/-- Witness for the amended C18 at the out-of-range samples `-3/2` and `3/2`. -/
theorem encodeSample17_single_scale_witness :
    encodeSample17 (.fin (-3 / 2)) = -32767 ∧ encodeSample17 (.fin (3 / 2)) = 32767 :=
  ⟨(encodeSample17_single_scale (-3 / 2)).2.1 (by norm_num),
   (encodeSample17_single_scale (3 / 2)).2.2.1 (by norm_num)⟩

/-- C19, where the code departs from the claim: in day 22 the handling of
`audio_interrupt` closes the audio context and sets `audioContext` to null; the next
`audio` message with a valid payload is pushed onto the queue, but `playNextChunk` finds no
context, clears `isPlaying` and returns, so no decode is started and the chunk stays
queued. -/
theorem interrupt_kills_playback22 :
    ∃ s : Client22,
      run22 sessionStart22
        [.message (.audio (.base64 [1])), .decodeSuccess 0, .message .audioInterrupt,
          .message (.audio (.base64 [2]))] = some s ∧
      s.audioContext = none ∧ s.audioQueue = [[2]] ∧ s.isPlaying = false ∧
      s.decoding = [] ∧ decodeStarts s.trace = [[1]] ∧ Effect.closeContext ∈ s.trace ∧
      s.isRecording = true :=
  ⟨_, rfl, rfl, rfl, rfl, rfl, rfl, by decide, rfl⟩

/-- C20, where the code departs from the claim: in day 22 the handling of
`audio_interrupt` closes the one audio context that the capture encoder uses and sets
`audioContext` to null.  Before the interrupt the capture callback builds and sends a frame;
after it, with the session still recording and the socket still open, the callback throws
on `audioContext.sampleRate` and sends nothing, for any buffer and sample rate. -/
theorem interrupt_kills_capture22 (sampleRate : ℚ) (inputData : List JSNumber) :
    onaudioprocessIn22 sessionStart22 sampleRate inputData
      = some (encodePCM (downsample sampleRate inputData)) ∧
    (onmessage22 sessionStart22 .audioInterrupt).audioContext = none ∧
    Effect.closeContext ∈ (onmessage22 sessionStart22 .audioInterrupt).trace ∧
    (onmessage22 sessionStart22 .audioInterrupt).isRecording = true ∧
    (onmessage22 sessionStart22 .audioInterrupt).socket = some .OPEN ∧
    onaudioprocessIn22 (onmessage22 sessionStart22 .audioInterrupt) sampleRate inputData
      = none := by
  refine ⟨?_, rfl, by decide, rfl, rfl, rfl⟩
  simp [onaudioprocessIn22, onaudioprocess22, sessionStart22]

/-- C15: in days 22 and 27, a `transcription` message with `end_of_turn` true and a
non-empty text appends exactly one entry to the chat log, with sender `user` and content
equal to the text, and resets the current AI message element to none; with `end_of_turn`
false or an empty (or missing) text the view, and so the chat log, is unchanged.  In day 27
the page handler applies exactly this to the page's view. -/
theorem transcription_chat_entry (v : ChatView) (s : Page27) (endOfTurn : Bool)
    (text : String) :
    (endOfTurn = true → text ≠ "" →
      ((onmessageView27 v (.transcription endOfTurn text)).chatContainer =
          v.chatContainer ++
            [{ id := v.nextElement, sender := .user, label := "Explorer: ", content := text }] ∧
        (onmessageView27 v (.transcription endOfTurn text)).currentAiMessageContentElement
          = none) ∧
      ((onmessageView22 v (.transcription endOfTurn text)).chatContainer =
          v.chatContainer ++
            [{ id := v.nextElement, sender := .user, label := "You: ", content := text }] ∧
        (onmessageView22 v (.transcription endOfTurn text)).currentAiMessageContentElement
          = none)) ∧
    (endOfTurn = false ∨ text = "" →
      onmessageView27 v (.transcription endOfTurn text) = v ∧
      onmessageView22 v (.transcription endOfTurn text) = v) ∧
    (onmessagePage27 s (.transcription endOfTurn text)).view =
      onmessageView27 s.view (.transcription endOfTurn text) := by
  refine ⟨?_, ?_, rfl⟩
  · intro h1 h2
    subst h1
    simp [onmessageView27, onmessageView22, chatMessage, addToChatLog, h2]
  · intro h
    rcases h with h | h
    · subst h
      simp [onmessageView27, onmessageView22, chatMessage]
    · subst h
      simp [onmessageView27, onmessageView22, chatMessage]

/-- Witness for C15: the transcription `hello` with `end_of_turn` in an empty chat. -/
theorem transcription_chat_entry_witness :
    (onmessageView27 pageLoad27.view (.transcription true "hello")).chatContainer =
        pageLoad27.view.chatContainer ++
          [{ id := pageLoad27.view.nextElement, sender := .user, label := "Explorer: ",
             content := "hello" }] ∧
    onmessageView27 pageLoad27.view (.transcription false "hello") = pageLoad27.view :=
  ⟨((transcription_chat_entry pageLoad27.view pageLoad27 true "hello").1 rfl
      (by decide)).1.1,
   ((transcription_chat_entry pageLoad27.view pageLoad27 false "hello").2.1
      (Or.inl rfl)).1⟩

/-! ## REST failure paths: claims -/

theorem orElse_text (e fallback : String) (he : e ≠ "") :
    (JSField.text e).orElse fallback = e := by
  simp [JSField.orElse, he]

/-- C16, as stated, fails on the code: in day 10 the error thrown for a failed request is
`new Error(body.error)`; for a JSON body without an `error` field its message is empty, so
what is shown is the bare prefix `Error: ` and not a non-empty generic message. -/
theorem restError10_no_generic :
    ¬ (∃ generic : String, generic ≠ "" ∧
        restError10 { error := .absent, details := .absent, history := none } = generic) ∧
    ttsShown10 { error := .absent, details := .absent, history := none } = "Error: " := by
  constructor
  · rintro ⟨g, hg, h⟩
    apply hg
    rw [← h]
    rfl
  · decide

/-- C16, amended: for a non-2xx response with a JSON body, days 07 and 11 show the body's
error text when it carries a non-empty one and a fixed non-empty generic message when it
has no `error` field (day 11 prefers a non-empty `details` text to both, and its
`/agent/chat` path is taken for bodies that carry a `history` array); day 10 shows the
body's error text when it carries one and has no fallback: without an `error` field the
message is empty and only the fixed prefix is shown.  In every path the shown text is the
fixed prefix of that path followed by the message. -/
theorem rest_failure_messages (b : ErrorBody) (e : String) (he : e ≠ "")
    (typeError : String) :
    (b.error = .text e → ttsError07 b = e) ∧
    (b.error = .absent → ttsError07 b = "Something went wrong on the server.") ∧
    ttsShown07 b = "Error: " ++ ttsError07 b ∧
    (b.error = .text e → restError10 b = e) ∧
    (b.error = .absent → restError10 b = "") ∧
    (ttsShown10 b = "Error: " ++ restError10 b ∧
      llmShown10 b = "Echo Bot Error: " ++ restError10 b ∧
      agentShown10 b = "Error: " ++ restError10 b) ∧
    (b.details = .text e → ttsError11 b = e ∧ llmError11 b = e) ∧
    (b.details = .absent → b.error = .text e → ttsError11 b = e ∧ llmError11 b = e) ∧
    (b.details = .absent → b.error = .absent →
      ttsError11 b = "TTS generation failed." ∧ llmError11 b = "Failed to get LLM response.") ∧
    (ttsShown11 b = "Error: " ++ ttsError11 b ∧
      llmShown11 b = "Echo Bot Error: " ++ llmError11 b) ∧
    (b.history ≠ none → b.error = .text e → agentShown11 typeError b = e) ∧
    (b.history ≠ none → b.error = .absent →
      agentShown11 typeError b = "An unknown error occurred.") ∧
    ("Something went wrong on the server." ≠ "" ∧ "TTS generation failed." ≠ "" ∧
      "Failed to get LLM response." ≠ "" ∧ "An unknown error occurred." ≠ "") := by
  refine ⟨?_, ?_, rfl, ?_, ?_, ⟨rfl, rfl, rfl⟩, ?_, ?_, ?_, ⟨rfl, rfl⟩, ?_, ?_,
    by decide⟩
  · intro h; simp [ttsError07, h, JSField.orElse, he]
  · intro h; simp [ttsError07, h, JSField.orElse]
  · intro h; simp [restError10, h, JSField.errorMessage]
  · intro h; simp [restError10, h, JSField.errorMessage]
  · intro h; simp [ttsError11, llmError11, detailsOrError, h, JSField.orElse, he]
  · intro h1 h2; simp [ttsError11, llmError11, detailsOrError, h1, h2, JSField.orElse, he]
  · intro h1 h2; simp [ttsError11, llmError11, detailsOrError, h1, h2, JSField.orElse]
  · intro h1 h2
    cases hh : b.history with
    | none => exact absurd hh h1
    | some n => simp [agentShown11, hh, h2, JSField.orElse, he]
  · intro h1 h2
    cases hh : b.history with
    | none => exact absurd hh h1
    | some n => simp [agentShown11, hh, h2, JSField.orElse]

/-- Witness for the amended C16: a body `{"error": "Bad voice"}` in the three days. -/
theorem rest_failure_messages_witness :
    ttsError07 { error := .text "Bad voice", details := .absent, history := some 0 }
      = "Bad voice" ∧
    restError10 { error := .text "Bad voice", details := .absent, history := some 0 }
      = "Bad voice" ∧
    ttsError11 { error := .text "Bad voice", details := .absent, history := some 0 }
      = "Bad voice" ∧
    agentShown11 "" { error := .text "Bad voice", details := .absent, history := some 0 }
      = "Bad voice" :=
  have h := rest_failure_messages
    { error := .text "Bad voice", details := .absent, history := some 0 } "Bad voice"
    (by decide) ""
  ⟨h.1 rfl, h.2.2.2.1 rfl, (h.2.2.2.2.2.2.2.1 rfl rfl).1,
    h.2.2.2.2.2.2.2.2.2.2.1 (by decide) rfl⟩

/-! ## Session identifier in the page URL: lemmas and claim -/

theorem splitOn_of_not_mem (sep : Char) (l : List Char) (h : sep ∉ l) :
    splitOn sep l = [l] := by
  induction l with
  | nil => rfl
  | cons c cs ih =>
    have hc : c ≠ sep := fun hEq => h (by simp [hEq])
    have hcs : sep ∉ cs := fun hm => h (List.mem_cons_of_mem _ hm)
    simp [splitOn, hc, ih hcs]

theorem splitFirst_append (sep : Char) (a b : List Char) (h : sep ∉ a) :
    splitFirst sep (a ++ sep :: b) = (a, b) := by
  induction a with
  | nil => simp [splitFirst]
  | cons c cs ih =>
    have hc : c ≠ sep := fun hEq => h (by simp [hEq])
    have hcs : sep ∉ cs := fun hm => h (List.mem_cons_of_mem _ hm)
    simp [splitFirst, hc, ih hcs]

theorem percentDecode_of_plain (l : List Char) (h1 : '+' ∉ l) (h2 : '%' ∉ l) :
    percentDecode l = l := by
  unfold percentDecode
  induction l with
  | nil => rfl
  | cons c cs ih =>
    have hc1 : c ≠ '+' := fun hEq => h1 (by simp [hEq])
    have hc2 : c ≠ '%' := fun hEq => h2 (by simp [hEq])
    have ih2 := ih (fun hm => h1 (List.mem_cons_of_mem _ hm))
      (fun hm => h2 (List.mem_cons_of_mem _ hm))
    simp [percentDecodeFrom, hc1, hc2, ih2]

theorem uuidChar_plain (c : Char) (h : uuidChar c = true) :
    c ≠ '&' ∧ c ≠ '=' ∧ c ≠ '+' ∧ c ≠ '%' := by
  refine ⟨?_, ?_, ?_, ?_⟩ <;>
  · intro hEq
    subst hEq
    revert h
    decide

/-- Reading back the URL written by `initSession`: the parameter `session_id` of
`?session_id=<uuid>` is the UUID itself. -/
theorem searchGet_written (uuid : List Char) (hchars : ∀ c ∈ uuid, uuidChar c = true) :
    searchGet ('?' :: (sessionKey ++ '=' :: uuid)) sessionKey = some uuid := by
  have hamp : '&' ∉ sessionKey ++ '=' :: uuid := by
    intro hm
    rcases List.mem_append.mp hm with hm | hm
    · revert hm; decide
    · rcases List.mem_cons.mp hm with hm | hm
      · revert hm; decide
      · exact (uuidChar_plain _ (hchars _ hm)).1 rfl
  have heq : '=' ∉ sessionKey := by decide
  have hplus : '+' ∉ uuid := fun hm => (uuidChar_plain _ (hchars _ hm)).2.2.1 rfl
  have hpct : '%' ∉ uuid := fun hm => (uuidChar_plain _ (hchars _ hm)).2.2.2 rfl
  have hne : sessionKey ++ '=' :: uuid ≠ [] := by simp [sessionKey]
  have hkey : percentDecode sessionKey = sessionKey :=
    percentDecode_of_plain _ (by decide) (by decide)
  simp only [searchGet, parseSearch, splitOn_of_not_mem _ _ hamp]
  simp [hne, splitFirst_append _ _ _ heq, hkey, percentDecode_of_plain _ hplus hpct]

/-- C17: `initSession` of days 10 and 11.  If the query string of the page URL has a
non-empty `session_id`, `sessionId` is exactly that value and the URL is left unchanged;
otherwise the generated identifier is assigned to `sessionId` and the URL becomes
`/?session_id=<id>`.  In both cases the `session_id` parameter of the URL afterwards equals
`sessionId`, which is non-empty, so running `initSession` again on the resulting URL (with
whatever new identifier the generator would give) yields the same `sessionId` and leaves
the URL as it is.  The generated identifier is the text of a UUID: non-empty, made of
digits, lower-case hexadecimal letters and `-`. -/
theorem initSession_idempotent (loc : Location) (uuid uuid2 : List Char) (hne : uuid ≠ [])
    (hchars : ∀ c ∈ uuid, uuidChar c = true) :
    (∀ v, searchGet loc.search sessionKey = some v → v ≠ [] →
      initSession loc uuid = { sessionId := v, location := loc, fetchesHistory := true }) ∧
    (searchGet loc.search sessionKey = none ∨ searchGet loc.search sessionKey = some [] →
      initSession loc uuid =
        { sessionId := uuid
          location := { pathname := ['/'], search := '?' :: (sessionKey ++ '=' :: uuid) }
          fetchesHistory := false }) ∧
    searchGet (initSession loc uuid).location.search sessionKey
      = some (initSession loc uuid).sessionId ∧
    (initSession loc uuid).sessionId ≠ [] ∧
    (initSession (initSession loc uuid).location uuid2).sessionId
      = (initSession loc uuid).sessionId ∧
    (initSession (initSession loc uuid).location uuid2).location
      = (initSession loc uuid).location := by
  have hfound : ∀ (l : Location) (u v : List Char), searchGet l.search sessionKey = some v →
      v ≠ [] → initSession l u = { sessionId := v, location := l, fetchesHistory := true } := by
    intro l u v h hv
    cases v with
    | nil => exact absurd rfl hv
    | cons c cs => simp [initSession, h]
  have hfresh : searchGet loc.search sessionKey = none ∨
      searchGet loc.search sessionKey = some [] →
      initSession loc uuid =
        { sessionId := uuid
          location := { pathname := ['/'], search := '?' :: (sessionKey ++ '=' :: uuid) }
          fetchesHistory := false } := by
    intro h
    rcases h with h | h <;> simp [initSession, h]
  have hcase : (∃ v, searchGet loc.search sessionKey = some v ∧ v ≠ []) ∨
      (searchGet loc.search sessionKey = none ∨ searchGet loc.search sessionKey = some []) := by
    cases h : searchGet loc.search sessionKey with
    | none => right; left; rfl
    | some v =>
      cases v with
      | nil => right; right; rfl
      | cons c cs => left; exact ⟨c :: cs, rfl, by simp⟩
  refine ⟨hfound loc uuid, hfresh, ?_⟩
  rcases hcase with ⟨v, h, hv⟩ | h
  · have h1 := hfound loc uuid v h hv
    have h2 := hfound loc uuid2 v h hv
    rw [h1]
    exact ⟨h, hv, by rw [h2], by rw [h2]⟩
  · have h1 := hfresh h
    have hw := searchGet_written uuid hchars
    rw [h1]
    have h2 := hfound { pathname := ['/'], search := '?' :: (sessionKey ++ '=' :: uuid) }
      uuid2 uuid hw hne
    exact ⟨hw, hne, by rw [h2], by rw [h2]⟩

/-- Witness for C17: a page opened without query string, with generated identifier
`4a-0`; a reload keeps the identifier although the generator would now give `ff`. -/
theorem initSession_idempotent_witness :
    (initSession (initSession { pathname := ['/'], search := [] } ['4', 'a', '-', '0']).location
        ['f', 'f']).sessionId
      = (initSession { pathname := ['/'], search := [] } ['4', 'a', '-', '0']).sessionId :=
  (initSession_idempotent { pathname := ['/'], search := [] } ['4', 'a', '-', '0'] ['f', 'f']
    (by decide) (by decide)).2.2.2.2.1

/-! ## Session life cycle of day 27: lemmas and claims -/

/-- What `stopRecording27` does to the playback variables of a recording session. -/
theorem stopRecording27_active (c : Client27) (h : c.isRecording = true) :
    (stopRecording27 c).isRecording = false ∧
    (stopRecording27 c).socket = none ∧
    (stopRecording27 c).audioQueue = [] ∧
    (stopRecording27 c).isPlaying = false ∧
    (stopRecording27 c).currentAudioSource = none ∧
    (stopRecording27 c).audioContext = c.audioContext ∧
    (∀ node, c.currentAudioSource = some node →
      Effect.stop node.buffer ∈ (stopRecording27 c).trace ∧
      ∀ p ∈ (stopRecording27 c).sources, p.1.id = node.id → p.2 = true) ∧
    (c.socket = some .OPEN → Effect.closeSocket ∈ (stopRecording27 c).trace) := by
  obtain ⟨ctx, isRec, sock, queue, playing, cur, dec, srcs, nid, tr⟩ := c
  simp only at h
  subst h
  cases cur with
  | none =>
    by_cases hs : sock = some .OPEN
    · simp [stopRecording27, stopCurrentPlayback27, hs]
    · simp [stopRecording27, stopCurrentPlayback27, hs]
  | some node =>
    by_cases hs : sock = some .OPEN
    · simp [stopRecording27, stopCurrentPlayback27, hs]
      intro a b _ y hxy
      split at y
      · simp at y
      · rename_i hne
        simp only [Prod.mk.injEq, and_true] at y
        subst y
        exact hne hxy
    · simp [stopRecording27, stopCurrentPlayback27, hs]
      intro a b _ y hxy
      split at y
      · simp at y
      · rename_i hne
        simp only [Prod.mk.injEq, and_true] at y
        subst y
        exact hne hxy

theorem released_length (socket : Option ReadyState) :
    (released socket).length =
      (match socket with
        | some r => [r]
        | none => []).length := by
  cases socket with
  | none => rfl
  | some r => cases r <;> rfl

/-- What `stopRecording` of day 27 does to a recording session. -/
theorem stopRecordingPage27_spec (s : Page27) (flag : Bool) (h : s.client.isRecording = true) :
    (stopRecordingPage27 flag s).client = stopRecording27 s.client ∧
    (stopRecordingPage27 flag s).processor = none ∧
    (stopRecordingPage27 flag s).source = none ∧
    (∀ p, s.processor = some p → p ∉ (stopRecordingPage27 flag s).connectedProcessors) ∧
    (∀ x, s.source = some x → x ∉ (stopRecordingPage27 flag s).connectedSources) ∧
    (∀ id, s.mediaStream = some id →
      ∀ p ∈ (stopRecordingPage27 flag s).streams, p.1 = id → p.2 = true) ∧
    (∀ t, s.heartbeatInterval = some t → t ∉ (stopRecordingPage27 flag s).timers) ∧
    (stopRecordingPage27 flag s).orphans = s.orphans ++ released s.client.socket ∧
    (allSockets (stopRecordingPage27 flag s)).length = (allSockets s).length ∧
    (stopRecordingPage27 flag s).pendingResume = s.pendingResume ∧
    (stopRecordingPage27 flag s).notifications = s.notifications := by
  obtain ⟨a1, a2, _⟩ := stopRecording27_active s.client h
  have hc : (stopRecordingPage27 flag s).client = stopRecording27 s.client := by
    simp [stopRecordingPage27, h, updateUIForRecording27]
  have ho : (stopRecordingPage27 flag s).orphans = s.orphans ++ released s.client.socket := by
    simp [stopRecordingPage27, h, updateUIForRecording27]
  refine ⟨hc, ?_, ?_, ?_, ?_, ?_, ?_, ho, ?_, ?_, ?_⟩
  · simp [stopRecordingPage27, h, updateUIForRecording27]
  · simp [stopRecordingPage27, h, updateUIForRecording27]
  · intro p hp
    simp [stopRecordingPage27, h, updateUIForRecording27, hp]
  · intro x hx
    simp [stopRecordingPage27, h, updateUIForRecording27, hx]
  · intro id hid p hp hpid
    simp only [stopRecordingPage27, h, updateUIForRecording27, hid, Bool.not_true,
      Bool.false_eq_true, if_false, List.mem_map] at hp
    obtain ⟨q, _, hq⟩ := hp
    split at hq
    · rw [← hq]
    · rename_i hne
      rw [← hq] at hpid
      exact absurd hpid hne
  · intro t ht
    simp [stopRecordingPage27, h, updateUIForRecording27, ht]
  · simp only [allSockets, hc, a2, ho, List.length_append, released_length]
    simp
    omega
  · simp [stopRecordingPage27, h, updateUIForRecording27]
  · simp [stopRecordingPage27, h, updateUIForRecording27]

/-- C12: in day 27, when `stopRecording` runs with `isRecording` true (with either value of
its flag, as called from the record button, from `socket.onerror` and from
`socket.onclose`), then on return `isRecording` is false; `processor` and `source` are null
and the nodes they referred to are disconnected; the source held by `currentAudioSource` has
been stopped, `audioQueue` is empty and nothing is marked playing; every track of the stream
stored on the button has been stopped; the stored heartbeat interval has been cleared; the
socket has been told to close if it was open and `socket` is null; and neither a socket nor
a pending start has been added. -/
theorem stopRecording27_teardown (s : Page27) (flag : Bool)
    (h : s.client.isRecording = true) :
    (stopRecordingPage27 flag s).client.isRecording = false ∧
    ((stopRecordingPage27 flag s).processor = none ∧
      (stopRecordingPage27 flag s).source = none ∧
      (∀ p, s.processor = some p → p ∉ (stopRecordingPage27 flag s).connectedProcessors) ∧
      (∀ x, s.source = some x → x ∉ (stopRecordingPage27 flag s).connectedSources)) ∧
    ((∀ node, s.client.currentAudioSource = some node →
        Effect.stop node.buffer ∈ (stopRecordingPage27 flag s).client.trace ∧
        ∀ p ∈ (stopRecordingPage27 flag s).client.sources, p.1.id = node.id → p.2 = true) ∧
      (stopRecordingPage27 flag s).client.currentAudioSource = none ∧
      (stopRecordingPage27 flag s).client.audioQueue = [] ∧
      (stopRecordingPage27 flag s).client.isPlaying = false) ∧
    (∀ id, s.mediaStream = some id →
      ∀ p ∈ (stopRecordingPage27 flag s).streams, p.1 = id → p.2 = true) ∧
    (∀ t, s.heartbeatInterval = some t → t ∉ (stopRecordingPage27 flag s).timers) ∧
    ((s.client.socket = some .OPEN →
        Effect.closeSocket ∈ (stopRecordingPage27 flag s).client.trace ∧
        (stopRecordingPage27 flag s).orphans = s.orphans ++ [.CLOSING]) ∧
      (stopRecordingPage27 flag s).client.socket = none) ∧
    ((allSockets (stopRecordingPage27 flag s)).length = (allSockets s).length ∧
      (stopRecordingPage27 flag s).pendingResume = s.pendingResume) ∧
    ((∀ fresh, stepPage27 s (.click fresh) = some (stopRecordingPage27 true s)) ∧
      (∀ r st, socketState s r = some st → st ≠ .CLOSED →
        stepPage27 s (.socketError r) = some (stopRecordingPage27 true s) ∧
        stepPage27 s (.socketClose r) =
          some (stopRecordingPage27 false (setSocketState s r .CLOSED)))) := by
  obtain ⟨a1, a2, a3, a4, a5, _, a7, a8⟩ := stopRecording27_active s.client h
  obtain ⟨b1, b2, b3, b4, b5, b6, b7, b8, b9, b10, _⟩ := stopRecordingPage27_spec s flag h
  rw [b1]
  refine ⟨a1, ⟨b2, b3, b4, b5⟩, ⟨a7, a5, a3, a4⟩, b6, b7, ⟨?_, a2⟩, ⟨b9, b10⟩, ?_, ?_⟩
  · intro hs
    exact ⟨a8 hs, by rw [b8, hs]; rfl⟩
  · intro fresh
    simp [stepPage27, onclick27, h]
  · intro r st hst hne
    constructor
    · cases st
      · simp [stepPage27, hst]
      · simp [stepPage27, hst]
      · simp [stepPage27, hst]
      · exact absurd rfl hne
    · cases st
      · simp [stepPage27, hst]
      · simp [stepPage27, hst]
      · simp [stepPage27, hst]
      · exact absurd rfl hne

/-- Witness for C12: a running session with open socket, stored stream, heartbeat and a
playing source is stopped from the record button. -/
theorem stopRecording27_teardown_witness :
    ∃ s : Page27,
      runPage27 pageLoad27
        [.click (some .running), .socketOpen .current, .micGranted,
          .message (.audio (.base64 [1])), .callback (.decodeSuccess 0),
          .message (.audio (.base64 [2]))] = some s ∧
      s.client.isRecording = true ∧
      (stopRecordingPage27 true s).client.isRecording = false ∧
      (stopRecordingPage27 true s).streams = [(0, true)] ∧
      (stopRecordingPage27 true s).timers = [] ∧
      (stopRecordingPage27 true s).orphans = [.CLOSING] ∧
      (stopRecordingPage27 true s).client.audioQueue = [] :=
  ⟨_, rfl, rfl,
    (stopRecording27_teardown _ true rfl).1, rfl, rfl, rfl, rfl⟩

/-- C14: in day 27, when a message of type `error` with text `m` is received during an
active session, an error notification with text `m` is shown and the session is
terminated: `isRecording` becomes false, the socket is told to close if it was open and
`socket` is set to null, the source held by `currentAudioSource` is stopped and the queue
emptied, the tracks of the stored microphone stream are stopped; no socket is created and
no start is left pending. -/
theorem error_message_terminates27 (s : Page27) (m : String)
    (h : s.client.isRecording = true) :
    stepPage27 s (.message (.error m)) = some (onmessagePage27 s (.error m)) ∧
    (onmessagePage27 s (.error m)).notifications = s.notifications ++ [(m, true)] ∧
    (onmessagePage27 s (.error m)).client.isRecording = false ∧
    ((s.client.socket = some .OPEN →
        Effect.closeSocket ∈ (onmessagePage27 s (.error m)).client.trace ∧
        (onmessagePage27 s (.error m)).orphans = s.orphans ++ [.CLOSING]) ∧
      (onmessagePage27 s (.error m)).client.socket = none) ∧
    ((∀ node, s.client.currentAudioSource = some node →
        Effect.stop node.buffer ∈ (onmessagePage27 s (.error m)).client.trace) ∧
      (onmessagePage27 s (.error m)).client.currentAudioSource = none ∧
      (onmessagePage27 s (.error m)).client.audioQueue = [] ∧
      (onmessagePage27 s (.error m)).client.isPlaying = false) ∧
    (∀ id, s.mediaStream = some id →
      ∀ p ∈ (onmessagePage27 s (.error m)).streams, p.1 = id → p.2 = true) ∧
    ((allSockets (onmessagePage27 s (.error m))).length = (allSockets s).length ∧
      (onmessagePage27 s (.error m)).pendingResume = s.pendingResume) := by
  have hm : onmessagePage27 s (.error m) =
      stopRecordingPage27 true
        { s with
          notifications := s.notifications ++ [(m, true)]
          view :=
            { s.view with
              statusText := "An error occurred. Please check the notifications." } } := rfl
  obtain ⟨a1, a2, a3, a4, a5, _, a7, a8⟩ := stopRecording27_active s.client h
  obtain ⟨b1, _, _, _, _, b6, _, b8, b9, b10, b11⟩ :=
    stopRecordingPage27_spec
      { s with
        notifications := s.notifications ++ [(m, true)]
        view :=
          { s.view with
            statusText := "An error occurred. Please check the notifications." } }
      true h
  rw [hm, b1]
  refine ⟨rfl, b11, a1, ⟨?_, a2⟩, ⟨fun node hn => (a7 node hn).1, a5, a3, a4⟩, b6,
    ⟨b9, b10⟩⟩
  intro hs
  refine ⟨a8 hs, ?_⟩
  rw [b8]
  show s.orphans ++ released s.client.socket = s.orphans ++ [.CLOSING]
  rw [hs]
  rfl

/-- Witness for C14: the message `{type: "error", message: "boom"}` in a running session
with an open socket and a stored microphone stream. -/
theorem error_message_terminates27_witness :
    ∃ s : Page27,
      runPage27 pageLoad27 [.click (some .running), .socketOpen .current, .micGranted]
        = some s ∧
      (onmessagePage27 s (.error "boom")).notifications = [("boom", true)] ∧
      (onmessagePage27 s (.error "boom")).client.isRecording = false ∧
      (onmessagePage27 s (.error "boom")).streams = [(0, true)] :=
  ⟨_, rfl, (error_message_terminates27 _ "boom" rfl).2.1,
    (error_message_terminates27 _ "boom" rfl).2.2.1, rfl⟩

/-- C11, where the code departs from the claim: in day 27 a stop that happens while the
microphone request of `socket.onopen` is still pending (from the record button, from
`socket.onclose` or from `socket.onerror`) finds no stream to stop; when the request is
granted afterwards the handler goes on without looking at `isRecording`, builds the
capture graph and stores the stream.  Once every pending callback has run the session is
stopped and the acquired stream has never had `stop()` called on its tracks. -/
theorem stop_during_mic_request_leaks27 :
    (∃ s : Page27,
      runPage27 pageLoad27
        [.click (some .running), .socketOpen .current, .click none, .micGranted,
          .socketClose (.orphan 0)] = some s ∧
      s.client.isRecording = false ∧ settled27 s = true ∧
      s.streams = [(0, false)] ∧ s.mediaStream = some 0 ∧ s.connectedProcessors = [0]) ∧
    (∃ s : Page27,
      runPage27 pageLoad27
        [.click (some .running), .socketOpen .current, .socketClose .current,
          .micGranted] = some s ∧
      s.client.isRecording = false ∧ settled27 s = true ∧ s.streams = [(0, false)]) ∧
    (∃ s : Page27,
      runPage27 pageLoad27
        [.click (some .running), .socketOpen .current, .socketError .current,
          .socketClose (.orphan 0), .micGranted] = some s ∧
      s.client.isRecording = false ∧ settled27 s = true ∧ s.streams = [(0, false)]) :=
  ⟨⟨_, rfl, rfl, rfl, rfl, rfl, rfl⟩, ⟨_, rfl, rfl, rfl, rfl⟩, ⟨_, rfl, rfl, rfl, rfl⟩⟩

/-- C13, where the code departs from the claim: in day 27 a stop while the socket is still
connecting sets `socket` to null without closing it, so the next start creates a second
socket while the first is still connecting; and a second click while the first
`startRecording` waits for `audioContext.resume()` passes the `isRecording` guard, which is
only set after the wait, so both calls create a socket.  In both runs two sockets created
by `startRecording` are unclosed at the same time. -/
theorem second_socket_before_first_closed27 :
    (∃ s : Page27,
      runPage27 pageLoad27 [.click (some .running), .click none, .click none] = some s ∧
      allSockets s = [.CONNECTING, .CONNECTING] ∧ unclosedSockets s = 2) ∧
    (∃ s : Page27,
      runPage27 pageLoad27 [.click (some .suspended), .click none, .resumeDone, .resumeDone]
        = some s ∧
      allSockets s = [.CONNECTING, .CONNECTING] ∧ unclosedSockets s = 2) :=
  ⟨⟨_, rfl, rfl, rfl⟩, ⟨_, rfl, rfl, rfl⟩⟩


/-! ## Down-sampler: read indices -/

theorem floor_index_mono (r : ℚ) (hr : 0 ≤ r) (i j : Nat) (hij : i ≤ j) :
    ⌊(i : ℚ) * r⌋ ≤ ⌊(j : ℚ) * r⌋ := by
  apply Int.floor_le_floor
  have : (i : ℚ) ≤ (j : ℚ) := by exact_mod_cast hij
  exact mul_le_mul_of_nonneg_right this hr

theorem floor_index_strict (r : ℚ) (hr : 1 ≤ r) (i j : Nat) (hij : i < j) :
    ⌊(i : ℚ) * r⌋ < ⌊(j : ℚ) * r⌋ := by
  have h1 : ((i : ℚ) + 1) ≤ (j : ℚ) := by exact_mod_cast hij
  have h2 : (i : ℚ) * r + 1 ≤ (j : ℚ) * r := by
    have h3 : ((i : ℚ) + 1) * r ≤ (j : ℚ) * r :=
      mul_le_mul_of_nonneg_right h1 (by linarith)
    have h4 : (0 : ℚ) ≤ (i : ℚ) := by positivity
    nlinarith
  have h5 : ⌊(i : ℚ) * r + 1⌋ ≤ ⌊(j : ℚ) * r⌋ := Int.floor_le_floor h2
  rw [Int.floor_add_one] at h5
  omega

/-- In exact arithmetic: below `floor(n * 16000 / R)` the index `floor(i * R / 16000)` is
less than `n`. -/
theorem exactIndex_lt (R : ℚ) (hR : 0 < R) (n i : Nat)
    (hi : (i : Int) < ⌊(n : ℚ) * 16000 / R⌋) : ⌊(i : ℚ) * R / 16000⌋ < (n : Int) := by
  have h1 : ((i : Int) + 1) ≤ ⌊(n : ℚ) * 16000 / R⌋ := by omega
  have h2 : (((i : Int) + 1 : Int) : ℚ) ≤ (n : ℚ) * 16000 / R := Int.le_floor.mp h1
  push_cast at h2
  rw [le_div_iff₀ hR] at h2
  apply Int.floor_lt.mpr
  push_cast
  rw [div_lt_iff₀ (by norm_num : (0 : ℚ) < 16000)]
  nlinarith

/-- C26: in the down-sampler of days 22 and 27, for every input buffer, every source rate
`R > 0` (also below 16000, where the output is longer than the input) and every output
index `j < newLength` (array lengths below `2 ^ 50`), the read index
`Math.floor(j * ratio)`, computed in double precision as the code does, is at least `0`
and strictly less than the input length, and `output[j]` is the input sample at that
index; the read indices are non-decreasing in the output index, and strictly increasing
when `R >= 16000`.  The same holds of the exact values named in the claim: for
`b < floor(n * 16000 / R)` the index `floor(b * R / 16000)` is less than `n`, and these
indices are non-decreasing, strictly increasing when `R >= 16000`. -/
theorem readIndex_safe_monotone (R : ℚ) (hR : 0 < R) (inputData : List JSNumber) (i j : Nat)
    (hij : i ≤ j) (hj : j < newLength R inputData.length) (hn : inputData.length < 2 ^ 50)
    (hN : newLength R inputData.length < 2 ^ 50) :
    0 ≤ ⌊roundDouble ((j : ℚ) * roundDouble (R / 16000))⌋ ∧
    ⌊roundDouble ((j : ℚ) * roundDouble (R / 16000))⌋ < (inputData.length : Int) ∧
    (downsample R inputData)[j]?
      = inputData[(⌊roundDouble ((j : ℚ) * roundDouble (R / 16000))⌋).toNat]? ∧
    ⌊roundDouble ((i : ℚ) * roundDouble (R / 16000))⌋
      ≤ ⌊roundDouble ((j : ℚ) * roundDouble (R / 16000))⌋ ∧
    (16000 ≤ R → i < j →
      ⌊roundDouble ((i : ℚ) * roundDouble (R / 16000))⌋
        < ⌊roundDouble ((j : ℚ) * roundDouble (R / 16000))⌋) ∧
    (∀ a b : Nat, a ≤ b → (b : Int) < ⌊(inputData.length : ℚ) * 16000 / R⌋ →
      ⌊(b : ℚ) * R / 16000⌋ < (inputData.length : Int) ∧
      ⌊(a : ℚ) * R / 16000⌋ ≤ ⌊(b : ℚ) * R / 16000⌋ ∧
      (16000 ≤ R → a < b → ⌊(a : ℚ) * R / 16000⌋ < ⌊(b : ℚ) * R / 16000⌋)) := by
  obtain ⟨h0, h1⟩ := readIndex_lt R hR inputData.length j hj hN
  refine ⟨h0, h1, ?_, readIndex_mono R hR i j hij, ?_, ?_⟩
  · rw [downsample_eq_map, List.getElem?_map, List.getElem?_range hj]
    simp only [Option.map_some']
    rw [readSample_of_range _ _ h0 (by omega)]
    have hlt : (⌊roundDouble ((j : ℚ) * roundDouble (R / 16000))⌋).toNat
        < inputData.length := by omega
    rw [List.getElem?_eq_getElem hlt]
  · intro hbig hlt
    obtain ⟨_, hi1⟩ := readIndex_lt R hR inputData.length i (by omega) hN
    apply readIndex_strict R hbig i j hlt
    have h50 : (2 : Int) ^ 50 ≤ 2 ^ 52 := by norm_num
    have hnz : (inputData.length : Int) < 2 ^ 50 := by exact_mod_cast hn
    omega
  · intro a b hab hb
    have e : ∀ t : Nat, (t : ℚ) * R / 16000 = (t : ℚ) * (R / 16000) := fun t => by ring
    refine ⟨exactIndex_lt R hR inputData.length b hb, ?_, ?_⟩
    · rw [e a, e b]
      exact floor_index_mono _ (by positivity) a b hab
    · intro hbig hlt
      rw [e a, e b]
      apply floor_index_strict _ _ a b hlt
      rw [le_div_iff₀ (by norm_num)]
      linarith

/-- Witness for C26: at 44.1 kHz with the 4096-sample buffer of the page, which gives 1486
output samples, for the output indices `159` and `160`. -/
theorem readIndex_safe_monotone_witness :
    0 ≤ ⌊roundDouble (((160 : Nat) : ℚ) * roundDouble (44100 / 16000))⌋ ∧
    ⌊roundDouble (((160 : Nat) : ℚ) * roundDouble (44100 / 16000))⌋
      < (((List.range 4096).map (fun n : Nat => JSNumber.fin n)).length : Int) ∧
    (downsample 44100 ((List.range 4096).map (fun n : Nat => JSNumber.fin n)))[160]?
      = ((List.range 4096).map (fun n : Nat => JSNumber.fin n))[
          (⌊roundDouble (((160 : Nat) : ℚ) * roundDouble (44100 / 16000))⌋).toNat]? ∧
    ⌊roundDouble (((159 : Nat) : ℚ) * roundDouble (44100 / 16000))⌋
      ≤ ⌊roundDouble (((160 : Nat) : ℚ) * roundDouble (44100 / 16000))⌋ ∧
    ((16000 : ℚ) ≤ 44100 → 159 < 160 →
      ⌊roundDouble (((159 : Nat) : ℚ) * roundDouble (44100 / 16000))⌋
        < ⌊roundDouble (((160 : Nat) : ℚ) * roundDouble (44100 / 16000))⌋) :=
  have h := readIndex_safe_monotone 44100 (by norm_num)
    ((List.range 4096).map (fun n : Nat => JSNumber.fin n)) 159 160 (by decide)
    (by
      rw [List.length_map, List.length_range, newLength_44100_4096]
      norm_num)
    (by
      rw [List.length_map, List.length_range]
      norm_num)
    (by
      rw [List.length_map, List.length_range, newLength_44100_4096]
      norm_num)
  ⟨h.1, h.2.1, h.2.2.1, h.2.2.2.1, h.2.2.2.2.1⟩

/-! ## Capture encoder: order and sign -/

theorem truncate_mono (a b : ℚ) (h : a ≤ b) : truncate a ≤ truncate b := by
  unfold truncate
  split_ifs with ha hb hb
  · exact Int.floor_le_floor h
  · exact absurd (le_trans ha h) hb
  · have h1 : ⌈a⌉ ≤ 0 := by
      rw [Int.ceil_le]; push_cast; linarith
    have h2 : 0 ≤ ⌊b⌋ := Int.floor_nonneg.mpr hb
    omega
  · exact Int.ceil_le_ceil h

theorem truncate_nonneg (a : ℚ) (h : 0 ≤ a) : 0 ≤ truncate a := by
  unfold truncate
  rw [if_pos h]
  exact Int.floor_nonneg.mpr h

theorem truncate_nonpos (a : ℚ) (h : a ≤ 0) : truncate a ≤ 0 := by
  have h1 := truncate_mono a 0 h
  have h2 : truncate 0 = 0 := by simp [truncate]
  omega

theorem encodeSample_fin_mono (x y : ℚ) (h : x ≤ y) :
    encodeSample (.fin x) ≤ encodeSample (.fin y) := by
  rw [encodeSample_fin, encodeSample_fin]
  have hc : max (-1) (min 1 x) ≤ max (-1) (min 1 y) :=
    max_le_max (le_refl _) (min_le_min (le_refl _) h)
  split_ifs with hx hy hy
  · apply truncate_mono; linarith
  · push_neg at hy
    have h1 := truncate_nonpos (max (-1) (min 1 x) * 32768) (by linarith)
    have h2 := truncate_nonneg (max (-1) (min 1 y) * 32767) (by positivity)
    omega
  · push_neg at hx
    linarith
  · push_neg at hx
    apply truncate_mono
    nlinarith

theorem encodeSample_fin_sign (x : ℚ) :
    (0 ≤ x → 0 ≤ encodeSample (.fin x)) ∧ (x < 0 → encodeSample (.fin x) ≤ 0) := by
  have h0 : encodeSample (.fin 0) = 0 := by
    rw [encodeSample_fin]; simp [truncate]
  constructor
  · intro h
    have := encodeSample_fin_mono 0 x h
    omega
  · intro h
    have := encodeSample_fin_mono x 0 (le_of_lt h)
    omega

/-- C27: the float-to-PCM conversion of days 19, 21, 22 and 27 is monotone and
sign-preserving.  For finite samples `x <= y` the encoded values satisfy
`pcm(x) <= pcm(y)`; `pcm(x) >= 0` whenever `x >= 0` and `pcm(x) <= 0` whenever `x < 0`;
and the infinite samples fit in: `pcm(-Infinity) <= pcm(x) <= pcm(+Infinity)`, with
`pcm(-Infinity) <= 0 <= pcm(+Infinity)`. -/
theorem encodeSample_monotone_sign (x y : ℚ) (h : x ≤ y) :
    encodeSample (.fin x) ≤ encodeSample (.fin y) ∧
    (0 ≤ x → 0 ≤ encodeSample (.fin x)) ∧
    (x < 0 → encodeSample (.fin x) ≤ 0) ∧
    encodeSample .negInf ≤ encodeSample (.fin x) ∧
    encodeSample (.fin y) ≤ encodeSample .posInf ∧
    encodeSample .negInf ≤ 0 ∧ 0 ≤ encodeSample .posInf := by
  refine ⟨encodeSample_fin_mono x y h, (encodeSample_fin_sign x).1, (encodeSample_fin_sign x).2,
    ?_, ?_, ?_, ?_⟩
  · rw [encodeSample_negInf]
    have h1 := encodeSample_fin_mono (-1) x
    have h2 := encodeSample_fin_mono x (-1)
    have hm : encodeSample (.fin (-1)) = -32768 := by
      rw [encodeSample_fin]; norm_num [truncate_neg32768]
    rcases le_total (-1) x with hx | hx
    · have := h1 hx; omega
    · have e : encodeSample (.fin x) = encodeSample (.fin (-1)) := by
        rw [encodeSample_fin, encodeSample_fin]
        have : max (-1) (min 1 x) = max (-1) (min 1 (-1 : ℚ)) := by
          rw [min_eq_right (by linarith : x ≤ 1), max_eq_left hx]
          norm_num
        rw [this]
      omega
  · rw [encodeSample_posInf]
    have hm : encodeSample (.fin 1) = 32767 := by
      rw [encodeSample_fin]; norm_num [truncate_32767]
    rcases le_total y 1 with hy | hy
    · have := encodeSample_fin_mono y 1 hy; omega
    · have e : encodeSample (.fin y) = encodeSample (.fin 1) := by
        rw [encodeSample_fin, encodeSample_fin]
        have : max (-1) (min 1 y) = max (-1) (min 1 (1 : ℚ)) := by
          rw [min_eq_left hy]
          norm_num
        rw [this]
      omega
  · rw [encodeSample_negInf]; norm_num
  · rw [encodeSample_posInf]; norm_num

/-- Witness for C27: the samples `-1/2` and `1/2`. -/
theorem encodeSample_monotone_sign_witness :
    encodeSample (.fin (-1 / 2)) ≤ encodeSample (.fin (1 / 2)) ∧
    ((0 : ℚ) ≤ -1 / 2 → 0 ≤ encodeSample (.fin (-1 / 2))) ∧
    ((-1 / 2 : ℚ) < 0 → encodeSample (.fin (-1 / 2)) ≤ 0) ∧
    encodeSample .negInf ≤ encodeSample (.fin (-1 / 2)) ∧
    encodeSample (.fin (1 / 2)) ≤ encodeSample .posInf ∧
    encodeSample .negInf ≤ 0 ∧ 0 ≤ encodeSample .posInf :=
  encodeSample_monotone_sign (-1 / 2) (1 / 2) (by norm_num)


/-! ## Day 27: the interrupt message -/

/-- C21, as stated, fails: in a session of day 27 chunk `[1]` is playing and chunks `[2]`,
`[3]` are queued; the message `audio_interrupt` matches no case of the handler, and the
whole page state, playing source and queue included, is the same afterwards. -/
theorem audio_interrupt_ignored27 :
    ∃ s, runPage27 session27
        [.message (.audio (.base64 [1])), .callback (.decodeSuccess 0),
          .message (.audio (.base64 [2])), .message (.audio (.base64 [3]))] = some s ∧
      s.client.currentAudioSource = some { id := 0, buffer := [1] } ∧
      s.client.audioQueue = [[2], [3]] ∧
      s.client.isPlaying = true ∧
      stepPage27 s (.message .audioInterrupt) = some s :=
  ⟨_, rfl, rfl, rfl, rfl, rfl⟩

/-- C21, amended: in day 27 a message `audio_interrupt` changes nothing; the interrupt is
carried by `audio_start`.  When `audio_start` is received while a source is playing, the
handler calls `stop()` on that source, empties the queue and leaves `isPlaying` false and
`currentAudioSource` null; the session itself goes on. -/
theorem audio_start_interrupts27 (s : Page27) (node : BufferSource)
    (h : s.client.currentAudioSource = some node) :
    onmessagePage27 s .audioInterrupt = s ∧
    (onmessagePage27 s .audioStart).client.currentAudioSource = none ∧
    (onmessagePage27 s .audioStart).client.audioQueue = [] ∧
    (onmessagePage27 s .audioStart).client.isPlaying = false ∧
    (onmessagePage27 s .audioStart).client.trace = s.client.trace ++ [.stop node.buffer] ∧
    (onmessagePage27 s .audioStart).client.isRecording = s.client.isRecording ∧
    (onmessagePage27 s .audioStart).client.socket = s.client.socket := by
  obtain ⟨a1, a2, a3, _, a5, a6, _, a8⟩ := stopCurrentPlayback27_fields s.client
  rw [h] at a8
  exact ⟨rfl, a3, a1, a2, a8, a5, a6⟩

/-- Witness for C21: chunk `[1]` is playing and `[2]`, `[3]` are queued when `audio_start`
arrives. -/
theorem audio_start_interrupts27_witness :
    onmessagePage27
        { session27 with
          client :=
            { session27.client with
              audioQueue := [[2], [3]], isPlaying := true,
              currentAudioSource := some { id := 0, buffer := [1] },
              sources := [({ id := 0, buffer := [1] }, false)], nextId := 1,
              trace := [.decodeAudioData [1], .start [1]] } }
        .audioInterrupt =
      { session27 with
        client :=
          { session27.client with
            audioQueue := [[2], [3]], isPlaying := true,
            currentAudioSource := some { id := 0, buffer := [1] },
            sources := [({ id := 0, buffer := [1] }, false)], nextId := 1,
            trace := [.decodeAudioData [1], .start [1]] } } :=
  (audio_start_interrupts27
    { session27 with
      client :=
        { session27.client with
          audioQueue := [[2], [3]], isPlaying := true,
          currentAudioSource := some { id := 0, buffer := [1] },
          sources := [({ id := 0, buffer := [1] }, false)], nextId := 1,
          trace := [.decodeAudioData [1], .start [1]] } }
    { id := 0, buffer := [1] } rfl).1

/-! ## Chat log: accumulation of `llm_chunk` -/

theorem llmChunk_empty (u t : String) (v : ChatView) :
    chatMessage u t v (.llmChunk "") = v := by
  simp [chatMessage]

theorem appendContent_last (base : List ChatEntry) (id : Nat) (c d : String)
    (hbase : ∀ e ∈ base, e.id ≠ id) :
    appendContent (base ++ [{ id := id, sender := .ai, label := "Diva: ", content := c }]) id d
      = base ++ [{ id := id, sender := .ai, label := "Diva: ", content := c ++ d }] := by
  unfold appendContent
  rw [List.map_append]
  congr 1
  · conv_rhs => rw [← List.map_id base]
    apply List.map_congr_left
    intro e he
    simp [hbase e he]
  · simp

theorem llmChunks_open (u t : String) (ds : List String) :
    ∀ (v : ChatView) (base : List ChatEntry) (id : Nat) (c : String),
      v.currentAiMessageContentElement = some id →
      v.chatContainer
        = base ++ [{ id := id, sender := .ai, label := "Diva: ", content := c }] →
      (∀ e ∈ base, e.id ≠ id) →
      (ds.foldl (fun w d => chatMessage u t w (.llmChunk d)) v).chatContainer
        = base ++ [{ id := id, sender := .ai, label := "Diva: ",
                     content := ds.foldl (fun r s => r ++ s) c }] := by
  induction ds with
  | nil => intro v base id c _ hlog _; simpa using hlog
  | cons d ds ih =>
    intro v base id c hcur hlog hbase
    rw [List.foldl_cons, List.foldl_cons]
    by_cases hd : d = ""
    · subst hd
      rw [llmChunk_empty, String.append_empty]
      exact ih v base id c hcur hlog hbase
    · apply ih _ base id (c ++ d) _ _ hbase
      · simp [chatMessage, hd, hcur]
      · simp [chatMessage, hd, hcur, hlog, appendContent_last base id c d hbase]

theorem llmChunks_closed (u t : String) (ds : List String) :
    ∀ (v : ChatView), v.currentAiMessageContentElement = none →
      (∀ e ∈ v.chatContainer, e.id < v.nextElement) →
      (∃ d ∈ ds, d ≠ "") →
      (ds.foldl (fun w d => chatMessage u t w (.llmChunk d)) v).chatContainer
        = v.chatContainer ++ [{ id := v.nextElement, sender := .ai, label := "Diva: ",
                                content := ds.foldl (fun r s => r ++ s) "" }] := by
  induction ds with
  | nil => intro v _ _ h; simp at h
  | cons d ds ih =>
    intro v hcur hwf hex
    rw [List.foldl_cons, List.foldl_cons]
    by_cases hd : d = ""
    · subst hd
      rw [llmChunk_empty]
      have hex2 : ∃ d ∈ ds, d ≠ "" := by
        obtain ⟨x, hx, hne⟩ := hex
        rcases List.mem_cons.mp hx with h1 | h1
        · exact absurd h1 hne
        · exact ⟨x, h1, hne⟩
      have e : ("" : String) ++ "" = "" := by decide
      rw [e]
      exact ih v hcur hwf hex2
    · have hbase : ∀ e ∈ v.chatContainer, e.id ≠ v.nextElement := by
        intro e he
        have := hwf e he
        omega
      apply llmChunks_open u t ds _ v.chatContainer v.nextElement ("" ++ d) _ _ hbase
      · simp [chatMessage, hd, hcur, addToChatLog]
      · simp [chatMessage, hd, hcur, addToChatLog,
          appendContent_last v.chatContainer v.nextElement "" d hbase]

theorem transcription_view (u t : String) (v : ChatView) (text : String) (htext : text ≠ "")
    (hwf : ∀ e ∈ v.chatContainer, e.id < v.nextElement) :
    (chatMessage u t v (.transcription true text)).currentAiMessageContentElement = none ∧
    (∀ e ∈ (chatMessage u t v (.transcription true text)).chatContainer,
      e.id < (chatMessage u t v (.transcription true text)).nextElement) := by
  constructor
  · simp [chatMessage, htext]
  · intro e he
    simp [chatMessage, htext, addToChatLog] at he ⊢
    rcases he with he | he
    · have := hwf e he; omega
    · subst he; simp

/-- C29: in days 22 and 27, after an end-of-turn transcription with a text (in a chat log
whose elements are all older than the next element to be created), every sequence of
`llm_chunk` messages of which at least one has non-empty data adds exactly one entry to
the chat log, an AI entry labelled `Diva: ` whose content is the concatenation of the data
of the chunks in arrival order; this holds after the first such chunk and after every
later one, so the entry is created on the first chunk.  An `llm_chunk` with empty or
missing data changes nothing. -/
theorem llm_chunks_accumulate (v : ChatView) (text : String) (ds : List String)
    (htext : text ≠ "") (hwf : ∀ e ∈ v.chatContainer, e.id < v.nextElement)
    (hds : ∃ d ∈ ds, d ≠ "") :
    (ds.foldl (fun w d => onmessageView27 w (.llmChunk d))
        (onmessageView27 v (.transcription true text))).chatContainer
      = (onmessageView27 v (.transcription true text)).chatContainer ++
          [{ id := (onmessageView27 v (.transcription true text)).nextElement, sender := .ai,
             label := "Diva: ", content := String.join ds }] ∧
    (ds.foldl (fun w d => onmessageView22 w (.llmChunk d))
        (onmessageView22 v (.transcription true text))).chatContainer
      = (onmessageView22 v (.transcription true text)).chatContainer ++
          [{ id := (onmessageView22 v (.transcription true text)).nextElement, sender := .ai,
             label := "Diva: ", content := String.join ds }] ∧
    (∀ w : ChatView, onmessageView27 w (.llmChunk "") = w ∧
      onmessageView22 w (.llmChunk "") = w) := by
  refine ⟨?_, ?_, fun w =>
    ⟨llmChunk_empty "Explorer: " "Diva is pondering the quest..." w,
      llmChunk_empty "You: " "Diva is thinking..." w⟩⟩
  · obtain ⟨h1, h2⟩ :=
      transcription_view "Explorer: " "Diva is pondering the quest..." v text htext hwf
    exact llmChunks_closed "Explorer: " "Diva is pondering the quest..." ds _ h1 h2 hds
  · obtain ⟨h1, h2⟩ := transcription_view "You: " "Diva is thinking..." v text htext hwf
    exact llmChunks_closed "You: " "Diva is thinking..." ds _ h1 h2 hds

/-- Witness for C29: after the transcription `hi` on an empty chat log, the chunks `He`,
the empty chunk and `llo` give one AI entry with the content `Hello`. -/
theorem llm_chunks_accumulate_witness :
    (["He", "", "llo"].foldl (fun w d => onmessageView27 w (.llmChunk d))
        (onmessageView27 pageLoad27.view (.transcription true "hi"))).chatContainer
      = [{ id := 0, sender := .user, label := "Explorer: ", content := "hi" },
         { id := 1, sender := .ai, label := "Diva: ", content := "Hello" }] :=
  (llm_chunks_accumulate pageLoad27.view "hi" ["He", "", "llo"] (by decide)
    (by intro e he; simp [pageLoad27] at he) ⟨"He", by simp, by decide⟩).1


/-! ## Days 19, 21 and 22: the `error` message -/

/-- C22, as stated, fails: in a running session of day 19, of day 21 and of day 22 the
message `error` with the text `boom` leaves `isRecording` true and the socket open, and
nothing is asked of the socket. -/
theorem error_message_keeps_session :
    ((onmessage19 session19 (.error "boom")).isRecording = true ∧
      (onmessage19 session19 (.error "boom")).socket = some .OPEN ∧
      (onmessage19 session19 (.error "boom")).wire = []) ∧
    ((onmessage21 session21 (.error "boom")).isRecording = true ∧
      (onmessage21 session21 (.error "boom")).socket = some .OPEN ∧
      (onmessage21 session21 (.error "boom")).wire = []) ∧
    ((onmessagePage22 session22 (.error "boom")).client.isRecording = true ∧
      (onmessagePage22 session22 (.error "boom")).client.socket = some .OPEN ∧
      (onmessagePage22 session22 (.error "boom")).client.trace = []) :=
  ⟨⟨rfl, rfl, rfl⟩, ⟨rfl, rfl, rfl⟩, ⟨rfl, rfl, rfl⟩⟩

/-- C22, amended: in days 19, 21 and 22 a message `error` with the text `m` writes
`Error: ` followed by `m` into the status text and marks the status red, and does nothing
else: `isRecording`, the socket and every other variable keep their values, so the
session is not terminated. -/
theorem error_message_status_only (s : Recorder) (p : Page22) (m : String) :
    onmessage19 s (.error m) = { s with statusText := "Error: " ++ m, statusRed := true } ∧
    onmessage21 s (.error m) = { s with statusText := "Error: " ++ m, statusRed := true } ∧
    onmessagePage22 p (.error m) =
      { p with view := { p.view with statusText := "Error: " ++ m, statusRed := true } } ∧
    (onmessage19 s (.error m)).isRecording = s.isRecording ∧
    (onmessage19 s (.error m)).socket = s.socket ∧
    (onmessage21 s (.error m)).isRecording = s.isRecording ∧
    (onmessage21 s (.error m)).socket = s.socket ∧
    (onmessagePage22 p (.error m)).client = p.client :=
  ⟨rfl, rfl, rfl, rfl, rfl, rfl, rfl, rfl⟩

/-! ## Days 22 and 27: `socket.onerror` -/

/-- C23: what `socket.onerror` leaves behind in a running session.  In day 27 the status
text is the ready message, and no notification and no alert has been shown; in day 22 the
status text is `Ready` and the red mark, both written by the handler itself, are gone, and
no alert has been shown. -/
theorem socket_error_not_surfaced :
    (session27.client.isRecording = true ∧
      stepPage27 session27 (.socketError .current) = some (onerrorPage27 session27) ∧
      (onerrorPage27 session27).view.statusText = "Ready for a new quest!" ∧
      (onerrorPage27 session27).view.statusRed = false ∧
      (onerrorPage27 session27).notifications = [] ∧
      (onerrorPage27 session27).alerts = []) ∧
    (session22.client.isRecording = true ∧
      (onerrorPage22 session22).view.statusText = "Ready" ∧
      (onerrorPage22 session22).view.statusRed = false ∧
      (onerrorPage22 session22).alerts = []) :=
  ⟨⟨rfl, rfl, rfl, rfl, rfl, rfl⟩, ⟨rfl, rfl, rfl, rfl⟩⟩

/-! ## Day 21: a malformed chunk -/

/-- C24: in a running session of day 21 the chunk `QUJD` followed by `audio_end` is played
as the bytes `65, 66, 67`.  After the malformed chunk `!!!` and its `audio_end` the chunk
buffer still holds `!!!`; the next response `QUJD`, `audio_end` is then not played, and the
buffer holds both chunks. -/
theorem malformed_chunk_blocks_responses21 :
    (receive21 session21 [.audio ['Q', 'U', 'J', 'D'], .audioEnd]).played = [[65, 66, 67]] ∧
    (receive21 session21 [.audio ['Q', 'U', 'J', 'D'], .audioEnd]).audioChunks = [] ∧
    (receive21 session21 [.audio ['!', '!', '!'], .audioEnd]).audioChunks
      = [['!', '!', '!']] ∧
    (receive21 session21
      [.audio ['!', '!', '!'], .audioEnd, .audio ['Q', 'U', 'J', 'D'], .audioEnd]).played
      = [] ∧
    (receive21 session21
      [.audio ['!', '!', '!'], .audioEnd, .audio ['Q', 'U', 'J', 'D'], .audioEnd]).audioChunks
      = [['!', '!', '!'], ['Q', 'U', 'J', 'D']] :=
  ⟨by decide, by decide, by decide, by decide, by decide⟩

/-! ## `stopRecording` when no session is running -/

theorem teardown19_idle (eof : Bool) (s : Recorder) (h : s.isRecording = false) :
    teardown19 eof s = s := by
  simp [teardown19, h]

theorem teardown19_isRecording (eof : Bool) (s : Recorder) :
    (teardown19 eof s).isRecording = false := by
  by_cases h : s.isRecording = true
  · simp [teardown19, h, updateUIForRecording19]
  · have h2 : s.isRecording = false := by simpa using h
    rw [teardown19_idle eof s h2]
    exact h2

theorem stopRecordingPage22_idle (flag : Bool) (s : Page22) (h : s.client.isRecording = false) :
    stopRecordingPage22 flag s = s := by
  simp [stopRecordingPage22, h]

theorem stopRecordingPage22_isRecording (flag : Bool) (s : Page22) :
    (stopRecordingPage22 flag s).client.isRecording = false := by
  by_cases h : s.client.isRecording = true
  · simp only [stopRecordingPage22, h, Bool.not_true, Bool.false_eq_true, if_false,
      updateUIForRecording22]
    cases hc : s.client.audioContext <;> simp [stopRecording22, h, hc] <;> split <;> rfl
  · have h2 : s.client.isRecording = false := by simpa using h
    rw [stopRecordingPage22_idle flag s h2]
    exact h2

theorem stopRecordingPage27_idle (flag : Bool) (s : Page27) (h : s.client.isRecording = false) :
    stopRecordingPage27 flag s = s := by
  simp [stopRecordingPage27, h]

theorem stopRecordingPage27_isRecording (flag : Bool) (s : Page27) :
    (stopRecordingPage27 flag s).client.isRecording = false := by
  by_cases h : s.client.isRecording = true
  · rw [(stopRecordingPage27_spec s flag h).1]
    exact (stopRecording27_active s.client h).1
  · have h2 : s.client.isRecording = false := by simpa using h
    rw [stopRecordingPage27_idle flag s h2]
    exact h2

/-- C28, as stated, fails for the `onclose` handler: in day 19, after a session has been
stopped by a click (status `Ready`, `isRecording` false), the `onclose` of the socket that
`stopRecording` closed writes `Connection closed.` into the status text. -/
theorem late_close_rewrites_status19 :
    ∃ s0 s1,
      run19 pageLoad19 [.click true, .socketOpen .current, .micGranted, .click true] = some s0 ∧
      s0.isRecording = false ∧ s0.statusText = "Ready" ∧
      step19 s0 (.socketClose (.orphan 0)) = some s1 ∧
      s1.statusText = "Connection closed." ∧ s1 ≠ s0 :=
  ⟨_, _, rfl, rfl, rfl, rfl, rfl, by decide⟩

/-- C28, amended: in days 19, 21, 22 and 27, when `isRecording` is false a call of
`stopRecording` returns the state unchanged (nothing is sent, no socket is closed, the page
is not written), so two consecutive calls are the same as one.  The `onclose` handler that
fires while `isRecording` is false changes nothing in day 27; in days 19, 21 and 22 it
changes the status text to `Connection closed.` and nothing else. -/
theorem stopRecording_idempotent (r : Recorder) (p22 : Page22) (p27 : Page27) (a b : Bool)
    (h19 : r.isRecording = false) (h22 : p22.client.isRecording = false)
    (h27 : p27.client.isRecording = false) :
    (stopRecording19 a r = r ∧ stopRecording21 a r = r ∧ stopRecordingPage22 a p22 = p22 ∧
      stopRecordingPage27 a p27 = p27) ∧
    ((∀ x : Recorder, stopRecording19 b (stopRecording19 a x) = stopRecording19 a x) ∧
      (∀ x : Recorder, stopRecording21 b (stopRecording21 a x) = stopRecording21 a x) ∧
      (∀ x : Page22, stopRecordingPage22 b (stopRecordingPage22 a x) = stopRecordingPage22 a x) ∧
      (∀ x : Page27,
        stopRecordingPage27 b (stopRecordingPage27 a x) = stopRecordingPage27 a x)) ∧
    (onclosePage27 p27 = p27 ∧
      onclose19 r = { r with statusText := "Connection closed." } ∧
      onclose21 r = { r with statusText := "Connection closed." } ∧
      onclosePage22 p22 =
        { p22 with view := { p22.view with statusText := "Connection closed." } }) := by
  refine ⟨⟨teardown19_idle a r h19, teardown19_idle false r h19,
      stopRecordingPage22_idle a p22 h22, stopRecordingPage27_idle a p27 h27⟩,
    ⟨fun x => teardown19_idle b _ (teardown19_isRecording a x),
      fun x => teardown19_idle false _ (teardown19_isRecording false x),
      fun x => stopRecordingPage22_idle b _ (stopRecordingPage22_isRecording a x),
      fun x => stopRecordingPage27_idle b _ (stopRecordingPage27_isRecording a x)⟩,
    ⟨stopRecordingPage27_idle false p27 h27, teardown19_idle false _ h19,
      teardown19_idle false _ h19, stopRecordingPage22_idle false _ h22⟩⟩

/-- Witness for C28: the pages as loaded, where no session is running. -/
theorem stopRecording_idempotent_witness :
    stopRecording19 true pageLoad19 = pageLoad19 ∧
    stopRecordingPage22 true pageLoad22 = pageLoad22 ∧
    stopRecordingPage27 true pageLoad27 = pageLoad27 ∧
    stopRecording19 true (stopRecording19 true session19) = stopRecording19 true session19 ∧
    onclosePage27 pageLoad27 = pageLoad27 :=
  have h := stopRecording_idempotent pageLoad19 pageLoad22 pageLoad27 true true rfl rfl rfl
  ⟨h.1.1, h.1.2.2.1, h.1.2.2.2, h.2.1.1 session19, h.2.2.1⟩


/-! ## Day 19: the `EOF` frame -/

theorem teardown19_active (eof : Bool) (s : Recorder) (h : s.isRecording = true) :
    (teardown19 eof s).wire =
      s.wire ++
        (if s.socket = some .OPEN then
          (if eof then [Wire.text s.created "EOF"] else []) ++ [Wire.close s.created]
        else []) ∧
    (teardown19 eof s).created = s.created := by
  simp [teardown19, h, updateUIForRecording19]

theorem teardown19_created (eof : Bool) (s : Recorder) :
    (teardown19 eof s).created = s.created := by
  by_cases h : s.isRecording = true
  · exact (teardown19_active eof s h).2
  · have h2 : s.isRecording = false := by simpa using h
    rw [teardown19_idle eof s h2]

theorem teardown19_eofCount (eof : Bool) (s : Recorder) (k : Nat) :
    eofCount (teardown19 eof s) k =
      eofCount s k +
        (if s.isRecording = true ∧ s.socket = some .OPEN ∧ eof = true ∧ k = s.created
          then 1 else 0) := by
  by_cases h : s.isRecording = true
  · unfold eofCount
    rw [(teardown19_active eof s h).1, List.count_append]
    by_cases ho : s.socket = some .OPEN
    · cases eof
      · simp [h, ho, List.count_cons]
      · by_cases hk : k = s.created
        · subst hk
          simp [h, ho, List.count_cons]
        · have hk2 : ¬ s.created = k := fun e => hk e.symm
          simp [h, ho, List.count_cons, hk, hk2]
    · simp [h, ho]
  · have h2 : s.isRecording = false := by simpa using h
    rw [teardown19_idle eof s h2]
    simp [h2]

theorem oneEof_congr (s t : Recorder) (hw : t.wire = s.wire) (hc : t.created = s.created)
    (hr : t.isRecording = s.isRecording) (h : OneEofPerSession s) : OneEofPerSession t := by
  unfold OneEofPerSession eofCount at *
  rw [hw, hc, hr]
  exact h

theorem oneEof_teardown (eof : Bool) (s : Recorder) (h : OneEofPerSession s) :
    OneEofPerSession (teardown19 eof s) := by
  obtain ⟨h1, h2, h3⟩ := h
  refine ⟨?_, ?_, ?_⟩
  · intro k
    rw [teardown19_eofCount]
    split_ifs with hc
    · obtain ⟨hr, _, _, hk⟩ := hc
      have := h3 hr
      rw [hk]
      omega
    · have := h1 k
      omega
  · intro k hk
    rw [teardown19_created] at hk
    rw [teardown19_eofCount]
    have := h2 k hk
    split_ifs with hc
    · omega
    · omega
  · intro hr
    rw [teardown19_isRecording] at hr
    exact absurd hr (by decide)

theorem oneEof_start (supported : Bool) (s : Recorder) (h : OneEofPerSession s) :
    OneEofPerSession (startRecording19 supported s) := by
  cases supported
  · exact oneEof_congr s _ rfl rfl rfl h
  · obtain ⟨h1, h2, _⟩ := h
    have hw : (startRecording19 true s).wire = s.wire := rfl
    have hc : (startRecording19 true s).created = s.created + 1 := rfl
    unfold OneEofPerSession eofCount at *
    rw [hw, hc]
    refine ⟨h1, ?_, ?_⟩
    · intro k hk
      exact h2 k (by omega)
    · intro _
      exact h2 _ (by omega)

theorem oneEof_setSocketState (s : Recorder) (r : SocketRef) (st : ReadyState)
    (h : OneEofPerSession s) : OneEofPerSession (setSocketState19 s r st) := by
  cases r
  · exact oneEof_congr s _ rfl rfl rfl h
  · exact oneEof_congr s _ rfl rfl rfl h

theorem oneEof_step19 (s s1 : Recorder) (e : Event19) (h : OneEofPerSession s)
    (hs : step19 s e = some s1) : OneEofPerSession s1 := by
  cases e with
  | click supported =>
    simp only [step19, Option.some.injEq] at hs
    subst hs
    unfold onclick19
    split
    · exact oneEof_teardown true s h
    · exact oneEof_start supported s h
  | socketOpen r =>
    simp only [step19] at hs
    split at hs
    · simp only [Option.some.injEq] at hs
      subst hs
      exact oneEof_congr _ _ rfl rfl rfl (oneEof_setSocketState s r .OPEN h)
    · exact absurd hs (by simp)
  | socketClose r =>
    simp only [step19] at hs
    split at hs
    · exact absurd hs (by simp)
    · exact absurd hs (by simp)
    · simp only [Option.some.injEq] at hs
      subst hs
      exact oneEof_teardown false _
        (oneEof_congr _ _ rfl rfl rfl (oneEof_setSocketState s r .CLOSED h))
  | socketError r =>
    simp only [step19] at hs
    split at hs
    · exact absurd hs (by simp)
    · exact absurd hs (by simp)
    · simp only [Option.some.injEq] at hs
      subst hs
      exact oneEof_teardown true _ (oneEof_congr s _ rfl rfl rfl h)
  | micGranted =>
    simp only [step19] at hs
    split at hs
    · exact absurd hs (by simp)
    · simp only [Option.some.injEq] at hs
      subst hs
      exact oneEof_congr s _ rfl rfl rfl h
  | micDenied =>
    simp only [step19] at hs
    split at hs
    · exact absurd hs (by simp)
    · simp only [Option.some.injEq] at hs
      subst hs
      exact oneEof_teardown true _ (oneEof_congr s _ rfl rfl rfl h)
  | message m =>
    simp only [step19, Option.some.injEq] at hs
    subst hs
    cases m with
    | transcription endOfTurn text =>
      refine oneEof_congr s _ ?_ ?_ ?_ h <;> simp only [onmessage19] <;> split <;> rfl
    | audio data => exact h
    | audioEnd => exact h
    | error message => exact oneEof_congr s _ rfl rfl rfl h
    | status message => exact oneEof_congr s _ rfl rfl rfl h
    | unknown => exact h
  | statusTimeout =>
    simp only [step19] at hs
    split at hs
    · exact absurd hs (by simp)
    · simp only [Option.some.injEq] at hs
      subst hs
      unfold onStatusTimeout19
      split
      · exact oneEof_congr s _ rfl rfl rfl h
      · exact oneEof_congr s _ rfl rfl rfl h

theorem oneEof_run19 (es : List Event19) :
    ∀ (s t : Recorder), OneEofPerSession s → run19 s es = some t → OneEofPerSession t := by
  induction es with
  | nil =>
    intro s t h hr
    simp only [run19, Option.some.injEq] at hr
    subst hr
    exact h
  | cons e es ih =>
    intro s t h hr
    simp only [run19] at hr
    cases hs : step19 s e with
    | none => rw [hs] at hr; exact absurd hr (by simp)
    | some s1 =>
      rw [hs] at hr
      exact ih s1 t (oneEof_step19 s s1 e h hs) hr

theorem oneEof_pageLoad19 : OneEofPerSession pageLoad19 := by
  refine ⟨?_, ?_, ?_⟩
  · intro k; simp [eofCount, pageLoad19]
  · intro k _; simp [eofCount, pageLoad19]
  · intro h; exact absurd h (by decide)

/-- C25: in day 19, `stopRecording` with `sendEOF = true` in a running session whose socket
is open sends exactly one text frame `EOF` on that socket and then closes it; `onclose`
(which calls `stopRecording(false)`) sends no `EOF` frame in any state; and in every state
reached from the loaded page, each session's socket has been sent at most one `EOF`
frame. -/
theorem eof_sent_once19 (s t : Recorder) (es : List Event19) (hrec : s.isRecording = true)
    (hopen : s.socket = some .OPEN) (hrun : run19 pageLoad19 es = some t) :
    (stopRecording19 true s).wire = s.wire ++ [Wire.text s.created "EOF", Wire.close s.created] ∧
    (∀ (x : Recorder) (k : Nat), eofCount (onclose19 x) k = eofCount x k) ∧
    (∀ k, eofCount t k ≤ 1) := by
  refine ⟨?_, ?_, ?_⟩
  · have h := (teardown19_active true s hrec).1
    rw [if_pos hopen] at h
    simpa [stopRecording19] using h
  · intro x k
    unfold onclose19 stopRecording19
    rw [teardown19_eofCount]
    simp [eofCount]
  · exact (oneEof_run19 es pageLoad19 t oneEof_pageLoad19 hrun).1

/-- Witness for C25: a session is started, the socket opens, the microphone is granted, and
the record button is clicked again: one `EOF` frame, then the close, on socket `1`. -/
theorem eof_sent_once19_witness :
    (stopRecording19 true session19).wire = [Wire.text 1 "EOF", Wire.close 1] ∧
    eofCount (stopRecording19 true session19) 1 ≤ 1 :=
  have h := eof_sent_once19 session19 (stopRecording19 true session19)
    [.click true, .socketOpen .current, .micGranted, .click true] rfl rfl rfl
  ⟨h.1, h.2.2 1⟩


/-! ## Day 21: decoding the joined chunks -/

theorem sextet_not_whitespace (ch : Char) (h : (sextet ch).isSome = true) :
    isAsciiWhitespace ch = false := by
  by_contra hw
  have hw2 : isAsciiWhitespace ch = true := by simpa using hw
  simp only [isAsciiWhitespace, Bool.or_eq_true, decide_eq_true_eq] at hw2
  rcases hw2 with (((h1 | h1) | h1) | h1) | h1 <;> subst h1 <;> revert h <;> decide

theorem sextet_ne_pad (ch : Char) (h : (sextet ch).isSome = true) : ch ≠ '=' := by
  intro e
  subst e
  revert h
  decide

theorem filter_alphabet (c : List Char) (h : ∀ ch ∈ c, (sextet ch).isSome = true) :
    c.filter (fun ch => !isAsciiWhitespace ch) = c := by
  rw [List.filter_eq_self]
  intro ch hch
  simp [sextet_not_whitespace ch (h ch hch)]

theorem sextets_alphabet (c : List Char) (h : ∀ ch ∈ c, (sextet ch).isSome = true) :
    ∃ vs, sextets c = some vs ∧ vs.length = c.length := by
  induction c with
  | nil => exact ⟨[], rfl, rfl⟩
  | cons a c ih =>
    obtain ⟨vs, h1, h2⟩ := ih (fun ch hch => h ch (List.mem_cons_of_mem _ hch))
    have ha := h a (List.mem_cons_self _ _)
    obtain ⟨v, hv⟩ := Option.isSome_iff_exists.mp ha
    exact ⟨v :: vs, by simp [sextets, hv, h1], by simp [h2]⟩

theorem sextets_append (xs ys : List Char) :
    ∀ vs, sextets xs = some vs → sextets (xs ++ ys) = (sextets ys).map (fun ws => vs ++ ws) := by
  induction xs with
  | nil =>
    intro vs h
    simp only [sextets, Option.some.injEq] at h
    subst h
    simp
  | cons a xs ih =>
    intro vs h
    cases ha : sextet a with
    | none => simp [sextets, ha] at h
    | some v =>
      cases hx : sextets xs with
      | none => simp [sextets, ha, hx] at h
      | some vs1 =>
        simp only [sextets, ha, hx, Option.some.injEq] at h
        subst h
        rw [List.cons_append]
        simp only [sextets, ha, ih vs1 hx]
        cases sextets ys <;> simp

theorem decodeSextets_append (n : Nat) :
    ∀ (vs ws : List Nat), vs.length = 4 * n →
      decodeSextets (vs ++ ws) = decodeSextets vs ++ decodeSextets ws := by
  induction n with
  | zero =>
    intro vs ws h
    have e : vs = [] := List.length_eq_zero.mp (by omega)
    subst e
    simp [decodeSextets]
  | succ n ih =>
    intro vs ws h
    match vs, h with
    | [], h => simp only [List.length_nil] at h; omega
    | [_], h => simp only [List.length_cons, List.length_nil] at h; omega
    | [_, _], h => simp only [List.length_cons, List.length_nil] at h; omega
    | [_, _, _], h => simp only [List.length_cons, List.length_nil] at h; omega
    | a :: b :: c :: d :: rest, h =>
      have hr : rest.length = 4 * n := by
        simp only [List.length_cons] at h
        omega
      have hi := ih rest ws hr
      simp [decodeSextets, hi]

theorem getLast_pad_append (P L : List Char) (hP : ∀ ch ∈ P, ch ≠ '=') :
    (P ++ L).getLast? = some '=' ↔ L.getLast? = some '=' := by
  rw [List.getLast?_append]
  cases hL : L.getLast? with
  | some x => simp
  | none =>
    simp only [Option.or_none, reduceCtorEq, iff_false]
    intro hlast
    exact hP '=' (List.mem_of_getLast?_eq_some hlast) rfl

theorem dropLast_append_pad (P L : List Char) (h : L.getLast? = some '=') :
    (P ++ L).dropLast = P ++ L.dropLast := by
  have hne : L ≠ [] := by
    intro e
    subst e
    simp at h
  exact List.dropLast_append_of_ne_nil P hne

theorem dropPadding_append (P L : List Char) (hP : ∀ ch ∈ P, ch ≠ '=')
    (hlen : P.length % 4 = 0) : dropPadding (P ++ L) = P ++ dropPadding L := by
  have hl : (P ++ L).length % 4 = 0 ↔ L.length % 4 = 0 := by
    rw [List.length_append]
    omega
  unfold dropPadding
  by_cases h4 : L.length % 4 = 0
  · rw [if_pos (hl.mpr h4), if_pos h4]
    by_cases h1 : L.getLast? = some '='
    · rw [if_pos ((getLast_pad_append P L hP).mpr h1), if_pos h1, dropLast_append_pad P L h1]
      by_cases h2 : L.dropLast.getLast? = some '='
      · rw [if_pos ((getLast_pad_append P _ hP).mpr h2), if_pos h2,
          dropLast_append_pad P _ h2]
      · rw [if_neg (fun h => h2 ((getLast_pad_append P _ hP).mp h)), if_neg h2]
    · rw [if_neg (fun h => h1 ((getLast_pad_append P L hP).mp h)), if_neg h1]
  · rw [if_neg (fun h => h4 (hl.mp h)), if_neg h4]

theorem atob_append (c rest : List Char) (halpha : ∀ ch ∈ c, (sextet ch).isSome = true)
    (hlen : c.length % 4 = 0) :
    ∃ b, atob c = some b ∧ atob (c ++ rest) = (atob rest).map (fun bs => b ++ bs) := by
  obtain ⟨vs, hvs, hvl⟩ := sextets_alphabet c halpha
  have hpad : ∀ ch ∈ c, ch ≠ '=' := fun ch hch => sextet_ne_pad ch (halpha ch hch)
  have hdrop : ∀ L, dropPadding (c ++ L) = c ++ dropPadding L :=
    fun L => dropPadding_append c L hpad hlen
  have hc : dropPadding c = c := by
    have := hdrop []
    simpa [dropPadding] using this
  refine ⟨decodeSextets vs, ?_, ?_⟩
  · unfold atob
    simp only [filter_alphabet c halpha, hc]
    rw [if_neg (by omega), hvs]
    rfl
  · unfold atob
    simp only [List.filter_append, filter_alphabet c halpha, hdrop]
    have hl : (c ++ dropPadding (List.filter (fun c => !isAsciiWhitespace c) rest)).length % 4 = 1
        ↔ (dropPadding (List.filter (fun c => !isAsciiWhitespace c) rest)).length % 4 = 1 := by
      rw [List.length_append]
      omega
    by_cases h1 : (dropPadding (List.filter (fun c => !isAsciiWhitespace c) rest)).length % 4 = 1
    · rw [if_pos (hl.mpr h1), if_pos h1]
      rfl
    · rw [if_neg (fun h => h1 (hl.mp h)), if_neg h1, sextets_append c _ vs hvs]
      cases sextets (dropPadding (List.filter (fun c => !isAsciiWhitespace c) rest)) with
      | none => rfl
      | some ws =>
        obtain ⟨n, hn⟩ : ∃ n, vs.length = 4 * n := ⟨vs.length / 4, by omega⟩
        simp [decodeSextets_append n vs ws hn]

theorem atob_flatten (chunks : List (List Char)) (last : List Char) (bytes : List Nat)
    (hchunks : ∀ c ∈ chunks, c.length % 4 = 0 ∧ ∀ ch ∈ c, (sextet ch).isSome = true)
    (hlast : atob last = some bytes) :
    ∃ bs : List (List Nat), chunks.map atob = bs.map some ∧
      atob (chunks ++ [last]).flatten = some (bs.flatten ++ bytes) := by
  induction chunks with
  | nil => exact ⟨[], rfl, by simpa using hlast⟩
  | cons c cs ih =>
    obtain ⟨bs, h1, h2⟩ := ih (fun x hx => hchunks x (List.mem_cons_of_mem _ hx))
    obtain ⟨hlen, halpha⟩ := hchunks c (List.mem_cons_self _ _)
    obtain ⟨b, hb1, hb2⟩ := atob_append c (cs ++ [last]).flatten halpha hlen
    refine ⟨b :: bs, by simp [hb1, h1], ?_⟩
    rw [List.cons_append, List.flatten_cons, hb2, h2]
    simp

/-- C30, as stated, fails: the chunks `QQ==` and `Qg==` are each a valid base64 encoding
(of the bytes `65` and `66`), but `atob` of their concatenation throws, and day 21 plays
nothing on `audio_end`. -/
theorem atob_join_padded_fails :
    atob ['Q', 'Q', '=', '='] = some [65] ∧
    atob ['Q', 'g', '=', '='] = some [66] ∧
    atob [['Q', 'Q', '=', '='], ['Q', 'g', '=', '=']].flatten = none ∧
    (receive21 session21
      [.audio ['Q', 'Q', '=', '='], .audio ['Q', 'g', '=', '='], .audioEnd]).played = [] :=
  ⟨by decide, by decide, by decide, by decide⟩

/-- C30, amended: in the audio reassembly of day 21, when every chunk except the last is
made of characters of the base64 alphabet only (no padding, no whitespace) and has a length
that is a multiple of four, and the last chunk is accepted by `atob`, then every chunk
decodes on its own, `atob` of the joined chunks succeeds and yields the concatenation of the
individually decoded byte strings in arrival order, and `audio_end` plays exactly these
bytes and empties the chunk buffer. -/
theorem atob_join_unpadded (s : Recorder) (chunks : List (List Char)) (last : List Char)
    (bytes : List Nat)
    (hchunks : ∀ c ∈ chunks, c.length % 4 = 0 ∧ ∀ ch ∈ c, (sextet ch).isSome = true)
    (hlast : atob last = some bytes) (hs : s.audioChunks = chunks ++ [last]) :
    ∃ bs : List (List Nat), chunks.map atob = bs.map some ∧
      atob (chunks ++ [last]).flatten = some (bs.flatten ++ bytes) ∧
      (onmessage21 s .audioEnd).played = s.played ++ [bs.flatten ++ bytes] ∧
      (onmessage21 s .audioEnd).audioChunks = [] := by
  obtain ⟨bs, h1, h2⟩ := atob_flatten chunks last bytes hchunks hlast
  have h3 : atob (chunks.flatten ++ last) = some (bs.flatten ++ bytes) := by
    simpa using h2
  refine ⟨bs, h1, h2, ?_, ?_⟩
  · simp [onmessage21, hs, h3]
  · simp [onmessage21, hs, h3]

/-- Witness for C30: the chunks `QUJD` and `QQ==` are played as the bytes
`65, 66, 67, 65`. -/
theorem atob_join_unpadded_witness :
    ∃ bs : List (List Nat), [['Q', 'U', 'J', 'D']].map atob = bs.map some ∧
      atob ([['Q', 'U', 'J', 'D']] ++ [['Q', 'Q', '=', '=']]).flatten
        = some (bs.flatten ++ [65]) ∧
      (onmessage21
          { session21 with audioChunks := [['Q', 'U', 'J', 'D']] ++ [['Q', 'Q', '=', '=']] }
          .audioEnd).played
        = ({ session21 with
              audioChunks := [['Q', 'U', 'J', 'D']] ++ [['Q', 'Q', '=', '=']] } : Recorder).played
            ++ [bs.flatten ++ [65]] ∧
      (onmessage21
          { session21 with audioChunks := [['Q', 'U', 'J', 'D']] ++ [['Q', 'Q', '=', '=']] }
          .audioEnd).audioChunks = [] :=
  atob_join_unpadded
    { session21 with audioChunks := [['Q', 'U', 'J', 'D']] ++ [['Q', 'Q', '=', '=']] }
    [['Q', 'U', 'J', 'D']] ['Q', 'Q', '=', '='] [65] (by decide) (by decide) rfl


end VoiceBot
